import Mathlib

/-!
# Switchtec fabric library (`lib/fabric.c`): chunked dump sessions and section decoders

A shallow embedding of the dump functions of `lib/fabric.c`.

* Machine integers are naturals reduced explicitly: `uint16_t` modulo `2 ^ 16`,
  `uint32_t` modulo `2 ^ 32`, `size_t` modulo `2 ^ 64`; `int` return codes are integers.
* A memory object is the list of its bytes.  `memcpy` is modelled by `rd` (the source
  range) and `wr` (the destination range); a range that leaves its object has no defined
  behaviour in C and yields `none`.
* `switchtec_cmd` is external: the device is a transition function from a device state and
  a command to a response and a next state.  Every exchange is appended to a command trace.
* Loops whose exit depends on the device (`do ... while`) take a fuel argument; `none` is
  also the result when the fuel runs out.
-/

namespace Fabric

/-! ## Memory -/

/-- A memory object: the list of its bytes. -/
abbrev Bytes := List Nat

/-- Modulus of `uint8_t`, `2 ^ 8`. -/
def U8 : Nat := 256

/-- Modulus of `uint16_t`, `2 ^ 16`. -/
def U16 : Nat := 65536

/-- Modulus of `uint32_t`, `2 ^ 32`. -/
def U32 : Nat := 4294967296

/-- Modulus of `uint64_t` and of `size_t`, `2 ^ 64`. -/
def U64 : Nat := 18446744073709551616

/-- Source side of `memcpy(_, src + off, len)`: the `len` bytes at offset `off`,
defined only when the range lies inside `src`. -/
def rd (src : Bytes) (off len : Nat) : Option Bytes :=
  if off + len ≤ src.length then some ((src.drop off).take len) else none

/-- Destination side of `memcpy(dst + off, bytes, bytes.length)`: defined only when the
range lies inside `dst`. -/
def wr (dst : Bytes) (off : Nat) (bytes : Bytes) : Option Bytes :=
  if off + bytes.length ≤ dst.length then
    some (dst.take off ++ bytes ++ dst.drop (off + bytes.length))
  else none

/-- Value of an integer field stored in little-endian byte order. -/
def le : Bytes → Nat
  | [] => 0
  | b :: bs => b % 256 + 256 * le bs

/-! ## Command exchange -/

/-- The requests this file sends through `switchtec_cmd`, one constructor per request
struct: the topology dump sub-commands, the HVD detail dump, and the `type` 1/2/3
(start/get/finish) requests of the endpoint-port and PAX-all dumps. -/
inductive Cmd where
  | TOPO_INFO_DUMP_START
  | TOPO_INFO_DUMP_STATUS_GET
  | TOPO_INFO_DUMP_DATA_GET (offset : Nat) (resp_len : Nat)
  | TOPO_INFO_DUMP_FINISH
  | GFMS_DB_DUMP_HVD_DETAIL (hvd_idx : Nat)
  | GFMS_DB_DUMP_EP_PORT_START (fab_ep_pid : Nat)
  | GFMS_DB_DUMP_EP_PORT_GET (fab_ep_pid : Nat) (offset_dw : Nat)
  | GFMS_DB_DUMP_EP_PORT_FINISH
  | GFMS_DB_DUMP_PAX_ALL_START
  | GFMS_DB_DUMP_PAX_ALL_GET (offset_dw : Nat)
  | GFMS_DB_DUMP_PAX_ALL_FINISH
  deriving DecidableEq, Repr

/-- Outcome of one `switchtec_cmd`: the return code and the fields of the response
structs declared in the callers (`status`, `data_len_dw` for the topology dump; `dw_len`
for a start; `offset_dw`, `size_dw` for a get) with the response's `data` bytes. -/
structure Rsp where
  ret : Int
  status : Nat
  data_len_dw : Nat
  dw_len : Nat
  offset_dw : Nat
  size_dw : Nat
  data : Bytes
  deriving DecidableEq, Repr

/-- The device behind `switchtec_cmd`, with the two capability predicates and the size
`MRPC_MAX_DATA_LEN` of the largest response it transfers, a constant of the transport
headers, which are not part of the sources and leave it a parameter.  The responses of
the paged dumps are a 12-byte header followed by `data[MRPC_MAX_DATA_LEN - 12]`. -/
structure Dev (σ : Type) where
  is_gen4 : Bool
  is_pax : Bool
  MRPC_MAX_DATA_LEN : Nat
  exchange : σ → Cmd → Rsp × σ

/-- State of a call sequence: device state, commands issued so far, `errno`. -/
structure Sess (σ : Type) where
  st : σ
  trace : List Cmd
  errno : Int
  deriving DecidableEq

/-- One exchange through `switchtec_cmd`; the command is recorded in the trace. -/
def switchtec_cmd {σ : Type} (dev : Dev σ) (s : Sess σ) (c : Cmd) : Rsp × Sess σ :=
  ((dev.exchange s.st c).1, { s with st := (dev.exchange s.st c).2, trace := s.trace ++ [c] })

/-! ## Paged retrieval of the PAX-all and endpoint-port dumps -/

/-- Result of a paging loop: return code, final `cmd.offset_dw`, buffer, session. -/
structure GetResult (σ : Type) where
  ret : Int
  offset_dw : Nat
  data : Bytes
  sess : Sess σ
  deriving DecidableEq

/-- `gfms_pax_all_start`. -/
def gfms_pax_all_start {σ : Type} (dev : Dev σ) (s : Sess σ) : Int × Nat × Sess σ :=
  let r := switchtec_cmd dev s Cmd.GFMS_DB_DUMP_PAX_ALL_START
  (r.1.ret, r.1.dw_len % U32, r.2)

/-- One pass through the body of the `do ... while` loop of `gfms_pax_all_get`, entered
with the current `cmd.offset_dw` and destination buffer.  The source of the copy is the
array `rsp.data` of `MRPC_MAX_DATA_LEN - 12` bytes: a copy of more bytes than the array
holds has no defined behaviour.  The flag is `false` after the `break` on a failed
exchange, and otherwise the loop condition `total_len_dw > rsp.offset_dw + rsp.size_dw`. -/
def gfms_pax_all_get_body {σ : Type} (dev : Dev σ) (total_len_dw : Nat) (s : Sess σ)
    (offset_dw : Nat) (data : Bytes) : Option (GetResult σ × Bool) :=
  let r := switchtec_cmd dev s (Cmd.GFMS_DB_DUMP_PAX_ALL_GET offset_dw)
  if r.1.ret ≠ 0 then some (⟨r.1.ret, offset_dw, data, r.2⟩, false)
  else do
    let size_dw := (r.1.size_dw % U32 + U32 - 3) % U32
    let chunk ← rd (r.1.data.take (dev.MRPC_MAX_DATA_LEN - 12)) 0 (size_dw * 4 % U32)
    let data1 ← wr data (offset_dw * 4 % U32) chunk
    pure (⟨0, (offset_dw + size_dw) % U32, data1, r.2⟩,
      decide (total_len_dw > (r.1.offset_dw % U32 + size_dw) % U32))

/-- The `do ... while` loop of `gfms_pax_all_get`. -/
def gfms_pax_all_get_loop {σ : Type} (dev : Dev σ) (total_len_dw : Nat) :
    Nat → Sess σ → Nat → Bytes → Option (GetResult σ)
  | 0, _, _, _ => none
  | fuel + 1, s, offset_dw, data =>
    (gfms_pax_all_get_body dev total_len_dw s offset_dw data).bind fun r =>
      if r.2 then gfms_pax_all_get_loop dev total_len_dw fuel r.1.sess r.1.offset_dw r.1.data
      else some r.1

/-- `gfms_pax_all_get`. -/
def gfms_pax_all_get {σ : Type} (dev : Dev σ) (fuel : Nat) (s : Sess σ)
    (total_len_dw : Nat) (data : Bytes) : Option (GetResult σ) :=
  gfms_pax_all_get_loop dev total_len_dw fuel s 0 data

/-- `gfms_pax_all_finish`. -/
def gfms_pax_all_finish {σ : Type} (dev : Dev σ) (s : Sess σ) : Int × Sess σ :=
  let r := switchtec_cmd dev s Cmd.GFMS_DB_DUMP_PAX_ALL_FINISH
  (r.1.ret, r.2)

/-- `gfms_ep_port_start`. -/
def gfms_ep_port_start {σ : Type} (dev : Dev σ) (s : Sess σ) (fab_ep_pid : Nat) :
    Int × Nat × Sess σ :=
  let r := switchtec_cmd dev s (Cmd.GFMS_DB_DUMP_EP_PORT_START fab_ep_pid)
  (r.1.ret, r.1.dw_len % U32, r.2)

/-- One pass through the body of the `do ... while` loop of `gfms_ep_port_get`; the
response size is capped at `0xf0` before the 3-dword header is subtracted, and the source
of the copy is the array `rsp.data` of `MRPC_MAX_DATA_LEN - 12` bytes.  The flag is
`false` after the `break` on a failed exchange, and otherwise the loop condition. -/
def gfms_ep_port_get_body {σ : Type} (dev : Dev σ) (fab_ep_pid total_len_dw : Nat)
    (s : Sess σ) (offset_dw : Nat) (data : Bytes) : Option (GetResult σ × Bool) :=
  let r := switchtec_cmd dev s (Cmd.GFMS_DB_DUMP_EP_PORT_GET fab_ep_pid offset_dw)
  if r.1.ret ≠ 0 then some (⟨r.1.ret, offset_dw, data, r.2⟩, false)
  else do
    let capped := if r.1.size_dw % U32 > 0xf0 then 0xf0 else r.1.size_dw % U32
    let size_dw := (capped + U32 - 3) % U32
    let chunk ← rd (r.1.data.take (dev.MRPC_MAX_DATA_LEN - 12)) 0 (size_dw * 4 % U32)
    let data1 ← wr data (offset_dw * 4 % U32) chunk
    pure (⟨0, (offset_dw + size_dw) % U32, data1, r.2⟩,
      decide (total_len_dw > (r.1.offset_dw % U32 + size_dw) % U32))

/-- The `do ... while` loop of `gfms_ep_port_get`. -/
def gfms_ep_port_get_loop {σ : Type} (dev : Dev σ) (fab_ep_pid total_len_dw : Nat) :
    Nat → Sess σ → Nat → Bytes → Option (GetResult σ)
  | 0, _, _, _ => none
  | fuel + 1, s, offset_dw, data =>
    (gfms_ep_port_get_body dev fab_ep_pid total_len_dw s offset_dw data).bind fun r =>
      if r.2 then
        gfms_ep_port_get_loop dev fab_ep_pid total_len_dw fuel r.1.sess r.1.offset_dw r.1.data
      else some r.1

/-- `gfms_ep_port_get`. -/
def gfms_ep_port_get {σ : Type} (dev : Dev σ) (fuel : Nat) (s : Sess σ)
    (fab_ep_pid total_len_dw : Nat) (data : Bytes) : Option (GetResult σ) :=
  gfms_ep_port_get_loop dev fab_ep_pid total_len_dw fuel s 0 data

/-- `gfms_ep_port_finish`. -/
def gfms_ep_port_finish {σ : Type} (dev : Dev σ) (s : Sess σ) : Int × Sess σ :=
  let r := switchtec_cmd dev s Cmd.GFMS_DB_DUMP_EP_PORT_FINISH
  (r.1.ret, r.2)

/-! ## Topology dump -/

/-- `errno` value `ENOTSUP` of `<errno.h>` (Linux). -/
def ENOTSUP : Int := 95

/-- `SWITCHTEC_FAB_TOPO_INFO_DUMP_WAIT`. -/
def SWITCHTEC_FAB_TOPO_INFO_DUMP_WAIT : Nat := 2

/-- `SWITCHTEC_FAB_TOPO_INFO_DUMP_READY`. -/
def SWITCHTEC_FAB_TOPO_INFO_DUMP_READY : Nat := 3

/-- `SWITCHTEC_FAB_TOPO_INFO_DUMP_FAILED`. -/
def SWITCHTEC_FAB_TOPO_INFO_DUMP_FAILED : Nat := 4

/-- `SWITCHTEC_FAB_TOPO_INFO_DUMP_WRONG_SUB_CMD`. -/
def SWITCHTEC_FAB_TOPO_INFO_DUMP_WRONG_SUB_CMD : Nat := 5

/-- `SWITCHTEC_TOPO_INFO_DUMP_DATA_LENGTH_MAX`. -/
def SWITCHTEC_TOPO_INFO_DUMP_DATA_LENGTH_MAX : Nat := 1000

/-- `topo_info_dump_start`. -/
def topo_info_dump_start {σ : Type} (dev : Dev σ) (s : Sess σ) : Int × Sess σ :=
  let r := switchtec_cmd dev s Cmd.TOPO_INFO_DUMP_START
  (r.1.ret, r.2)

/-- What `topo_info_dump_status_get` hands back: return code, `*status`, `*info_len`. -/
structure StatusResult (σ : Type) where
  ret : Int
  status : Nat
  info_len : Nat
  sess : Sess σ
  deriving DecidableEq

/-- `topo_info_dump_status_get`: `*status = result.status` (a `uint8_t`) and
`*info_len = result.data_len_dw * 4` stored into a `uint16_t`. -/
def topo_info_dump_status_get {σ : Type} (dev : Dev σ) (s : Sess σ) : StatusResult σ :=
  let r := switchtec_cmd dev s Cmd.TOPO_INFO_DUMP_STATUS_GET
  ⟨r.1.ret, r.1.status % U8, (r.1.data_len_dw % U16) * 4 % U16, r.2⟩

/-- What `topo_info_dump_data_get` hands back: return code, the destination object after
the `memcpy`, `*len`. -/
structure DataResult (σ : Type) where
  ret : Int
  topo_info : Bytes
  len : Nat
  sess : Sess σ
  deriving DecidableEq

/-- `topo_info_dump_data_get(dev, offset, buf, len)` with `buf = topo_info + offset`.
`sizeof(result)` is `4 + SWITCHTEC_TOPO_INFO_DUMP_DATA_LENGTH_MAX`; the `memcpy` of
`*len` bytes runs whatever the return code is, and its source is the array `result.data`
of `SWITCHTEC_TOPO_INFO_DUMP_DATA_LENGTH_MAX` bytes. -/
def topo_info_dump_data_get {σ : Type} (dev : Dev σ) (s : Sess σ) (offset : Nat)
    (topo_info : Bytes) (len : Nat) : Option (DataResult σ) :=
  let sizeof_result := 4 + SWITCHTEC_TOPO_INFO_DUMP_DATA_LENGTH_MAX
  let buf_len :=
    if len < SWITCHTEC_TOPO_INFO_DUMP_DATA_LENGTH_MAX then
      len + sizeof_result - SWITCHTEC_TOPO_INFO_DUMP_DATA_LENGTH_MAX
    else sizeof_result
  let r := switchtec_cmd dev s (Cmd.TOPO_INFO_DUMP_DATA_GET offset buf_len)
  let len1 := (r.1.data_len_dw % U16) * 4 % U16
  do
    let bytes ← rd (r.1.data.take SWITCHTEC_TOPO_INFO_DUMP_DATA_LENGTH_MAX) 0 len1
    let topo_info1 ← wr topo_info offset bytes
    pure ⟨r.1.ret, topo_info1, len1, r.2⟩

/-- `topo_info_dump_finish`. -/
def topo_info_dump_finish {σ : Type} (dev : Dev σ) (s : Sess σ) : Int × Sess σ :=
  let r := switchtec_cmd dev s Cmd.TOPO_INFO_DUMP_FINISH
  (r.1.ret, r.2)

/-- The status polling loop of `switchtec_topo_info_dump`:
`do { ret = status_get(...); if (ret) return ret; } while (status == WAIT);`.
The result is the last status exchange. -/
def topo_status_loop {σ : Type} (dev : Dev σ) : Nat → Sess σ → Option (StatusResult σ)
  | 0, _ => none
  | fuel + 1, s =>
    if (topo_info_dump_status_get dev s).ret ≠ 0 then some (topo_info_dump_status_get dev s)
    else if (topo_info_dump_status_get dev s).status = SWITCHTEC_FAB_TOPO_INFO_DUMP_WAIT then
      topo_status_loop dev fuel (topo_info_dump_status_get dev s).sess
    else some (topo_info_dump_status_get dev s)

/-- What `switchtec_topo_info_dump` leaves: return code, `*topo_info`, session. -/
structure TopoResult (σ : Type) where
  ret : Int
  topo_info : Bytes
  sess : Sess σ
  deriving DecidableEq

/-- The data loop of `switchtec_topo_info_dump` followed by the final
`return topo_info_dump_finish(dev)`; `offset` and `buf_len` are `uint16_t`. -/
def topo_data_loop {σ : Type} (dev : Dev σ) (sizeof_topo total_info_len : Nat) :
    Nat → Sess σ → Nat → Nat → Bytes → Option (TopoResult σ)
  | 0, s, offset, _, topo_info =>
    if offset < total_info_len then none
    else some ⟨(topo_info_dump_finish dev s).1, topo_info, (topo_info_dump_finish dev s).2⟩
  | fuel + 1, s, offset, buf_len, topo_info =>
    if offset < total_info_len then
      (topo_info_dump_data_get dev s offset topo_info buf_len).bind fun d =>
        if d.ret ≠ 0 then some ⟨d.ret, d.topo_info, d.sess⟩
        else
          topo_data_loop dev sizeof_topo total_info_len fuel d.sess ((offset + d.len) % U16)
            ((sizeof_topo + U64 - (offset + d.len) % U16) % U64 % U16) d.topo_info
    else some ⟨(topo_info_dump_finish dev s).1, topo_info, (topo_info_dump_finish dev s).2⟩

/-- `switchtec_topo_info_dump`; `sizeof_topo` is `sizeof(struct switchtec_fab_topo_info)`
and `topo_info` the bytes of the caller's record. -/
def switchtec_topo_info_dump {σ : Type} (dev : Dev σ) (sizeof_topo fuel : Nat) (s : Sess σ)
    (topo_info : Bytes) : Option (TopoResult σ) :=
  if !dev.is_gen4 || !dev.is_pax then some ⟨-1, topo_info, { s with errno := ENOTSUP }⟩
  else if (topo_info_dump_start dev s).1 ≠ 0 then
    some ⟨(topo_info_dump_start dev s).1, topo_info, (topo_info_dump_start dev s).2⟩
  else
    (topo_status_loop dev fuel (topo_info_dump_start dev s).2).bind fun st =>
      if st.ret ≠ 0 then some ⟨st.ret, topo_info, st.sess⟩
      else if st.status ≠ SWITCHTEC_FAB_TOPO_INFO_DUMP_READY then some ⟨-1, topo_info, st.sess⟩
      else if st.info_len > sizeof_topo then some ⟨-1, topo_info, st.sess⟩
      else topo_data_loop dev sizeof_topo st.info_len fuel st.sess 0 (sizeof_topo % U16) topo_info

/-! ## HVD detail dump -/

/-- Layout of `struct switchtec_gfms_db_hvd_detail`, whose declaration (`fabric.h`) is not
part of the sources and is therefore a parameter: `sizeof(hvd_detail->hdr)`, the offset of
`vep_region` in the body, the scalar members in front of it as functions of the bytes in
front of `vep_region`, the element sizes of the three arrays and the sizes of
`log_dsp_count` and `usp_bdf`. -/
structure HvdDetailLayout where
  hdr_size : Nat
  vep_region_off : Nat
  hvd_inst_id : Bytes → Nat
  phy_pid : Bytes → Nat
  hfid : Bytes → Nat
  vep_count : Bytes → Nat
  usp_status : Bytes → Nat
  vep_region_elem : Nat
  log_dsp_count_size : Nat
  usp_bdf_size : Nat
  log_port_region_elem : Nat
  log_port_p2p_bitmap_elem : Nat

/-- The body of `struct switchtec_gfms_db_hvd_detail`: scalars assigned member by member
are numbers, members filled by `memcpy` are their bytes. -/
structure HvdDetailBody where
  hvd_inst_id : Nat
  phy_pid : Nat
  hfid : Nat
  vep_count : Nat
  usp_status : Nat
  vep_region : Bytes
  log_dsp_count : Bytes
  usp_bdf : Bytes
  log_port_region : Bytes
  log_port_p2p_enable_bitmap_low : Bytes
  log_port_p2p_enable_bitmap_high : Bytes
  log_port_count : Nat
  log_port_p2p_bitmap : Bytes
  deriving DecidableEq, Repr

/-- The caller's `struct switchtec_gfms_db_hvd_detail`. -/
structure HvdDetail where
  hdr : Bytes
  body : HvdDetailBody
  deriving DecidableEq, Repr

/-- An `int len` handed to `memcpy`: a negative `int` becomes a `size_t` above the size of
any object, which has no defined behaviour. -/
def int_len (x : Nat) : Option Nat :=
  if x % U32 < 2147483648 then some (x % U32) else none

/-- The 64-bit `bitmap`: `bitmap = high; bitmap <<= 32; bitmap |= low;`. -/
def hvd_detail_bitmap (low high : Bytes) : Nat :=
  ((le high % U32) <<< 32) % U64 ||| (le low % U32)

/-- The counting loop
`for (i = 0; i < sizeof(bitmap) * 8; i++) if (bitmap >> i && 0x1) log_port_count++;`
started from `log_port_count = 0`; `&&` is the logical conjunction of the source. -/
def hvd_detail_log_port_count (bitmap : Nat) : Nat :=
  (List.range 64).foldl
    (fun count i => if (bitmap >>> i ≠ 0 ∧ (0x1 : Nat) ≠ 0) then count + 1 else count) 0

/-- First part of the decoding in `switchtec_fab_gfms_db_dump_hvd_detail`: the header,
the scalar members in front of `vep_region`, and `vep_region`.  `data` is the response
buffer; the result is the cursor `p` (an offset into `data`) and the caller's record. -/
def hvd_detail_decode_vep (H : HvdDetailLayout) (data : Bytes) (hvd_detail : HvdDetail) :
    Option (Nat × HvdDetail) := do
  let hdr ← rd data 0 H.hdr_size
  let body := H.hdr_size
  let members ← rd data body H.vep_region_off
  let p := body + H.vep_region_off
  let len ← int_len (H.vep_region_elem * H.vep_count members)
  let vep ← rd data p len
  let vep_region ← wr hvd_detail.body.vep_region 0 vep
  pure (p + len,
    { hdr := hdr
      body :=
        { hvd_detail.body with
          hvd_inst_id := H.hvd_inst_id members
          phy_pid := H.phy_pid members
          hfid := H.hfid members
          vep_count := H.vep_count members
          usp_status := H.usp_status members
          vep_region := vep_region } })

/-- Second part: `log_dsp_count`, `usp_bdf` and `log_port_region`, read at the cursor. -/
def hvd_detail_decode_log_port (H : HvdDetailLayout) (data : Bytes) (p : Nat)
    (hvd_detail : HvdDetail) : Option (Nat × HvdDetail) := do
  let len := H.log_dsp_count_size
  let log_dsp_count ← rd data p len
  let p := p + len
  let len := H.usp_bdf_size
  let usp_bdf ← rd data p len
  let p := p + len
  let len ← int_len (H.log_port_region_elem * le log_dsp_count)
  let lpr ← rd data p len
  let log_port_region ← wr hvd_detail.body.log_port_region 0 lpr
  pure (p + len,
    { hvd_detail with
      body :=
        { hvd_detail.body with
          log_dsp_count := log_dsp_count
          usp_bdf := usp_bdf
          log_port_region := log_port_region } })

/-- Third part: the two 32-bit bitmap halves `log_port_p2p_enable_bitmap_low` and
`log_port_p2p_enable_bitmap_high`, the count loop, and `log_port_p2p_bitmap`. -/
def hvd_detail_decode_p2p (H : HvdDetailLayout) (data : Bytes) (p : Nat)
    (hvd_detail : HvdDetail) : Option HvdDetail := do
  let low ← rd data p 4
  let p := p + 4
  let high ← rd data p 4
  let p := p + 4
  let bitmap := hvd_detail_bitmap low high
  let log_port_count := hvd_detail_log_port_count bitmap
  let len ← int_len (H.log_port_p2p_bitmap_elem * log_port_count)
  let p2p ← rd data p len
  let log_port_p2p_bitmap ← wr hvd_detail.body.log_port_p2p_bitmap 0 p2p
  pure
    { hvd_detail with
      body :=
        { hvd_detail.body with
          log_port_p2p_enable_bitmap_low := low
          log_port_p2p_enable_bitmap_high := high
          log_port_count := log_port_count
          log_port_p2p_bitmap := log_port_p2p_bitmap } }

/-- The part of `switchtec_fab_gfms_db_dump_hvd_detail` after the exchange. -/
def hvd_detail_decode (H : HvdDetailLayout) (data : Bytes) (hvd_detail : HvdDetail) :
    Option HvdDetail :=
  (hvd_detail_decode_vep H data hvd_detail).bind fun a =>
    (hvd_detail_decode_log_port H data a.1 a.2).bind fun b =>
      hvd_detail_decode_p2p H data b.1 b.2

/-- `switchtec_fab_gfms_db_dump_hvd_detail`: return code, the caller's record, session. -/
def switchtec_fab_gfms_db_dump_hvd_detail {σ : Type} (H : HvdDetailLayout) (dev : Dev σ)
    (s : Sess σ) (hvd_idx : Nat) (hvd_detail : HvdDetail) :
    Option (Int × HvdDetail × Sess σ) :=
  if (switchtec_cmd dev s (Cmd.GFMS_DB_DUMP_HVD_DETAIL hvd_idx)).1.ret ≠ 0 then
    some ((switchtec_cmd dev s (Cmd.GFMS_DB_DUMP_HVD_DETAIL hvd_idx)).1.ret, hvd_detail,
      (switchtec_cmd dev s (Cmd.GFMS_DB_DUMP_HVD_DETAIL hvd_idx)).2)
  else
    (hvd_detail_decode H (switchtec_cmd dev s (Cmd.GFMS_DB_DUMP_HVD_DETAIL hvd_idx)).1.data
      hvd_detail).map fun d =>
        (0, d, (switchtec_cmd dev s (Cmd.GFMS_DB_DUMP_HVD_DETAIL hvd_idx)).2)

/-- Number of set bits among the low 64 bits of `bitmap`. -/
def popcount64 (bitmap : Nat) : Nat :=
  ((List.range 64).filter fun i => bitmap.testBit i).length

/-! ## Section decoders -/

/-- Layout of the GFMS database records, whose declarations (`fabric.h`) are not part of
the sources and are therefore parameters: the `sizeof` of each header, the value of every
length or tag member as a function of the bytes of its header,
`sizeof(internal_functions[0])`, and the three `SWITCHTEC_GFMS_DB_TYPE_*` constants.  The
length members are unsigned integers of at most 32 bits: a product `member * 4` is
reduced modulo `2 ^ 32`, which is the `unsigned int` product of a 32-bit member and leaves
the `int` product of a narrower member as it is. -/
structure Layout where
  hdr_size : Nat
  resp_size_dw : Bytes → Nat
  pax_general_size : Nat
  logical_port_count : Bytes → Nat
  port_hdr_size : Nat
  port_type : Bytes → Nat
  port_size_dw : Bytes → Nat
  ep_hdr_size : Nat
  ep_size_dw : Bytes → Nat
  sw_hdr_size : Nat
  function_number : Bytes → Nat
  ds_function_size : Nat
  TYPE_SWITCH : Nat
  TYPE_EP : Nat
  TYPE_NON : Nat

/-- `struct switchtec_gfms_db_hvd_body`: the 8 bytes in front of `bound`, and `bound`. -/
structure HvdBody where
  hdr : Bytes
  bound : Bytes
  deriving DecidableEq, Repr

/-- `struct switchtec_gfms_db_hvd_all`. -/
structure HvdAll where
  hdr : Bytes
  hvd_count : Int
  bodies : List HvdBody
  deriving DecidableEq, Repr

/-- `struct switchtec_gfms_db_ep_port_ep`. -/
structure EpPortEp where
  ep_hdr : Bytes
  functions : Bytes
  deriving DecidableEq, Repr

/-- `struct switchtec_gfms_db_ep_port_switch`. -/
structure EpPortSwitch where
  sw_hdr : Bytes
  internal_functions : Bytes
  switch_eps : List EpPortEp
  deriving DecidableEq, Repr

/-- `struct switchtec_gfms_db_ep_port`. -/
structure EpPort where
  port_hdr : Bytes
  ep_switch : EpPortSwitch
  ep_ep : EpPortEp
  deriving DecidableEq, Repr

/-- `struct switchtec_gfms_db_ep_port_section`. -/
structure EpPortSection where
  hdr : Bytes
  ep_port : EpPort
  deriving DecidableEq, Repr

/-- `struct switchtec_gfms_db_ep_port_all_section`. -/
structure EpPortAll where
  hdr : Bytes
  ep_port_count : Int
  ep_ports : List EpPort
  deriving DecidableEq, Repr

/-- `struct switchtec_gfms_db_pax_all`. -/
structure PaxAll where
  pax_general : Bytes
  hvd_all : HvdAll
  ep_port_all : EpPortAll
  deriving DecidableEq, Repr

/-- Cursor, `parsed_len`, `remaining_len` and array element after one pass through the
loop of `gfms_hvd_all_section_parse`. -/
structure HvdStep where
  p : Nat
  parsed_len : Nat
  remaining_len : Nat
  hvd_body : HvdBody
  deriving DecidableEq, Repr

/-- One pass through the body of the loop of `gfms_hvd_all_section_parse` on the array
element `hvd_body`: the 8-byte copy, then `logical_port_count * 4` bytes into `bound`,
each followed by `p += len; remaining_len -= len; parsed_len += len;` in `size_t`. -/
def gfms_hvd_body_parse (L : Layout) (data : Bytes) (p parsed_len remaining_len : Nat)
    (hvd_body : HvdBody) : Option HvdStep := do
  let hdr ← rd data p 8
  let p := p + 8
  let remaining_len := (remaining_len + U64 - 8) % U64
  let parsed_len := (parsed_len + 8) % U64
  let len := (L.logical_port_count hdr % U32) * 4 % U32
  let bytes ← rd data p len
  let bound ← wr hvd_body.bound 0 bytes
  pure ⟨p + len, (parsed_len + len) % U64, (remaining_len + U64 - len) % U64,
    { hdr := hdr, bound := bound }⟩

/-- The loop `while (remaining_len)` of `gfms_hvd_all_section_parse`, entered with the
array elements from index `i` on.  An access past the last element has no defined
behaviour.  The result is the elements, `parsed_len` and `hvd_count`. -/
def gfms_hvd_all_loop (L : Layout) (data : Bytes) :
    List HvdBody → Nat → Nat → Nat → Nat → Int → Option (List HvdBody × Nat × Int)
  | [], _, parsed_len, remaining_len, _, hvd_count =>
    if remaining_len = 0 then some ([], parsed_len, hvd_count) else none
  | hvd_body :: rest, p, parsed_len, remaining_len, i, hvd_count =>
    if remaining_len = 0 then some (hvd_body :: rest, parsed_len, hvd_count)
    else
      (gfms_hvd_body_parse L data p parsed_len remaining_len hvd_body).bind fun b =>
        (gfms_hvd_all_loop L data rest b.p b.parsed_len b.remaining_len (i + 1)
          ((i : Int) + 1)).map fun r => (b.hvd_body :: r.1, r.2)

/-- `gfms_hvd_all_section_parse`; `data + p` is the function's `data` argument. -/
def gfms_hvd_all_section_parse (L : Layout) (data : Bytes) (p : Nat) (hvd_all : HvdAll) :
    Option (Nat × HvdAll) := do
  let len := L.hdr_size
  let hdr ← rd data p len
  let remaining_len := ((L.resp_size_dw hdr % U32) * 4 % U32 + U64 - len % U64) % U64
  let r ← gfms_hvd_all_loop L data hvd_all.bodies (p + len) len remaining_len 0
    hvd_all.hvd_count
  pure (r.2.1, { hdr := hdr, hvd_count := r.2.2, bodies := r.1 })

/-- `gfms_pax_general_section_parse`. -/
def gfms_pax_general_section_parse (L : Layout) (data : Bytes) (p : Nat) :
    Option (Nat × Bytes) := do
  let parsed_len := L.pax_general_size
  let pax_general ← rd data p parsed_len
  pure (parsed_len, pax_general)

/-- `gfms_ep_port_attached_ep_parse`: the header, then
`ep_hdr.size_dw * 4 - sizeof(ep_hdr)` bytes (a `size_t`) into `functions`. -/
def gfms_ep_port_attached_ep_parse (L : Layout) (data : Bytes) (p : Nat)
    (ep_port_ep : EpPortEp) : Option (Nat × EpPortEp) := do
  let len := L.ep_hdr_size
  let ep_hdr ← rd data p len
  let parsed_len := len
  let len := ((L.ep_size_dw ep_hdr % U32) * 4 % U32 + U64 - L.ep_hdr_size % U64) % U64
  let bytes ← rd data (p + L.ep_hdr_size) len
  let functions ← wr ep_port_ep.functions 0 bytes
  pure ((parsed_len + len) % U64, { ep_hdr := ep_hdr, functions := functions })

/-- `gfms_ep_port_attache_switch_parse`: the header, then
`function_number * sizeof(internal_functions[0])` bytes into `internal_functions`. -/
def gfms_ep_port_attache_switch_parse (L : Layout) (data : Bytes) (p : Nat)
    (ep_port_switch : EpPortSwitch) : Option (Nat × EpPortSwitch) := do
  let len := L.sw_hdr_size
  let sw_hdr ← rd data p len
  let parsed_len := len
  let len := ((L.function_number sw_hdr % U32) * L.ds_function_size) % U64
  let bytes ← rd data (p + L.sw_hdr_size) len
  let internal_functions ← wr ep_port_switch.internal_functions 0 bytes
  pure ((parsed_len + len) % U64,
    { ep_port_switch with sw_hdr := sw_hdr, internal_functions := internal_functions })

/-- The inner loop `while (remaining_len)` of the switch branch of
`gfms_ep_port_sub_section_parse`, entered with the elements of `switch_eps` from index
`i` on.  An access past the last element has no defined behaviour.  The result is the
elements and `parsed_len`. -/
def gfms_ep_port_switch_eps_loop (L : Layout) (data : Bytes) :
    List EpPortEp → Nat → Nat → Nat → Option (List EpPortEp × Nat)
  | [], _, parsed_len, remaining_len =>
    if remaining_len = 0 then some ([], parsed_len) else none
  | ep :: rest, p, parsed_len, remaining_len =>
    if remaining_len = 0 then some (ep :: rest, parsed_len)
    else
      (gfms_ep_port_attached_ep_parse L data p ep).bind fun e =>
        (gfms_ep_port_switch_eps_loop L data rest (p + e.1) ((parsed_len + e.1) % U64)
          ((remaining_len + U64 - e.1 % U64) % U64)).map fun r => (e.2 :: r.1, r.2)

/-- The switch branch of `gfms_ep_port_sub_section_parse`, entered after the port header
with `p`, `parsed_len` and `remaining_len` as they stand there. -/
def gfms_ep_port_switch_branch (L : Layout) (data : Bytes) (p parsed_len remaining_len : Nat)
    (ep_switch : EpPortSwitch) : Option (Nat × EpPortSwitch) := do
  let sw ← gfms_ep_port_attache_switch_parse L data p ep_switch
  let r ← gfms_ep_port_switch_eps_loop L data sw.2.switch_eps (p + sw.1)
    ((parsed_len + sw.1) % U64) ((remaining_len + U64 - sw.1 % U64) % U64)
  pure (r.2, { sw.2 with switch_eps := r.1 })

/-- `gfms_ep_port_sub_section_parse`. -/
def gfms_ep_port_sub_section_parse (L : Layout) (data : Bytes) (p : Nat) (ep_port : EpPort) :
    Option (Nat × EpPort) :=
  (rd data p L.port_hdr_size).bind fun port_hdr =>
    if L.port_type port_hdr = L.TYPE_SWITCH then
      (gfms_ep_port_switch_branch L data (p + L.port_hdr_size) L.port_hdr_size
        (((L.port_size_dw port_hdr % U32) * 4 % U32 + U64 - L.port_hdr_size % U64) % U64)
        ep_port.ep_switch).map fun r =>
          (r.1, { ep_port with port_hdr := port_hdr, ep_switch := r.2 })
    else if L.port_type port_hdr = L.TYPE_EP then
      (gfms_ep_port_attached_ep_parse L data (p + L.port_hdr_size) ep_port.ep_ep).map fun r =>
        ((L.port_hdr_size + r.1) % U64, { ep_port with port_hdr := port_hdr, ep_ep := r.2 })
    else if L.port_type port_hdr = L.TYPE_NON then
      some (L.port_hdr_size, { ep_port with port_hdr := port_hdr })
    else some (L.port_hdr_size, { ep_port with port_hdr := port_hdr })

set_option linter.unusedVariables false in
/-- `gfms_ep_port_section_parse`; the value `hdr.resp_size_dw * 4 - len` assigned to `len`
is overwritten by the next statement. -/
def gfms_ep_port_section_parse (L : Layout) (data : Bytes) (p : Nat)
    (ep_port_section : EpPortSection) : Option (Nat × EpPortSection) := do
  let len := L.hdr_size
  let hdr ← rd data p len
  let p := p + len
  let parsed_len := len
  let len := ((L.resp_size_dw hdr % U32) * 4 % U32 + U64 - len % U64) % U64
  let r ← gfms_ep_port_sub_section_parse L data p ep_port_section.ep_port
  let len := r.1
  pure ((parsed_len + len) % U64, { hdr := hdr, ep_port := r.2 })

/-- The loop `while (remaining_len)` of `gfms_ep_port_all_section_parse`, entered with the
array elements from index `i` on.  An access past the last element has no defined
behaviour.  The result is the elements, `parsed_len` and `ep_port_count`. -/
def gfms_ep_port_all_loop (L : Layout) (data : Bytes) :
    List EpPort → Nat → Nat → Nat → Nat → Int → Option (List EpPort × Nat × Int)
  | [], _, parsed_len, remaining_len, _, ep_port_count =>
    if remaining_len = 0 then some ([], parsed_len, ep_port_count) else none
  | ep_port :: rest, p, parsed_len, remaining_len, i, ep_port_count =>
    if remaining_len = 0 then some (ep_port :: rest, parsed_len, ep_port_count)
    else
      (gfms_ep_port_sub_section_parse L data p ep_port).bind fun e =>
        (gfms_ep_port_all_loop L data rest (p + e.1) ((parsed_len + e.1) % U64)
          ((remaining_len + U64 - e.1 % U64) % U64) (i + 1) ((i : Int) + 1)).map fun r =>
            (e.2 :: r.1, r.2)

/-- `gfms_ep_port_all_section_parse`. -/
def gfms_ep_port_all_section_parse (L : Layout) (data : Bytes) (p : Nat)
    (ep_port_all : EpPortAll) : Option (Nat × EpPortAll) := do
  let len := L.hdr_size
  let hdr ← rd data p len
  let remaining_len := ((L.resp_size_dw hdr % U32) * 4 % U32 + U64 - L.hdr_size % U64) % U64
  let r ← gfms_ep_port_all_loop L data ep_port_all.ep_ports (p + len) len remaining_len 0
    ep_port_all.ep_port_count
  pure (r.2.1, { hdr := hdr, ep_port_count := r.2.2, ep_ports := r.1 })

/-- `gfms_pax_all_parse`; the argument `data_len` of the source is not used by it. -/
def gfms_pax_all_parse (L : Layout) (data : Bytes) (pax_all : PaxAll) :
    Option (Nat × PaxAll) := do
  let g ← gfms_pax_general_section_parse L data 0
  let h ← gfms_hvd_all_section_parse L data g.1 pax_all.hvd_all
  let e ← gfms_ep_port_all_section_parse L data (g.1 + h.1) pax_all.ep_port_all
  pure ((g.1 + h.1 + e.1) % U64, { pax_general := g.2, hvd_all := h.2, ep_port_all := e.2 })

/-! ## Dump orchestrators -/

/-- Block returned by `malloc(size)`: `size` bytes of indeterminate content, taken from
`junk`. -/
def malloc (junk : Bytes) (size : Nat) : Bytes :=
  (junk ++ List.replicate size 0).take size

/-- `switchtec_fab_gfms_db_dump_pax_all`: return code, the caller's record, session. -/
def switchtec_fab_gfms_db_dump_pax_all {σ : Type} (L : Layout) (dev : Dev σ) (fuel : Nat)
    (junk : Bytes) (s : Sess σ) (pax_all : PaxAll) : Option (Int × PaxAll × Sess σ) :=
  if (gfms_pax_all_start dev s).1 ≠ 0 then
    some ((gfms_pax_all_start dev s).1, pax_all, (gfms_pax_all_start dev s).2.2)
  else
    (gfms_pax_all_get dev fuel (gfms_pax_all_start dev s).2.2 (gfms_pax_all_start dev s).2.1
      (malloc junk ((gfms_pax_all_start dev s).2.1 * 4 % U32))).bind fun g =>
      if g.ret ≠ 0 then some (g.ret, pax_all, g.sess)
      else if (gfms_pax_all_finish dev g.sess).1 ≠ 0 then
        some ((gfms_pax_all_finish dev g.sess).1, pax_all, (gfms_pax_all_finish dev g.sess).2)
      else
        (gfms_pax_all_parse L g.data pax_all).map fun r =>
          (if r.1 ≠ (gfms_pax_all_start dev s).2.1 * 4 % U32 then -1 else 0, r.2,
            (gfms_pax_all_finish dev g.sess).2)

/-- `switchtec_fab_gfms_db_dump_ep_port`: return code, the caller's record, session. -/
def switchtec_fab_gfms_db_dump_ep_port {σ : Type} (L : Layout) (dev : Dev σ) (fuel : Nat)
    (junk : Bytes) (s : Sess σ) (phy_pid : Nat) (ep_port_section : EpPortSection) :
    Option (Int × EpPortSection × Sess σ) :=
  if (gfms_ep_port_start dev s phy_pid).1 ≠ 0 then
    some ((gfms_ep_port_start dev s phy_pid).1, ep_port_section,
      (gfms_ep_port_start dev s phy_pid).2.2)
  else
    (gfms_ep_port_get dev fuel (gfms_ep_port_start dev s phy_pid).2.2 phy_pid
      (gfms_ep_port_start dev s phy_pid).2.1
      (malloc junk ((gfms_ep_port_start dev s phy_pid).2.1 * 4 % U32))).bind fun g =>
      if g.ret ≠ 0 then some (g.ret, ep_port_section, g.sess)
      else if (gfms_ep_port_finish dev g.sess).1 ≠ 0 then
        some ((gfms_ep_port_finish dev g.sess).1, ep_port_section,
          (gfms_ep_port_finish dev g.sess).2)
      else
        (gfms_ep_port_section_parse L g.data 0 ep_port_section).map fun r =>
          (if r.1 ≠ (gfms_ep_port_start dev s phy_pid).2.1 * 4 % U32 then -1 else 0, r.2,
            (gfms_ep_port_finish dev g.sess).2)

/-! ## Devices used to state and to instantiate the properties -/

/-- A device that serves `stream` to both paged dumps: every get at a requested offset
below `total_len_dw` succeeds, echoes the offset, and carries a payload of `k ≥ 1` dwords
of the stream taken at that offset and not reaching past its end, with `size_dw = k + 3`.
`Inv` holds of the device states the session can be in. -/
def ServesStream {σ : Type} (dev : Dev σ) (Inv : σ → Prop) (stream : Bytes)
    (total_len_dw fab_ep_pid : Nat) : Prop :=
  ∀ st off, Inv st → off < total_len_dw →
    ∀ c, c = Cmd.GFMS_DB_DUMP_PAX_ALL_GET off ∨
        c = Cmd.GFMS_DB_DUMP_EP_PORT_GET fab_ep_pid off →
      Inv (dev.exchange st c).2 ∧ (dev.exchange st c).1.ret = 0 ∧
      (dev.exchange st c).1.offset_dw = off ∧
      ∃ k, 1 ≤ k ∧ off + k ≤ total_len_dw ∧ (dev.exchange st c).1.size_dw = k + 3 ∧
        (dev.exchange st c).1.data = (stream.drop (off * 4)).take (k * 4)

/-- A device without state that serves `stream` in chunks of at most `chunk_dw` dwords;
starts declare `stream.length / 4` dwords, every other exchange succeeds with status
READY.  `MRPC_MAX_DATA_LEN` is 1024. -/
def stream_dev (stream : Bytes) (chunk_dw : Nat) : Dev Unit where
  is_gen4 := true
  is_pax := true
  MRPC_MAX_DATA_LEN := 1024
  exchange := fun _ c =>
    match c with
    | Cmd.GFMS_DB_DUMP_PAX_ALL_GET off =>
      (⟨0, 3, 0, 0, off, min chunk_dw (stream.length / 4 - off) + 3,
        (stream.drop (off * 4)).take (min chunk_dw (stream.length / 4 - off) * 4)⟩, ())
    | Cmd.GFMS_DB_DUMP_EP_PORT_GET _ off =>
      (⟨0, 3, 0, 0, off, min chunk_dw (stream.length / 4 - off) + 3,
        (stream.drop (off * 4)).take (min chunk_dw (stream.length / 4 - off) * 4)⟩, ())
    | _ => (⟨0, 3, 0, stream.length / 4, 0, 0, []⟩, ())

/-- A device that plays back `script`, one response per exchange whatever the command,
and answers `last` once the script is exhausted.  Its state is the number of exchanges
made.  `MRPC_MAX_DATA_LEN` is 1024. -/
def script_dev (gen4 pax : Bool) (script : List Rsp) (last : Rsp) : Dev Nat where
  is_gen4 := gen4
  is_pax := pax
  MRPC_MAX_DATA_LEN := 1024
  exchange := fun n _ => (script.getD n last, n + 1)

/-- The session at the start of a call: device state `st`, empty trace, `errno` 0. -/
def fresh {σ : Type} (st : σ) : Sess σ := ⟨st, [], 0⟩

/-- The session after `n` further status exchanges of the topology dump. -/
def topo_polled {σ : Type} (dev : Dev σ) : Nat → Sess σ → Sess σ
  | 0, s => s
  | n + 1, s => topo_polled dev n (topo_info_dump_status_get dev s).sess

/-- The status exchange number `n + 1` of `switchtec_topo_info_dump` started in session
`s`: the one made after the start and `n` earlier status exchanges. -/
def topo_status_nth {σ : Type} (dev : Dev σ) (n : Nat) (s : Sess σ) : StatusResult σ :=
  topo_info_dump_status_get dev (topo_polled dev n (topo_info_dump_start dev s).2)

/-! ## Wire encoding of PAX-all records

The records of §3 of the specification and their encoding: every unit is its header
followed by its payload, in order. -/

/-- An `HvdBody`: fixed header and bound array. -/
structure HvdBodyRec where
  hdr : Bytes
  bound : Bytes
  deriving DecidableEq, Repr

/-- An `AttachedEndpoint`: header and function table. -/
structure AttachedEpRec where
  ep_hdr : Bytes
  functions : Bytes
  deriving DecidableEq, Repr

/-- A port sub-record: `Switch`, `Endpoint` or `Unpopulated`. -/
inductive PortRec where
  | Switch (port_hdr sw_hdr internal_functions : Bytes) (eps : List AttachedEpRec)
  | Endpoint (port_hdr : Bytes) (ep : AttachedEpRec)
  | Unpopulated (port_hdr : Bytes)
  deriving DecidableEq, Repr

/-- A `PaxAll` record: `PaxGeneral`, the `HvdAll` section, the section of all ports. -/
structure PaxAllRec where
  pax_general : Bytes
  hvd_hdr : Bytes
  bodies : List HvdBodyRec
  ep_port_hdr : Bytes
  ports : List PortRec
  deriving DecidableEq, Repr

/-- Encoding of an attached endpoint. -/
def encode_ep (e : AttachedEpRec) : Bytes := e.ep_hdr ++ e.functions

/-- Encoding of a sequence of attached endpoints. -/
def encode_eps : List AttachedEpRec → Bytes
  | [] => []
  | e :: es => encode_ep e ++ encode_eps es

/-- Encoding of a port sub-record. -/
def encode_port : PortRec → Bytes
  | PortRec.Switch port_hdr sw_hdr internal_functions eps =>
    port_hdr ++ (sw_hdr ++ internal_functions ++ encode_eps eps)
  | PortRec.Endpoint port_hdr ep => port_hdr ++ encode_ep ep
  | PortRec.Unpopulated port_hdr => port_hdr

/-- Encoding of a sequence of port sub-records. -/
def encode_ports : List PortRec → Bytes
  | [] => []
  | q :: qs => encode_port q ++ encode_ports qs

/-- Encoding of an HVD body. -/
def encode_body (b : HvdBodyRec) : Bytes := b.hdr ++ b.bound

/-- Encoding of a sequence of HVD bodies. -/
def encode_bodies : List HvdBodyRec → Bytes
  | [] => []
  | b :: bs => encode_body b ++ encode_bodies bs

/-- Encoding of a `PaxAll` record. -/
def encode (r : PaxAllRec) : Bytes :=
  r.pax_general ++ ((r.hvd_hdr ++ encode_bodies r.bodies) ++
    (r.ep_port_hdr ++ encode_ports r.ports))

/-- Every `sizeof` that the emptiness of a unit depends on is positive, and the three
type tags are distinct. -/
def Layout.WF (L : Layout) : Prop :=
  0 < L.port_hdr_size ∧ 0 < L.ep_hdr_size ∧
  L.TYPE_SWITCH ≠ L.TYPE_EP ∧ L.TYPE_SWITCH ≠ L.TYPE_NON ∧ L.TYPE_EP ≠ L.TYPE_NON

/-- A correctly length-prefixed attached endpoint: `size_dw * 4` is its encoded length. -/
def valid_ep (L : Layout) (e : AttachedEpRec) : Prop :=
  e.ep_hdr.length = L.ep_hdr_size ∧
  (L.ep_size_dw e.ep_hdr % U32) * 4 = (encode_ep e).length

/-- A correctly length-prefixed port sub-record: the tag selects the variant, `size_dw * 4`
is the encoded length of the sub-record, the internal-function table of a switch has
`function_number` elements. -/
def valid_port (L : Layout) : PortRec → Prop
  | PortRec.Switch port_hdr sw_hdr internal_functions eps =>
    port_hdr.length = L.port_hdr_size ∧ L.port_type port_hdr = L.TYPE_SWITCH ∧
    (L.port_size_dw port_hdr % U32) * 4 =
      (encode_port (PortRec.Switch port_hdr sw_hdr internal_functions eps)).length ∧
    sw_hdr.length = L.sw_hdr_size ∧
    internal_functions.length = (L.function_number sw_hdr % U32) * L.ds_function_size ∧
    ∀ e ∈ eps, valid_ep L e
  | PortRec.Endpoint port_hdr ep =>
    port_hdr.length = L.port_hdr_size ∧ L.port_type port_hdr = L.TYPE_EP ∧
    (L.port_size_dw port_hdr % U32) * 4 = (encode_port (PortRec.Endpoint port_hdr ep)).length ∧
    valid_ep L ep
  | PortRec.Unpopulated port_hdr =>
    port_hdr.length = L.port_hdr_size ∧ L.port_type port_hdr = L.TYPE_NON ∧
    (L.port_size_dw port_hdr % U32) * 4 = (encode_port (PortRec.Unpopulated port_hdr)).length

/-- A correctly length-prefixed HVD body: 8 header bytes, `logical_port_count` elements of
4 bytes. -/
def valid_body (L : Layout) (b : HvdBodyRec) : Prop :=
  b.hdr.length = 8 ∧ b.bound.length = (L.logical_port_count b.hdr % U32) * 4

/-- A valid `PaxAll` record: every unit is correctly length-prefixed, `resp_size_dw * 4`
of either section is the section's encoded length, and the encoding is shorter than
`2 ^ 32` bytes (its length in bytes is a `uint32_t` in the dump). -/
def Valid (L : Layout) (r : PaxAllRec) : Prop :=
  r.pax_general.length = L.pax_general_size ∧
  r.hvd_hdr.length = L.hdr_size ∧
  (L.resp_size_dw r.hvd_hdr % U32) * 4 = (r.hvd_hdr ++ encode_bodies r.bodies).length ∧
  (∀ b ∈ r.bodies, valid_body L b) ∧
  r.ep_port_hdr.length = L.hdr_size ∧
  (L.resp_size_dw r.ep_port_hdr % U32) * 4 = (r.ep_port_hdr ++ encode_ports r.ports).length ∧
  (∀ q ∈ r.ports, valid_port L q) ∧
  (encode r).length < U32

/-- The function tables of the endpoints fit the `functions` arrays of the elements. -/
def fits_eps : List EpPortEp → List AttachedEpRec → Prop
  | _, [] => True
  | [], _ :: _ => False
  | o :: os, e :: es => e.functions.length ≤ o.functions.length ∧ fits_eps os es

/-- The tables of a port sub-record fit the arrays of the element `o`. -/
def fits_port (o : EpPort) : PortRec → Prop
  | PortRec.Switch _ _ internal_functions eps =>
    internal_functions.length ≤ o.ep_switch.internal_functions.length ∧
    fits_eps o.ep_switch.switch_eps eps
  | PortRec.Endpoint _ ep => ep.functions.length ≤ o.ep_ep.functions.length
  | PortRec.Unpopulated _ => True

/-- The port sub-records fit the elements of `ep_ports`. -/
def fits_ports : List EpPort → List PortRec → Prop
  | _, [] => True
  | [], _ :: _ => False
  | o :: os, q :: qs => fits_port o q ∧ fits_ports os qs

/-- The HVD bodies fit the elements of `bodies`. -/
def fits_bodies : List HvdBody → List HvdBodyRec → Prop
  | _, [] => True
  | [], _ :: _ => False
  | o :: os, b :: bs => b.bound.length ≤ o.bound.length ∧ fits_bodies os bs

/-- The record is within the capacities of the arrays of the output record. -/
def Fits (out : PaxAll) (r : PaxAllRec) : Prop :=
  fits_bodies out.hvd_all.bodies r.bodies ∧ fits_ports out.ep_port_all.ep_ports r.ports

/-- The elements of `switch_eps` after the endpoints `es` were decoded into them. -/
def put_eps : List EpPortEp → List AttachedEpRec → List EpPortEp
  | os, [] => os
  | [], _ :: _ => []
  | o :: os, e :: es =>
    ⟨e.ep_hdr, e.functions ++ o.functions.drop e.functions.length⟩ :: put_eps os es

/-- The element `o` of `ep_ports` after the sub-record was decoded into it. -/
def put_port (o : EpPort) : PortRec → EpPort
  | PortRec.Switch port_hdr sw_hdr internal_functions eps =>
    { o with
      port_hdr := port_hdr
      ep_switch :=
        { sw_hdr := sw_hdr
          internal_functions :=
            internal_functions ++
              o.ep_switch.internal_functions.drop internal_functions.length
          switch_eps := put_eps o.ep_switch.switch_eps eps } }
  | PortRec.Endpoint port_hdr ep =>
    { o with
      port_hdr := port_hdr
      ep_ep := ⟨ep.ep_hdr, ep.functions ++ o.ep_ep.functions.drop ep.functions.length⟩ }
  | PortRec.Unpopulated port_hdr => { o with port_hdr := port_hdr }

/-- The elements of `ep_ports` after the sub-records `qs` were decoded into them. -/
def put_ports : List EpPort → List PortRec → List EpPort
  | os, [] => os
  | [], _ :: _ => []
  | o :: os, q :: qs => put_port o q :: put_ports os qs

/-- The elements of `bodies` after the HVD bodies `bs` were decoded into them. -/
def put_bodies : List HvdBody → List HvdBodyRec → List HvdBody
  | os, [] => os
  | [], _ :: _ => []
  | o :: os, b :: bs => ⟨b.hdr, b.bound ++ o.bound.drop b.bound.length⟩ :: put_bodies os bs

/-- The output record after the record `r` was decoded into `out`: headers and populated
elements are those of `r`; a count is the number of elements when there is one at least,
and the count `out` held before otherwise. -/
def put (out : PaxAll) (r : PaxAllRec) : PaxAll :=
  { pax_general := r.pax_general
    hvd_all :=
      { hdr := r.hvd_hdr
        hvd_count := if r.bodies = [] then out.hvd_all.hvd_count else r.bodies.length
        bodies := put_bodies out.hvd_all.bodies r.bodies }
    ep_port_all :=
      { hdr := r.ep_port_hdr
        ep_port_count := if r.ports = [] then out.ep_port_all.ep_port_count else r.ports.length
        ep_ports := put_ports out.ep_port_all.ep_ports r.ports } }

/-- A layout for concrete checks: 12-byte section headers with `resp_size_dw` at offset 4,
8-byte port and endpoint headers, a 4-byte switch header, little-endian members. -/
def sample_layout : Layout where
  hdr_size := 12
  resp_size_dw := fun h => le ((h.drop 4).take 4)
  pax_general_size := 16
  logical_port_count := fun h => le ((h.drop 4).take 2)
  port_hdr_size := 8
  port_type := fun h => le (h.take 1)
  port_size_dw := fun h => le ((h.drop 4).take 2)
  ep_hdr_size := 8
  ep_size_dw := fun h => le (h.take 2)
  sw_hdr_size := 4
  function_number := fun h => le ((h.drop 2).take 1)
  ds_function_size := 4
  TYPE_SWITCH := 0
  TYPE_EP := 1
  TYPE_NON := 2

instance (L : Layout) (e : AttachedEpRec) : Decidable (valid_ep L e) := by
  unfold valid_ep; infer_instance

instance (L : Layout) (b : HvdBodyRec) : Decidable (valid_body L b) := by
  unfold valid_body; infer_instance

instance (L : Layout) : (q : PortRec) → Decidable (valid_port L q)
  | PortRec.Switch _ _ _ _ => by unfold valid_port; infer_instance
  | PortRec.Endpoint _ _ => by unfold valid_port; infer_instance
  | PortRec.Unpopulated _ => by unfold valid_port; infer_instance

instance (L : Layout) (r : PaxAllRec) : Decidable (Valid L r) := by
  unfold Valid; infer_instance

instance (L : Layout) : Decidable L.WF := by
  unfold Layout.WF; infer_instance

/-- Decision procedure for `fits_eps`. -/
def decide_fits_eps : (os : List EpPortEp) → (es : List AttachedEpRec) →
    Decidable (fits_eps os es)
  | [], [] => isTrue trivial
  | _ :: _, [] => isTrue trivial
  | [], _ :: _ => isFalse (fun h => h)
  | o :: os, e :: es =>
    match Nat.decLe e.functions.length o.functions.length, decide_fits_eps os es with
    | isTrue h1, isTrue h2 => isTrue ⟨h1, h2⟩
    | isFalse h1, _ => isFalse (fun h => h1 h.1)
    | _, isFalse h2 => isFalse (fun h => h2 h.2)

instance (os : List EpPortEp) (es : List AttachedEpRec) : Decidable (fits_eps os es) :=
  decide_fits_eps os es

instance (o : EpPort) : (q : PortRec) → Decidable (fits_port o q)
  | PortRec.Switch _ _ _ _ => by unfold fits_port; infer_instance
  | PortRec.Endpoint _ _ => by unfold fits_port; infer_instance
  | PortRec.Unpopulated _ => by unfold fits_port; infer_instance

/-- Decision procedure for `fits_ports`. -/
def decide_fits_ports : (os : List EpPort) → (qs : List PortRec) →
    Decidable (fits_ports os qs)
  | [], [] => isTrue trivial
  | _ :: _, [] => isTrue trivial
  | [], _ :: _ => isFalse (fun h => h)
  | o :: os, q :: qs =>
    match (inferInstance : Decidable (fits_port o q)), decide_fits_ports os qs with
    | isTrue h1, isTrue h2 => isTrue ⟨h1, h2⟩
    | isFalse h1, _ => isFalse (fun h => h1 h.1)
    | _, isFalse h2 => isFalse (fun h => h2 h.2)

instance (os : List EpPort) (qs : List PortRec) : Decidable (fits_ports os qs) :=
  decide_fits_ports os qs

/-- Decision procedure for `fits_bodies`. -/
def decide_fits_bodies : (os : List HvdBody) → (bs : List HvdBodyRec) →
    Decidable (fits_bodies os bs)
  | [], [] => isTrue trivial
  | _ :: _, [] => isTrue trivial
  | [], _ :: _ => isFalse (fun h => h)
  | o :: os, b :: bs =>
    match Nat.decLe b.bound.length o.bound.length, decide_fits_bodies os bs with
    | isTrue h1, isTrue h2 => isTrue ⟨h1, h2⟩
    | isFalse h1, _ => isFalse (fun h => h1 h.1)
    | _, isFalse h2 => isFalse (fun h => h2 h.2)

instance (os : List HvdBody) (bs : List HvdBodyRec) : Decidable (fits_bodies os bs) :=
  decide_fits_bodies os bs

instance (out : PaxAll) (r : PaxAllRec) : Decidable (Fits out r) := by
  unfold Fits; infer_instance

/-- A mixed record for `sample_layout`: two HVD bodies (one bound element, none), a switch
with one internal function and two attached endpoints, an endpoint, an unpopulated port.
Its encoding has 124 bytes, 31 dwords. -/
def sample_rec : PaxAllRec where
  pax_general := List.replicate 16 0x11
  hvd_hdr := [1, 0, 0, 0, 8, 0, 0, 0, 0, 0, 0, 0]
  bodies :=
    [⟨[0, 1, 2, 0, 1, 0, 0, 0], [0xB1, 0xB2, 0xB3, 0xB4]⟩, ⟨[1, 2, 3, 0, 0, 0, 0, 0], []⟩]
  ep_port_hdr := [2, 0, 0, 0, 19, 0, 0, 0, 0, 0, 0, 0]
  ports :=
    [PortRec.Switch [0, 3, 2, 0, 9, 0, 0, 0] [5, 0, 1, 0] [0xF1, 0xF2, 0xF3, 0xF4]
        [⟨[3, 0, 7, 0, 1, 0, 0, 0], [0xE1, 0xE2, 0xE3, 0xE4]⟩, ⟨[2, 0, 8, 0, 0, 0, 0, 0], []⟩],
      PortRec.Endpoint [1, 4, 1, 0, 5, 0, 0, 0]
        ⟨[3, 0, 9, 0, 1, 0, 0, 0], [0xD1, 0xD2, 0xD3, 0xD4]⟩,
      PortRec.Unpopulated [2, 5, 0, 0, 2, 0, 0, 0]]

/-- A record for `sample_layout` with no HVD body and no port sub-record; its encoding has
40 bytes, 10 dwords. -/
def sample_empty_rec : PaxAllRec where
  pax_general := List.replicate 16 0x11
  hvd_hdr := [1, 0, 0, 0, 3, 0, 0, 0, 0, 0, 0, 0]
  bodies := []
  ep_port_hdr := [2, 0, 0, 0, 3, 0, 0, 0, 0, 0, 0, 0]
  ports := []

/-- An element of `ep_ports` with room for 8 bytes in every table and 2 attached
endpoints, every byte `0xAA`. -/
def sample_port : EpPort where
  port_hdr := List.replicate 8 0xAA
  ep_switch :=
    { sw_hdr := List.replicate 4 0xAA
      internal_functions := List.replicate 8 0xAA
      switch_eps := List.replicate 2 ⟨List.replicate 8 0xAA, List.replicate 8 0xAA⟩ }
  ep_ep := ⟨List.replicate 8 0xAA, List.replicate 8 0xAA⟩

/-- An output record for `sample_layout` holding leftovers: 3 HVD bodies and 4 ports of
capacity, every byte `0xAA`, `hvd_count = 7` and `ep_port_count = 9`. -/
def sample_out : PaxAll where
  pax_general := List.replicate 16 0xAA
  hvd_all :=
    { hdr := List.replicate 12 0xAA
      hvd_count := 7
      bodies := List.replicate 3 ⟨List.replicate 8 0xAA, List.replicate 8 0xAA⟩ }
  ep_port_all :=
    { hdr := List.replicate 12 0xAA
      ep_port_count := 9
      ep_ports := List.replicate 4 sample_port }

/-- An output `struct switchtec_gfms_db_ep_port_section` holding leftovers. -/
def sample_section : EpPortSection where
  hdr := List.replicate 12 0xAA
  ep_port := sample_port

/-- A layout of the HVD detail record for concrete checks: a 12-byte header, 8 bytes of
scalar members with `vep_count` at offset 4, 4-byte array elements, 2-byte
`log_dsp_count` and `usp_bdf`. -/
def sample_hvd_layout : HvdDetailLayout where
  hdr_size := 12
  vep_region_off := 8
  hvd_inst_id := fun m => le (m.take 1)
  phy_pid := fun m => le ((m.drop 1).take 1)
  hfid := fun m => le ((m.drop 2).take 2)
  vep_count := fun m => le ((m.drop 4).take 1)
  usp_status := fun m => le ((m.drop 5).take 1)
  vep_region_elem := 4
  log_dsp_count_size := 2
  usp_bdf_size := 2
  log_port_region_elem := 4
  log_port_p2p_bitmap_elem := 4

/-- An output record for `sample_hvd_layout` with room for 8 `vep_region` elements, 8
`log_port_region` elements and 64 `log_port_p2p_bitmap` elements, every byte `0xAA`. -/
def sample_hvd_detail : HvdDetail where
  hdr := List.replicate 12 0xAA
  body :=
    { hvd_inst_id := 0xAA
      phy_pid := 0xAA
      hfid := 0xAAAA
      vep_count := 0xAA
      usp_status := 0xAA
      vep_region := List.replicate 32 0xAA
      log_dsp_count := [0xAA, 0xAA]
      usp_bdf := [0xAA, 0xAA]
      log_port_region := List.replicate 32 0xAA
      log_port_p2p_enable_bitmap_low := [0xAA, 0xAA, 0xAA, 0xAA]
      log_port_p2p_enable_bitmap_high := [0xAA, 0xAA, 0xAA, 0xAA]
      log_port_count := 0xAA
      log_port_p2p_bitmap := List.replicate 256 0xAA }

/-- A response for `sample_hvd_layout` with no `vep_region` and no `log_port_region`
element, the two bitmap halves `low` and `high`, and 256 bytes `1` behind them. -/
def sample_hvd_response (low high : Bytes) : Bytes :=
  List.replicate 12 0 ++ [1, 2, 3, 0, 0, 1, 0, 0] ++ [0, 0] ++ [5, 0] ++ low ++ high ++
    List.replicate 256 1

/-- The record `switchtec_fab_gfms_db_dump_hvd_detail` leaves for
`sample_hvd_response low high` decoded into `sample_hvd_detail` when the count loop
yields `count`. -/
def sample_hvd_decoded (low high : Bytes) (count : Nat) : HvdDetail where
  hdr := List.replicate 12 0
  body :=
    { hvd_inst_id := 1
      phy_pid := 2
      hfid := 3
      vep_count := 0
      usp_status := 1
      vep_region := List.replicate 32 0xAA
      log_dsp_count := [0, 0]
      usp_bdf := [5, 0]
      log_port_region := List.replicate 32 0xAA
      log_port_p2p_enable_bitmap_low := low
      log_port_p2p_enable_bitmap_high := high
      log_port_count := count
      log_port_p2p_bitmap :=
        List.replicate (4 * count) 1 ++ List.replicate (256 - 4 * count) 0xAA }

/-- A successful response carrying `data`, with the given header members. -/
def ok_rsp (status data_len_dw dw_len offset_dw size_dw : Nat) (data : Bytes) : Rsp :=
  ⟨0, status, data_len_dw, dw_len, offset_dw, size_dw, data⟩

/-- A failed exchange with return code `ret`. -/
def failed_rsp (ret : Int) : Rsp := ⟨ret, 0, 0, 0, 0, 0, []⟩

/-! ## Definitions for the session and decoder properties -/

/-- A device whose successful get responses echo the requested offset and declare a size
of at least the 3 header dwords, a `uint32_t`.  `Inv` holds of the device states the
session can be in. -/
def EchoesOffset {σ : Type} (dev : Dev σ) (Inv : σ → Prop) (fab_ep_pid : Nat) : Prop :=
  ∀ st off, Inv st →
    ∀ c, c = Cmd.GFMS_DB_DUMP_PAX_ALL_GET off ∨
        c = Cmd.GFMS_DB_DUMP_EP_PORT_GET fab_ep_pid off →
      Inv (dev.exchange st c).2 ∧
      ((dev.exchange st c).1.ret = 0 →
        (dev.exchange st c).1.offset_dw = off ∧ 3 ≤ (dev.exchange st c).1.size_dw ∧
        (dev.exchange st c).1.size_dw < U32)

/-- The commands of a PAX-all session: start, the gets at `offsets`, and finish when
`finish` is set. -/
def pax_all_session (offsets : List Nat) (finish : Bool) : List Cmd :=
  Cmd.GFMS_DB_DUMP_PAX_ALL_START ::
    (offsets.map Cmd.GFMS_DB_DUMP_PAX_ALL_GET ++
      if finish then [Cmd.GFMS_DB_DUMP_PAX_ALL_FINISH] else [])

/-- The commands of an endpoint-port session: start, the gets at `offsets`, and finish
when `finish` is set. -/
def ep_port_session (fab_ep_pid : Nat) (offsets : List Nat) (finish : Bool) : List Cmd :=
  Cmd.GFMS_DB_DUMP_EP_PORT_START fab_ep_pid ::
    (offsets.map (Cmd.GFMS_DB_DUMP_EP_PORT_GET fab_ep_pid) ++
      if finish then [Cmd.GFMS_DB_DUMP_EP_PORT_FINISH] else [])

/-- The `uint32_t` product `member * 4` of a length member given in dwords. -/
def dw_bytes (member : Nat) : Nat := (member % U32) * 4 % U32

/-- An endpoint-port blob for `sample_layout` of 20 bytes, 5 dwords: the section header
and a port header whose type is `0x11`, none of the three type tags. -/
def sample_bad_tag_blob : Bytes :=
  [3, 0, 0, 0, 5, 0, 0, 0, 0, 0, 0, 0] ++ [0x11, 4, 0, 0, 2, 0, 0, 0]

/-- An endpoint-port blob for `sample_layout` of 28 bytes, 7 dwords: the section header, a
port header of type Endpoint and an attached-endpoint header with `size_dw = 1`, 4 bytes,
less than the 8 bytes of the header itself. -/
def sample_short_ep_blob : Bytes :=
  [3, 0, 0, 0, 7, 0, 0, 0, 0, 0, 0, 0] ++ [1, 4, 1, 0, 4, 0, 0, 0] ++
    [1, 0, 9, 0, 0, 0, 0, 0]

/-- A port sub-record of type Switch for `sample_layout`, 36 bytes, 9 dwords: one
internal function and two attached endpoints of 12 and 8 bytes. -/
def sample_switch_rec : PortRec :=
  PortRec.Switch [0, 3, 2, 0, 9, 0, 0, 0] [5, 0, 1, 0] [0xF1, 0xF2, 0xF3, 0xF4]
    [⟨[3, 0, 7, 0, 1, 0, 0, 0], [0xE1, 0xE2, 0xE3, 0xE4]⟩, ⟨[2, 0, 8, 0, 0, 0, 0, 0], []⟩]

/-- Every response to a get of either paged dump fits the response buffer: its `size_dw`
dwords, header and payload, are at most `MRPC_MAX_DATA_LEN` bytes. -/
def FitsResponse {σ : Type} (dev : Dev σ) (Inv : σ → Prop) (fab_ep_pid : Nat) : Prop :=
  ∀ st off, Inv st →
    ∀ c, c = Cmd.GFMS_DB_DUMP_PAX_ALL_GET off ∨
        c = Cmd.GFMS_DB_DUMP_EP_PORT_GET fab_ep_pid off →
      (dev.exchange st c).1.size_dw * 4 ≤ dev.MRPC_MAX_DATA_LEN

/-- No successful response to a get at an offset up to `total_len_dw` reaches past
`total_len_dw`: the requested offset plus the payload dwords `size_dw - 3` is at most
`total_len_dw`. -/
def StaysWithin {σ : Type} (dev : Dev σ) (Inv : σ → Prop) (fab_ep_pid total_len_dw : Nat) :
    Prop :=
  ∀ st off, Inv st → off ≤ total_len_dw →
    ∀ c, c = Cmd.GFMS_DB_DUMP_PAX_ALL_GET off ∨
        c = Cmd.GFMS_DB_DUMP_EP_PORT_GET fab_ep_pid off →
      (dev.exchange st c).1.ret = 0 →
      off + ((dev.exchange st c).1.size_dw - 3) ≤ total_len_dw

/-- The session, `cmd.offset_dw` and buffer of `gfms_pax_all_get` when the loop condition
has been evaluated `k` times and was true each time: the state in which pass `k + 1`
begins.  There is none when one of the `k` passes left the loop or had no defined
behaviour. -/
def pax_all_paged {σ : Type} (dev : Dev σ) (total_len_dw : Nat) :
    Nat → Sess σ → Nat → Bytes → Option (Sess σ × Nat × Bytes)
  | 0, s, offset_dw, data => some (s, offset_dw, data)
  | k + 1, s, offset_dw, data =>
    (gfms_pax_all_get_body dev total_len_dw s offset_dw data).bind fun r =>
      if r.2 then pax_all_paged dev total_len_dw k r.1.sess r.1.offset_dw r.1.data
      else none

/-- The session, `cmd.offset_dw` and buffer of `gfms_ep_port_get` when the loop condition
has been evaluated `k` times and was true each time. -/
def ep_port_paged {σ : Type} (dev : Dev σ) (fab_ep_pid total_len_dw : Nat) :
    Nat → Sess σ → Nat → Bytes → Option (Sess σ × Nat × Bytes)
  | 0, s, offset_dw, data => some (s, offset_dw, data)
  | k + 1, s, offset_dw, data =>
    (gfms_ep_port_get_body dev fab_ep_pid total_len_dw s offset_dw data).bind fun r =>
      if r.2 then ep_port_paged dev fab_ep_pid total_len_dw k r.1.sess r.1.offset_dw r.1.data
      else none

/-- A stream of 1040 bytes, 260 dwords: more than the 1012 bytes of `rsp.data` when
`MRPC_MAX_DATA_LEN` is 1024. -/
def sample_long_stream : Bytes := (List.range 1040).map fun i => i % 251

/-! ## Paged retrieval reassembles the stream -/

theorem rd_zero_take (l : Bytes) (n : Nat) (h : n ≤ l.length) :
    rd l 0 n = some (l.take n) := by
  simp [rd, h]

theorem wr_extends (data stream : Bytes) (o n : Nat)
    (hpre : data.take o = stream.take o) (hs : o + n ≤ stream.length)
    (hd : o + n ≤ data.length) :
    ∃ d1, wr data o ((stream.drop o).take n) = some d1 ∧ d1.length = data.length ∧
      d1.take (o + n) = stream.take (o + n) := by
  have hlen : ((stream.drop o).take n).length = n := by
    simp [List.length_take, List.length_drop]; omega
  refine ⟨data.take o ++ (stream.drop o).take n ++ data.drop (o + n), ?_, ?_, ?_⟩
  · simp only [wr, hlen, hd, if_true]
  · simp [List.length_append, List.length_take, List.length_drop]; omega
  · have h1 : (data.take o ++ (stream.drop o).take n).length = o + n := by
      simp [List.length_append, List.length_take, List.length_drop]; omega
    rw [List.take_append_of_le_length (by omega), List.take_of_length_le (by omega), hpre,
      List.take_add]

theorem pax_all_body_ok {σ : Type} (dev : Dev σ) (Inv : σ → Prop) (stream : Bytes)
    (total pid : Nat) (hlen : stream.length = total * 4) (hfit : total * 4 < U32)
    (hdev : ServesStream dev Inv stream total pid) (hresp : FitsResponse dev Inv pid)
    (s : Sess σ) (off : Nat) (data : Bytes) (hinv : Inv s.st) (hoff : off < total)
    (hbuf : total * 4 ≤ data.length)
    (hpre : data.take (off * 4) = stream.take (off * 4)) :
    ∃ r, gfms_pax_all_get_body dev total s off data = some (r, decide (r.offset_dw < total)) ∧
      r.ret = 0 ∧ off < r.offset_dw ∧ r.offset_dw ≤ total ∧ Inv r.sess.st ∧
      r.data.length = data.length ∧
      r.data.take (r.offset_dw * 4) = stream.take (r.offset_dw * 4) := by
  obtain ⟨hinv1, hret, hecho, k, hk1, hk2, hsz, hdata⟩ :=
    hdev s.st off hinv hoff _ (Or.inl rfl)
  have hU : U32 = 4294967296 := rfl
  rw [hU] at hfit
  have hsize : ((dev.exchange s.st (Cmd.GFMS_DB_DUMP_PAX_ALL_GET off)).1.size_dw % U32
      + U32 - 3) % U32 = k := by
    rw [hsz, hU]; omega
  obtain ⟨d1, hwr, hd1len, hd1⟩ := wr_extends data stream (off * 4) (k * 4) hpre
    (by omega) (by omega)
  have hcap := hresp s.st off hinv _ (Or.inl rfl)
  rw [hsz] at hcap
  have hdl : ((stream.drop (off * 4)).take (k * 4)).length = k * 4 := by
    simp only [List.length_take, List.length_drop]
    omega
  have hchunk : rd ((dev.exchange s.st (Cmd.GFMS_DB_DUMP_PAX_ALL_GET off)).1.data.take
        (dev.MRPC_MAX_DATA_LEN - 12)) 0 (k * 4)
      = some ((stream.drop (off * 4)).take (k * 4)) := by
    rw [hdata, List.take_of_length_le (by rw [hdl]; omega),
      rd_zero_take _ _ (by rw [hdl]), List.take_take, min_self]
  have hk4 : k * 4 % U32 = k * 4 := by rw [hU]; omega
  have ho4 : off * 4 % U32 = off * 4 := by rw [hU]; omega
  have hsum : (off + k) % U32 = off + k := by rw [hU]; omega
  have hoffm : off % U32 = off := by rw [hU]; omega
  refine ⟨⟨0, off + k, d1, (switchtec_cmd dev s (Cmd.GFMS_DB_DUMP_PAX_ALL_GET off)).2⟩,
    ?_, rfl, by simp; omega, hk2, hinv1, hd1len, ?_⟩
  · unfold gfms_pax_all_get_body
    simp only [switchtec_cmd, hret, ne_eq, not_true_eq_false, if_false, hsize, hk4, hchunk, ho4,
      hwr, hecho, hoffm, hsum, gt_iff_lt, Option.bind_eq_bind, Option.some_bind, Option.pure_def]
  · show d1.take ((off + k) * 4) = _
    rw [Nat.add_mul]; exact hd1

theorem pax_all_loop_ok {σ : Type} (dev : Dev σ) (Inv : σ → Prop) (stream : Bytes)
    (total pid : Nat) (hlen : stream.length = total * 4) (hfit : total * 4 < U32)
    (hdev : ServesStream dev Inv stream total pid) (hresp : FitsResponse dev Inv pid) :
    ∀ (fuel : Nat) (s : Sess σ) (off : Nat) (data : Bytes), Inv s.st → off < total →
      total - off ≤ fuel → total * 4 ≤ data.length →
      data.take (off * 4) = stream.take (off * 4) →
      ∃ r, gfms_pax_all_get_loop dev total fuel s off data = some r ∧ r.ret = 0 ∧
        r.offset_dw = total ∧ r.data.take (total * 4) = stream := by
  intro fuel
  induction fuel with
  | zero => intro s off data _ h1 h2; omega
  | succ fuel ih =>
    intro s off data hinv hoff hfuel hbuf hpre
    obtain ⟨r, hbody, hret, hlt, hle, hinv1, hlen1, hpre1⟩ :=
      pax_all_body_ok dev Inv stream total pid hlen hfit hdev hresp s off data hinv hoff hbuf
        hpre
    rw [gfms_pax_all_get_loop, hbody]
    by_cases hc : r.offset_dw < total
    · simp only [hc, decide_True, Option.some_bind, if_true]
      exact ih r.sess r.offset_dw r.data hinv1 hc (by omega) (by omega) hpre1
    · simp only [hc, decide_False, Option.some_bind, Bool.false_eq_true, if_false]
      have : r.offset_dw = total := by omega
      refine ⟨r, rfl, hret, this, ?_⟩
      rw [← this, hpre1, this, ← hlen, List.take_length]


theorem ep_port_body_ok {σ : Type} (dev : Dev σ) (Inv : σ → Prop) (stream : Bytes)
    (total pid : Nat) (hlen : stream.length = total * 4) (hfit : total * 4 < U32)
    (hdev : ServesStream dev Inv stream total pid) (hmax : 0xf0 * 4 ≤ dev.MRPC_MAX_DATA_LEN)
    (s : Sess σ) (off : Nat) (data : Bytes) (hinv : Inv s.st) (hoff : off < total)
    (hbuf : total * 4 ≤ data.length)
    (hpre : data.take (off * 4) = stream.take (off * 4)) :
    ∃ r, gfms_ep_port_get_body dev pid total s off data
        = some (r, decide (r.offset_dw < total)) ∧
      r.ret = 0 ∧ off < r.offset_dw ∧ r.offset_dw ≤ total ∧ Inv r.sess.st ∧
      r.data.length = data.length ∧
      r.data.take (r.offset_dw * 4) = stream.take (r.offset_dw * 4) := by
  obtain ⟨hinv1, hret, hecho, k, hk1, hk2, hsz, hdata⟩ :=
    hdev s.st off hinv hoff _ (Or.inr rfl)
  have hU : U32 = 4294967296 := rfl
  rw [hU] at hfit
  obtain ⟨k', hk'1, hk'2, hsize⟩ : ∃ k', 1 ≤ k' ∧ k' ≤ k ∧
      ((if (dev.exchange s.st (Cmd.GFMS_DB_DUMP_EP_PORT_GET pid off)).1.size_dw % U32 > 0xf0
        then 0xf0 else (dev.exchange s.st (Cmd.GFMS_DB_DUMP_EP_PORT_GET pid off)).1.size_dw % U32)
        + U32 - 3) % U32 = k' := by
    rw [hsz, hU]
    by_cases hc : (k + 3) % 4294967296 > 0xf0
    · exact ⟨237, by omega, by omega, by rw [if_pos hc]⟩
    · exact ⟨k, hk1, le_refl _, by rw [if_neg hc]; omega⟩
  obtain ⟨d1, hwr, hd1len, hd1⟩ := wr_extends data stream (off * 4) (k' * 4) hpre
    (by omega) (by omega)
  have hk'3 : k' ≤ 237 ∨ k' = k ∧ (k + 3) * 4 ≤ 0xf0 * 4 := by
    rw [hsz, hU] at hsize
    by_cases hc : (k + 3) % 4294967296 > 0xf0
    · rw [if_pos hc] at hsize
      left
      omega
    · rw [if_neg hc] at hsize
      left
      omega
  have hk'cap : k' * 4 ≤ dev.MRPC_MAX_DATA_LEN - 12 := by
    rcases hk'3 with h | ⟨_, h⟩ <;> omega
  have hdl : ((stream.drop (off * 4)).take (k * 4)).length = k * 4 := by
    simp only [List.length_take, List.length_drop]
    omega
  have hchunk : rd ((dev.exchange s.st (Cmd.GFMS_DB_DUMP_EP_PORT_GET pid off)).1.data.take
        (dev.MRPC_MAX_DATA_LEN - 12)) 0 (k' * 4)
      = some ((stream.drop (off * 4)).take (k' * 4)) := by
    rw [hdata, rd_zero_take _ _ (by rw [List.length_take, hdl]; omega), List.take_take,
      List.take_take, min_eq_left (by omega), min_eq_left (by omega)]
  have hk4 : k' * 4 % U32 = k' * 4 := by rw [hU]; omega
  have ho4 : off * 4 % U32 = off * 4 := by rw [hU]; omega
  have hsum : (off + k') % U32 = off + k' := by rw [hU]; omega
  have hoffm : off % U32 = off := by rw [hU]; omega
  refine ⟨⟨0, off + k', d1, (switchtec_cmd dev s (Cmd.GFMS_DB_DUMP_EP_PORT_GET pid off)).2⟩,
    ?_, rfl, by simp; omega, by simp; omega, hinv1, hd1len, ?_⟩
  · unfold gfms_ep_port_get_body
    simp only [switchtec_cmd, hret, ne_eq, not_true_eq_false, if_false, hsize, hk4, hchunk, ho4,
      hwr, hecho, hoffm, hsum, gt_iff_lt, Option.bind_eq_bind, Option.some_bind, Option.pure_def]
  · show d1.take ((off + k') * 4) = _
    rw [Nat.add_mul]; exact hd1

theorem ep_port_loop_ok {σ : Type} (dev : Dev σ) (Inv : σ → Prop) (stream : Bytes)
    (total pid : Nat) (hlen : stream.length = total * 4) (hfit : total * 4 < U32)
    (hdev : ServesStream dev Inv stream total pid)
    (hmax : 0xf0 * 4 ≤ dev.MRPC_MAX_DATA_LEN) :
    ∀ (fuel : Nat) (s : Sess σ) (off : Nat) (data : Bytes), Inv s.st → off < total →
      total - off ≤ fuel → total * 4 ≤ data.length →
      data.take (off * 4) = stream.take (off * 4) →
      ∃ r, gfms_ep_port_get_loop dev pid total fuel s off data = some r ∧ r.ret = 0 ∧
        r.offset_dw = total ∧ r.data.take (total * 4) = stream := by
  intro fuel
  induction fuel with
  | zero => intro s off data _ h1 h2; omega
  | succ fuel ih =>
    intro s off data hinv hoff hfuel hbuf hpre
    obtain ⟨r, hbody, hret, hlt, hle, hinv1, hlen1, hpre1⟩ :=
      ep_port_body_ok dev Inv stream total pid hlen hfit hdev hmax s off data hinv hoff hbuf
        hpre
    rw [gfms_ep_port_get_loop, hbody]
    by_cases hc : r.offset_dw < total
    · simp only [hc, decide_True, Option.some_bind, if_true]
      exact ih r.sess r.offset_dw r.data hinv1 hc (by omega) (by omega) hpre1
    · simp only [hc, decide_False, Option.some_bind, Bool.false_eq_true, if_false]
      have : r.offset_dw = total := by omega
      refine ⟨r, rfl, hret, this, ?_⟩
      rw [← this, hpre1, this, ← hlen, List.take_length]

/-- Chunk-partition invariance of `gfms_pax_all_get` for responses that fit the response
buffer: for a stream of `total_len_dw ≥ 1` dwords, a buffer of at least that many bytes
and a device that serves the stream in chunks of any `k ≥ 1` dwords with
`(k + 3) * 4 ≤ MRPC_MAX_DATA_LEN`, the loop terminates within `total_len_dw` passes,
returns 0 and leaves the stream in the first `total_len_dw * 4` bytes of the buffer. -/
theorem pax_all_get_reassembles {σ : Type} (dev : Dev σ) (Inv : σ → Prop)
    (stream : Bytes) (total_len_dw fab_ep_pid fuel : Nat) (s : Sess σ) (data : Bytes)
    (hlen : stream.length = total_len_dw * 4) (hpos : 1 ≤ total_len_dw)
    (hfit : total_len_dw * 4 < U32) (hbuf : total_len_dw * 4 ≤ data.length)
    (hinv : Inv s.st) (hdev : ServesStream dev Inv stream total_len_dw fab_ep_pid)
    (hresp : FitsResponse dev Inv fab_ep_pid) (hfuel : total_len_dw ≤ fuel) :
    (gfms_pax_all_get dev fuel s total_len_dw data).map
        (fun r => (r.ret, r.data.take (total_len_dw * 4))) = some (0, stream) := by
  obtain ⟨r, h1, h2, _, h4⟩ := pax_all_loop_ok dev Inv stream total_len_dw fab_ep_pid hlen
    hfit hdev hresp fuel s 0 data hinv (by omega) (by omega) hbuf (by simp)
  rw [gfms_pax_all_get, h1, Option.map_some', h2, h4]

/-- Chunk-partition invariance of `gfms_ep_port_get`, for every sequence of chunk sizes
`k ≥ 1`, the whole declared length included, when `MRPC_MAX_DATA_LEN` is at least the
`0xf0` dwords of the cap: the loop terminates within `total_len_dw` passes, returns 0 and
leaves the stream in the first `total_len_dw * 4` bytes of the buffer. -/
theorem ep_port_get_reassembles {σ : Type} (dev : Dev σ) (Inv : σ → Prop)
    (stream : Bytes) (total_len_dw fab_ep_pid fuel : Nat) (s : Sess σ) (data : Bytes)
    (hlen : stream.length = total_len_dw * 4) (hpos : 1 ≤ total_len_dw)
    (hfit : total_len_dw * 4 < U32) (hbuf : total_len_dw * 4 ≤ data.length)
    (hinv : Inv s.st) (hdev : ServesStream dev Inv stream total_len_dw fab_ep_pid)
    (hmax : 0xf0 * 4 ≤ dev.MRPC_MAX_DATA_LEN) (hfuel : total_len_dw ≤ fuel) :
    (gfms_ep_port_get dev fuel s fab_ep_pid total_len_dw data).map
        (fun r => (r.ret, r.data.take (total_len_dw * 4))) = some (0, stream) := by
  obtain ⟨r, h1, h2, _, h4⟩ := ep_port_loop_ok dev Inv stream total_len_dw fab_ep_pid hlen
    hfit hdev hmax fuel s 0 data hinv (by omega) (by omega) hbuf (by simp)
  rw [gfms_ep_port_get, h1, Option.map_some', h2, h4]

theorem stream_dev_serves (stream : Bytes) (chunk_dw pid : Nat) (hc : 1 ≤ chunk_dw) :
    ServesStream (stream_dev stream chunk_dw) (fun _ => True) stream (stream.length / 4)
      pid := by
  intro st off _ hoff c hc'
  have h : (stream_dev stream chunk_dw).exchange st c =
      (⟨0, 3, 0, 0, off, min chunk_dw (stream.length / 4 - off) + 3,
        (stream.drop (off * 4)).take (min chunk_dw (stream.length / 4 - off) * 4)⟩, ()) := by
    rcases hc' with rfl | rfl <;> rfl
  rw [h]
  refine ⟨trivial, rfl, rfl, min chunk_dw (stream.length / 4 - off), ?_, ?_, rfl, rfl⟩
  · exact le_min hc (by omega)
  · have := min_le_right chunk_dw (stream.length / 4 - off)
    omega

theorem stream_dev_fits (stream : Bytes) (chunk_dw pid : Nat)
    (hc : (chunk_dw + 3) * 4 ≤ 1024) :
    FitsResponse (stream_dev stream chunk_dw) (fun _ => True) pid := by
  intro st off _ c hc'
  have h : ((stream_dev stream chunk_dw).exchange st c).1.size_dw
      = min chunk_dw (stream.length / 4 - off) + 3 := by
    rcases hc' with rfl | rfl <;> rfl
  rw [h]
  have := min_le_left chunk_dw (stream.length / 4 - off)
  show _ ≤ 1024
  omega

/-- The two invariance results at work: a 3-dword stream served 2 dwords at a time into a
16-byte buffer. -/
theorem short_stream_reassembled :
    (gfms_pax_all_get (stream_dev [1, 2, 3, 4, 5, 6, 7, 8, 9, 10, 11, 12] 2) 3 (fresh ()) 3
        (List.replicate 16 0)).map (fun r => (r.ret, r.data.take (3 * 4)))
      = some (0, [1, 2, 3, 4, 5, 6, 7, 8, 9, 10, 11, 12]) ∧
    (gfms_ep_port_get (stream_dev [1, 2, 3, 4, 5, 6, 7, 8, 9, 10, 11, 12] 2) 3 (fresh ()) 7 3
        (List.replicate 16 0)).map (fun r => (r.ret, r.data.take (3 * 4)))
      = some (0, [1, 2, 3, 4, 5, 6, 7, 8, 9, 10, 11, 12]) :=
  ⟨pax_all_get_reassembles (stream_dev [1, 2, 3, 4, 5, 6, 7, 8, 9, 10, 11, 12] 2)
      (fun _ => True) [1, 2, 3, 4, 5, 6, 7, 8, 9, 10, 11, 12] 3 7 3 (fresh ())
      (List.replicate 16 0) rfl (by decide) (by decide) (by decide) trivial
      (stream_dev_serves [1, 2, 3, 4, 5, 6, 7, 8, 9, 10, 11, 12] 2 7 (by decide))
      (stream_dev_fits [1, 2, 3, 4, 5, 6, 7, 8, 9, 10, 11, 12] 2 7 (by decide)) (le_refl 3),
    ep_port_get_reassembles (stream_dev [1, 2, 3, 4, 5, 6, 7, 8, 9, 10, 11, 12] 2)
      (fun _ => True) [1, 2, 3, 4, 5, 6, 7, 8, 9, 10, 11, 12] 3 7 3 (fresh ())
      (List.replicate 16 0) rfl (by decide) (by decide) (by decide) trivial
      (stream_dev_serves [1, 2, 3, 4, 5, 6, 7, 8, 9, 10, 11, 12] 2 7 (by decide))
      (by decide) (le_refl 3)⟩

set_option maxRecDepth 100000 in
/-- C1, evaluated: a stream of 260 dwords served as one chunk of the whole declared length
(`size_dw = 263`, requested offset echoed) by a device with `MRPC_MAX_DATA_LEN = 1024`.
`gfms_pax_all_get` copies 1040 bytes out of the 1012 bytes of `rsp.data`, which has no
defined behaviour, whatever the fuel: it does not leave the stream in the buffer.  On the
same device `gfms_ep_port_get` caps the chunk at 237 dwords, asks for the rest at offset
237 and returns 0 with the stream in the buffer.  With a response array large enough for
the chunk (`MRPC_MAX_DATA_LEN = 2048`) `gfms_pax_all_get` reassembles the stream as
well. -/
theorem whole_length_chunk_overreads (fuel : Nat) :
    ((stream_dev sample_long_stream 260).exchange () (Cmd.GFMS_DB_DUMP_PAX_ALL_GET 0)).1
      = ⟨0, 3, 0, 0, 0, 263, sample_long_stream⟩ ∧
    sample_long_stream.length = 260 * 4 ∧
    (stream_dev sample_long_stream 260).MRPC_MAX_DATA_LEN - 12 = 1012 ∧
    gfms_pax_all_get (stream_dev sample_long_stream 260) fuel (fresh ()) 260
      (List.replicate 1040 0) = none ∧
    gfms_ep_port_get (stream_dev sample_long_stream 260) (fuel + 2) (fresh ()) 5 260
        (List.replicate 1040 0)
      = some ⟨0, 260, sample_long_stream,
          ⟨(), [Cmd.GFMS_DB_DUMP_EP_PORT_GET 5 0, Cmd.GFMS_DB_DUMP_EP_PORT_GET 5 237], 0⟩⟩ ∧
    gfms_pax_all_get { stream_dev sample_long_stream 260 with MRPC_MAX_DATA_LEN := 2048 }
        (fuel + 1) (fresh ()) 260 (List.replicate 1040 0)
      = some ⟨0, 260, sample_long_stream, ⟨(), [Cmd.GFMS_DB_DUMP_PAX_ALL_GET 0], 0⟩⟩ := by
  refine ⟨rfl, rfl, rfl, ?_, rfl, rfl⟩
  cases fuel with
  | zero => rfl
  | succ n => rfl

/-! ## HVD detail: the count derived from the bitmap -/

theorem hvd_detail_decode_p2p_count (H : HvdDetailLayout) (data : Bytes) (p : Nat)
    (a d : HvdDetail) (h : hvd_detail_decode_p2p H data p a = some d) :
    d.body.log_port_count = hvd_detail_log_port_count
        (hvd_detail_bitmap d.body.log_port_p2p_enable_bitmap_low
          d.body.log_port_p2p_enable_bitmap_high) ∧
    ∃ bytes, rd data (p + 4 + 4) (H.log_port_p2p_bitmap_elem * d.body.log_port_count % U32)
        = some bytes ∧
      wr a.body.log_port_p2p_bitmap 0 bytes = some d.body.log_port_p2p_bitmap := by
  unfold hvd_detail_decode_p2p at h
  simp only [Option.bind_eq_bind, Option.pure_def, Option.bind_eq_some, int_len] at h
  obtain ⟨low, hlow, high, hhigh, len, hlen, p2p, hp2p, out, hout, hd⟩ := h
  simp only [Option.some.injEq] at hd
  subst hd
  split at hlen
  · simp only [Option.some.injEq] at hlen
    subst hlen
    exact ⟨rfl, p2p, hp2p, hout⟩
  · exact absurd hlen (by simp)

theorem hvd_detail_decode_count (H : HvdDetailLayout) (data : Bytes) (out d : HvdDetail)
    (h : hvd_detail_decode H data out = some d) :
    d.body.log_port_count = hvd_detail_log_port_count
        (hvd_detail_bitmap d.body.log_port_p2p_enable_bitmap_low
          d.body.log_port_p2p_enable_bitmap_high) := by
  unfold hvd_detail_decode at h
  simp only [Option.bind_eq_some] at h
  obtain ⟨a, _, b, _, hd⟩ := h
  exact (hvd_detail_decode_p2p_count H _ b.1 b.2 d hd).1

theorem hvd_detail_decode_vep_p2p (H : HvdDetailLayout) (data : Bytes) (out : HvdDetail)
    (a : Nat × HvdDetail) (h : hvd_detail_decode_vep H data out = some a) :
    a.2.body.log_port_p2p_bitmap = out.body.log_port_p2p_bitmap := by
  unfold hvd_detail_decode_vep at h
  simp only [Option.bind_eq_bind, Option.pure_def, Option.bind_eq_some] at h
  obtain ⟨_, _, _, _, _, _, _, _, _, _, ha⟩ := h
  simp only [Option.some.injEq] at ha
  subst ha
  rfl

theorem hvd_detail_decode_log_port_p2p (H : HvdDetailLayout) (data : Bytes) (p : Nat)
    (out : HvdDetail) (a : Nat × HvdDetail)
    (h : hvd_detail_decode_log_port H data p out = some a) :
    a.2.body.log_port_p2p_bitmap = out.body.log_port_p2p_bitmap := by
  unfold hvd_detail_decode_log_port at h
  simp only [Option.bind_eq_bind, Option.pure_def, Option.bind_eq_some] at h
  obtain ⟨_, _, _, _, _, _, _, _, _, _, ha⟩ := h
  simp only [Option.some.injEq] at ha
  subst ha
  rfl

theorem hvd_detail_dump_decoded {σ : Type} (H : HvdDetailLayout) (dev : Dev σ) (s s' : Sess σ)
    (hvd_idx : Nat) (out d : HvdDetail)
    (h : switchtec_fab_gfms_db_dump_hvd_detail H dev s hvd_idx out = some (0, d, s')) :
    hvd_detail_decode H (switchtec_cmd dev s (Cmd.GFMS_DB_DUMP_HVD_DETAIL hvd_idx)).1.data out
      = some d := by
  unfold switchtec_fab_gfms_db_dump_hvd_detail at h
  split at h
  · rename_i hret
    simp only [Option.some.injEq, Prod.mk.injEq] at h
    exact absurd h.1 hret
  · simp only [Option.map_eq_some', Prod.mk.injEq, true_and] at h
    obtain ⟨d', hd', rfl, _⟩ := h
    exact hd'

/-- C6 (bitmap boundary cases).  Whenever `switchtec_fab_gfms_db_dump_hvd_detail` decodes a
successful response: if both 32-bit halves are 0, `log_port_count` is 0 and no byte of
`log_port_p2p_bitmap` is written; if both halves are `0xFFFFFFFF`, `log_port_count` is
64. -/
theorem bitmap_boundary_cases {σ : Type} (H : HvdDetailLayout) (dev : Dev σ) (s s' : Sess σ)
    (hvd_idx : Nat) (out d : HvdDetail)
    (h : switchtec_fab_gfms_db_dump_hvd_detail H dev s hvd_idx out = some (0, d, s')) :
    (le d.body.log_port_p2p_enable_bitmap_low % U32 = 0 ∧
      le d.body.log_port_p2p_enable_bitmap_high % U32 = 0 →
        d.body.log_port_count = 0 ∧
        d.body.log_port_p2p_bitmap = out.body.log_port_p2p_bitmap) ∧
    (le d.body.log_port_p2p_enable_bitmap_low % U32 = 0xFFFFFFFF ∧
      le d.body.log_port_p2p_enable_bitmap_high % U32 = 0xFFFFFFFF →
        d.body.log_port_count = 64) := by
  have hdec := hvd_detail_dump_decoded H dev s s' hvd_idx out d h
  unfold hvd_detail_decode at hdec
  simp only [Option.bind_eq_some] at hdec
  obtain ⟨a, ha, b, hb, hd⟩ := hdec
  obtain ⟨hcount, bytes, hrd, hwr⟩ := hvd_detail_decode_p2p_count H _ b.1 b.2 d hd
  have hpa := hvd_detail_decode_vep_p2p H _ out a ha
  have hpb := hvd_detail_decode_log_port_p2p H _ a.1 a.2 b hb
  constructor
  · rintro ⟨hl, hh⟩
    have hc0 : d.body.log_port_count = 0 := by
      rw [hcount, hvd_detail_bitmap, hl, hh]; decide
    refine ⟨hc0, ?_⟩
    rw [hc0] at hrd
    simp only [rd, Nat.mul_zero, Nat.zero_mod, add_zero, List.take_zero] at hrd
    split at hrd
    · simp only [Option.some.injEq] at hrd
      subst hrd
      simp only [wr, List.length_nil, add_zero, Nat.zero_le, if_true, List.take_zero,
        List.nil_append, List.drop_zero, Option.some.injEq] at hwr
      rw [← hwr, hpb, hpa]
    · exact absurd hrd (by simp)
  · rintro ⟨hl, hh⟩
    rw [hcount, hvd_detail_bitmap, hl, hh]; decide

set_option maxRecDepth 100000 in
/-- Witness of C6: the sample response with both halves 0, decoded into the sample
record. -/
theorem bitmap_boundary_cases_witness :
    (sample_hvd_decoded [0, 0, 0, 0] [0, 0, 0, 0] 0).body.log_port_count = 0 ∧
    (sample_hvd_decoded [0, 0, 0, 0] [0, 0, 0, 0] 0).body.log_port_p2p_bitmap =
      sample_hvd_detail.body.log_port_p2p_bitmap :=
  (bitmap_boundary_cases sample_hvd_layout
    (script_dev true true [] (ok_rsp 0 0 0 0 0 (sample_hvd_response [0, 0, 0, 0] [0, 0, 0, 0])))
    (fresh 0) ⟨1, [Cmd.GFMS_DB_DUMP_HVD_DETAIL 2], 0⟩ 2 sample_hvd_detail
    (sample_hvd_decoded [0, 0, 0, 0] [0, 0, 0, 0] 0) (by decide)).1 ⟨by decide, by decide⟩

set_option maxRecDepth 100000 in
/-- C5, evaluated: for the response whose bitmap halves are `low = 4`, `high = 0` (one set
bit, bit 2), `switchtec_fab_gfms_db_dump_hvd_detail` returns 0 with `log_port_count = 3`
and copies 3 elements, while the bitmap has 1 set bit: the loop counts the positions `i`
with `bitmap >> i` non-zero. -/
theorem log_port_count_is_not_popcount :
    switchtec_fab_gfms_db_dump_hvd_detail sample_hvd_layout
        (script_dev true true []
          (ok_rsp 0 0 0 0 0 (sample_hvd_response [4, 0, 0, 0] [0, 0, 0, 0])))
        (fresh 0) 2 sample_hvd_detail
      = some (0, sample_hvd_decoded [4, 0, 0, 0] [0, 0, 0, 0] 3,
          ⟨1, [Cmd.GFMS_DB_DUMP_HVD_DETAIL 2], 0⟩) ∧
    popcount64 (hvd_detail_bitmap [4, 0, 0, 0] [0, 0, 0, 0]) = 1 := by
  constructor <;> decide

set_option maxRecDepth 100000 in
/-- The all-ones bitmap evaluated on the sample response: 64 elements are counted and
copied. -/
theorem all_ones_bitmap_counts_64 :
    switchtec_fab_gfms_db_dump_hvd_detail sample_hvd_layout
        (script_dev true true []
          (ok_rsp 0 0 0 0 0 (sample_hvd_response [255, 255, 255, 255] [255, 255, 255, 255])))
        (fresh 0) 2 sample_hvd_detail
      = some (0, sample_hvd_decoded [255, 255, 255, 255] [255, 255, 255, 255] 64,
          ⟨1, [Cmd.GFMS_DB_DUMP_HVD_DETAIL 2], 0⟩) := by
  decide

/-! ## Topology dump: capability gate, status polling, capacity check -/

/-- C8 (capability gate).  When `switchtec_is_gen4` or `switchtec_is_pax` reports false,
`switchtec_topo_info_dump` returns -1 with `errno = ENOTSUP`; the session is otherwise
unchanged (no command is added to the trace, the device state is untouched) and so is the
output record. -/
theorem capability_gate {σ : Type} (dev : Dev σ) (sizeof_topo fuel : Nat) (s : Sess σ)
    (topo_info : Bytes) (h : dev.is_gen4 = false ∨ dev.is_pax = false) :
    switchtec_topo_info_dump dev sizeof_topo fuel s topo_info
      = some ⟨-1, topo_info, ⟨s.st, s.trace, ENOTSUP⟩⟩ := by
  unfold switchtec_topo_info_dump
  rcases h with h | h <;> simp [h]

/-- Witness of C8: a device that is not a PAX; the trace stays empty. -/
theorem capability_gate_witness :
    switchtec_topo_info_dump (script_dev true false [] (ok_rsp 3 0 0 0 0 [])) 1024 5 (fresh 0)
        [1, 2, 3]
      = some ⟨-1, [1, 2, 3], ⟨0, [], ENOTSUP⟩⟩ :=
  capability_gate (script_dev true false [] (ok_rsp 3 0 0 0 0 [])) 1024 5 (fresh 0) [1, 2, 3]
    (Or.inr rfl)

theorem topo_polled_succ {σ : Type} (dev : Dev σ) (n : Nat) (s : Sess σ) :
    topo_polled dev (n + 1) s = (topo_info_dump_status_get dev (topo_polled dev n s)).sess := by
  induction n generalizing s with
  | zero => rfl
  | succ n ih =>
    rw [topo_polled, ih]
    rfl

theorem topo_polled_trace {σ : Type} (dev : Dev σ) (n : Nat) (s : Sess σ) :
    (topo_polled dev n s).trace = s.trace ++ List.replicate n Cmd.TOPO_INFO_DUMP_STATUS_GET := by
  induction n with
  | zero => simp [topo_polled]
  | succ n ih =>
    rw [topo_polled_succ]
    rw [List.replicate_succ']
    simp only [topo_info_dump_status_get, switchtec_cmd, ih, List.append_assoc]

theorem topo_status_loop_polled {σ : Type} (dev : Dev σ) :
    ∀ (n fuel : Nat) (s : Sess σ), n < fuel →
      (∀ i, i < n → (topo_info_dump_status_get dev (topo_polled dev i s)).ret = 0 ∧
        (topo_info_dump_status_get dev (topo_polled dev i s)).status
          = SWITCHTEC_FAB_TOPO_INFO_DUMP_WAIT) →
      ((topo_info_dump_status_get dev (topo_polled dev n s)).ret ≠ 0 ∨
        (topo_info_dump_status_get dev (topo_polled dev n s)).status
          ≠ SWITCHTEC_FAB_TOPO_INFO_DUMP_WAIT) →
      topo_status_loop dev fuel s = some (topo_info_dump_status_get dev (topo_polled dev n s)) := by
  intro n
  induction n with
  | zero =>
    intro fuel s hf _ hlast
    obtain ⟨f, rfl⟩ : ∃ f, fuel = f + 1 := ⟨fuel - 1, by omega⟩
    rw [topo_status_loop]
    simp only [topo_polled] at hlast
    rcases hlast with h | h
    · rw [if_pos h]; rfl
    · by_cases h0 : (topo_info_dump_status_get dev s).ret ≠ 0
      · rw [if_pos h0]; rfl
      · rw [if_neg h0, if_neg h]; rfl
  | succ n ih =>
    intro fuel s hf hwait hlast
    obtain ⟨f, rfl⟩ : ∃ f, fuel = f + 1 := ⟨fuel - 1, by omega⟩
    rw [topo_status_loop]
    have h0 := hwait 0 (by omega)
    simp only [topo_polled] at h0
    rw [if_neg (by rw [h0.1]; simp), if_pos h0.2]
    have := ih f (topo_info_dump_status_get dev s).sess (by omega)
      (fun i hi => by simpa [topo_polled] using hwait (i + 1) (by omega))
      (by simpa [topo_polled] using hlast)
    rw [this]
    rfl

theorem topo_data_loop_status_count {σ : Type} (dev : Dev σ) (sizeof_topo total : Nat) :
    ∀ (fuel : Nat) (s : Sess σ) (offset buf_len : Nat) (topo_info : Bytes) (r : TopoResult σ),
      topo_data_loop dev sizeof_topo total fuel s offset buf_len topo_info = some r →
      r.sess.trace.count Cmd.TOPO_INFO_DUMP_STATUS_GET
        = s.trace.count Cmd.TOPO_INFO_DUMP_STATUS_GET := by
  intro fuel
  induction fuel with
  | zero =>
    intro s offset buf_len topo_info r h
    rw [topo_data_loop] at h
    split at h
    · exact absurd h (by simp)
    · simp only [Option.some.injEq] at h
      subst h
      simp [topo_info_dump_finish, switchtec_cmd]
  | succ fuel ih =>
    intro s offset buf_len topo_info r h
    rw [topo_data_loop] at h
    split at h
    · simp only [Option.bind_eq_some] at h
      obtain ⟨d, hd, h⟩ := h
      have hdt : d.sess.trace.count Cmd.TOPO_INFO_DUMP_STATUS_GET
          = s.trace.count Cmd.TOPO_INFO_DUMP_STATUS_GET := by
        unfold topo_info_dump_data_get at hd
        simp only [Option.bind_eq_bind, Option.pure_def, Option.bind_eq_some] at hd
        obtain ⟨_, _, _, _, hd⟩ := hd
        simp only [Option.some.injEq] at hd
        subst hd
        simp [switchtec_cmd]
      split at h
      · simp only [Option.some.injEq] at h
        subst h
        exact hdt
      · rw [ih _ _ _ _ _ h, hdt]
    · simp only [Option.some.injEq] at h
      subst h
      simp [topo_info_dump_finish, switchtec_cmd]

/-- C9 (status polling).  After a successful start, let the first `n` status exchanges
succeed with status WAIT and let exchange `n + 1` fail or report another status.  Then
`switchtec_topo_info_dump` issues the status command exactly `n + 1` times; if exchange
`n + 1` fails, its return code is returned; if it succeeds with a status other than READY,
-1 is returned; in both cases the trace ends with that status exchange, so that no data-get
and no finish is issued. -/
theorem status_polling {σ : Type} (dev : Dev σ) (sizeof_topo fuel n : Nat) (s : Sess σ)
    (topo_info : Bytes) (hgen4 : dev.is_gen4 = true) (hpax : dev.is_pax = true)
    (hstart : (topo_info_dump_start dev s).1 = 0) (hfuel : n < fuel)
    (hwait : ∀ i, i < n → (topo_status_nth dev i s).ret = 0 ∧
      (topo_status_nth dev i s).status = SWITCHTEC_FAB_TOPO_INFO_DUMP_WAIT)
    (hlast : (topo_status_nth dev n s).ret ≠ 0 ∨
      (topo_status_nth dev n s).status ≠ SWITCHTEC_FAB_TOPO_INFO_DUMP_WAIT) :
    (topo_status_nth dev n s).sess.trace
      = s.trace ++ Cmd.TOPO_INFO_DUMP_START ::
          List.replicate (n + 1) Cmd.TOPO_INFO_DUMP_STATUS_GET ∧
    ((topo_status_nth dev n s).ret ≠ 0 →
      switchtec_topo_info_dump dev sizeof_topo fuel s topo_info
        = some ⟨(topo_status_nth dev n s).ret, topo_info, (topo_status_nth dev n s).sess⟩) ∧
    ((topo_status_nth dev n s).ret = 0 →
      (topo_status_nth dev n s).status ≠ SWITCHTEC_FAB_TOPO_INFO_DUMP_READY →
      switchtec_topo_info_dump dev sizeof_topo fuel s topo_info
        = some ⟨-1, topo_info, (topo_status_nth dev n s).sess⟩) ∧
    (∀ r, switchtec_topo_info_dump dev sizeof_topo fuel s topo_info = some r →
      r.sess.trace.count Cmd.TOPO_INFO_DUMP_STATUS_GET
        = s.trace.count Cmd.TOPO_INFO_DUMP_STATUS_GET + (n + 1)) := by
  have hloop := topo_status_loop_polled dev n fuel (topo_info_dump_start dev s).2 hfuel hwait hlast
  have htrace : (topo_status_nth dev n s).sess.trace
      = s.trace ++ Cmd.TOPO_INFO_DUMP_START ::
          List.replicate (n + 1) Cmd.TOPO_INFO_DUMP_STATUS_GET := by
    have := topo_polled_trace dev (n + 1) (topo_info_dump_start dev s).2
    rw [topo_polled_succ] at this
    rw [topo_status_nth, this]
    simp [topo_info_dump_start, switchtec_cmd]
  have hcount : (topo_status_nth dev n s).sess.trace.count Cmd.TOPO_INFO_DUMP_STATUS_GET
      = s.trace.count Cmd.TOPO_INFO_DUMP_STATUS_GET + (n + 1) := by
    rw [htrace, List.count_append, List.count_cons_of_ne (by decide), List.count_replicate_self]
  have hdump : switchtec_topo_info_dump dev sizeof_topo fuel s topo_info =
      if (topo_status_nth dev n s).ret ≠ 0 then
        some ⟨(topo_status_nth dev n s).ret, topo_info, (topo_status_nth dev n s).sess⟩
      else if (topo_status_nth dev n s).status ≠ SWITCHTEC_FAB_TOPO_INFO_DUMP_READY then
        some ⟨-1, topo_info, (topo_status_nth dev n s).sess⟩
      else if (topo_status_nth dev n s).info_len > sizeof_topo then
        some ⟨-1, topo_info, (topo_status_nth dev n s).sess⟩
      else topo_data_loop dev sizeof_topo (topo_status_nth dev n s).info_len fuel
        (topo_status_nth dev n s).sess 0 (sizeof_topo % U16) topo_info := by
    unfold switchtec_topo_info_dump
    rw [hloop]
    simp only [hgen4, hpax, Bool.not_true, Bool.or_self, Bool.false_eq_true, if_false, hstart,
      ne_eq, not_true_eq_false, Option.some_bind]
    rfl
  refine ⟨htrace, ?_, ?_, ?_⟩
  · intro h
    rw [hdump, if_pos h]
  · intro h0 h1
    rw [hdump, if_neg (by rw [h0]; simp), if_pos h1]
  · intro r hr
    rw [hdump] at hr
    split at hr
    · simp only [Option.some.injEq] at hr
      subst hr
      exact hcount
    · split at hr
      · simp only [Option.some.injEq] at hr
        subst hr
        exact hcount
      · split at hr
        · simp only [Option.some.injEq] at hr
          subst hr
          exact hcount
        · rw [topo_data_loop_status_count dev _ _ _ _ _ _ _ r hr, hcount]

/-- Witness of C9: two WAIT statuses, then FAILED; the call returns -1 after the third
status exchange. -/
theorem status_polling_witness :
    switchtec_topo_info_dump
        (script_dev true true
          [ok_rsp 0 0 0 0 0 [], ok_rsp 2 0 0 0 0 [], ok_rsp 2 0 0 0 0 [], ok_rsp 4 0 0 0 0 []]
          (ok_rsp 3 0 0 0 0 []))
        1024 3 (fresh 0) [7, 7]
      = some ⟨-1, [7, 7],
          ⟨4, [Cmd.TOPO_INFO_DUMP_START, Cmd.TOPO_INFO_DUMP_STATUS_GET,
            Cmd.TOPO_INFO_DUMP_STATUS_GET, Cmd.TOPO_INFO_DUMP_STATUS_GET], 0⟩⟩ :=
  (status_polling
    (script_dev true true
      [ok_rsp 0 0 0 0 0 [], ok_rsp 2 0 0 0 0 [], ok_rsp 2 0 0 0 0 [], ok_rsp 4 0 0 0 0 []]
      (ok_rsp 3 0 0 0 0 []))
    1024 3 2 (fresh 0) [7, 7] rfl rfl rfl (by decide) (by decide) (by decide)).2.2.1
    (by decide) (by decide)

/-! ### The capacity check and the 16-bit length -/

theorem topo_info_len_truncated {σ : Type} (dev : Dev σ) (s : Sess σ) :
    (topo_info_dump_status_get dev s).info_len
      = (switchtec_cmd dev s Cmd.TOPO_INFO_DUMP_STATUS_GET).1.data_len_dw % U16 * 4 % U16 :=
  rfl

set_option maxRecDepth 100000 in
/-- C7, evaluated: against a 1024-byte record, a READY status with
`data_len_dw = 0x4001` declares `0x10004` bytes, which `topo_info_dump_status_get` stores
in a `uint16_t` as 4; the capacity check passes, a data-get is issued and the call returns
0. -/
theorem capacity_check_misses_wrapped_length :
    switchtec_topo_info_dump
        (script_dev true true
          [ok_rsp 0 0 0 0 0 [], ok_rsp 3 0x4001 0 0 0 [], ok_rsp 3 1 0 0 0 [9, 9, 9, 9]]
          (ok_rsp 3 0 0 0 0 []))
        1024 2 (fresh 0) (List.replicate 1024 0)
      = some ⟨0, [9, 9, 9, 9] ++ List.replicate 1020 0,
          ⟨4, [Cmd.TOPO_INFO_DUMP_START, Cmd.TOPO_INFO_DUMP_STATUS_GET,
            Cmd.TOPO_INFO_DUMP_DATA_GET 0 1004, Cmd.TOPO_INFO_DUMP_FINISH], 0⟩⟩ ∧
    0x4001 * 4 > 1024 := by
  constructor <;> decide

/-- The capacity check as far as it holds: after a successful start, a first status
exchange that succeeds with status READY and a declared length `data_len_dw * 4` that fits
16 bits and exceeds the record makes the call return -1 right after that exchange. -/
theorem capacity_check_unwrapped {σ : Type} (dev : Dev σ) (sizeof_topo fuel : Nat)
    (s : Sess σ) (topo_info : Bytes) (hgen4 : dev.is_gen4 = true) (hpax : dev.is_pax = true)
    (hstart : (topo_info_dump_start dev s).1 = 0)
    (hret : (topo_status_nth dev 0 s).ret = 0)
    (hready : (topo_status_nth dev 0 s).status = SWITCHTEC_FAB_TOPO_INFO_DUMP_READY)
    (hfit : (switchtec_cmd dev (topo_info_dump_start dev s).2
      Cmd.TOPO_INFO_DUMP_STATUS_GET).1.data_len_dw % U16 * 4 < U16)
    (hbig : (switchtec_cmd dev (topo_info_dump_start dev s).2
      Cmd.TOPO_INFO_DUMP_STATUS_GET).1.data_len_dw % U16 * 4 > sizeof_topo) :
    switchtec_topo_info_dump dev sizeof_topo (fuel + 1) s topo_info
      = some ⟨-1, topo_info, (topo_status_nth dev 0 s).sess⟩ := by
  have hlen : (topo_status_nth dev 0 s).info_len > sizeof_topo := by
    simp only [topo_status_nth, topo_polled, topo_info_dump_status_get]
    rw [Nat.mod_eq_of_lt hfit]
    exact hbig
  unfold switchtec_topo_info_dump
  rw [topo_status_loop]
  have hr : (topo_info_dump_status_get dev (topo_info_dump_start dev s).2).ret = 0 := hret
  have hs : (topo_info_dump_status_get dev (topo_info_dump_start dev s).2).status
      = SWITCHTEC_FAB_TOPO_INFO_DUMP_READY := hready
  have hl : (topo_info_dump_status_get dev (topo_info_dump_start dev s).2).info_len
      > sizeof_topo := hlen
  simp only [hgen4, hpax, Bool.not_true, Bool.or_self, Bool.false_eq_true, if_false, hstart,
    ne_eq, not_true_eq_false, hr, hs, Option.some_bind, hl, if_true]
  rw [if_neg (by decide)]
  simp only [Option.some_bind, hr, hs, ne_eq, not_true_eq_false, if_false, hl, if_true]
  rfl

/-! ### Zero declared length -/

theorem topo_data_loop_zero_length {σ : Type} (dev : Dev σ) (sizeof_topo fuel : Nat)
    (s : Sess σ) (offset buf_len : Nat) (topo_info : Bytes) :
    topo_data_loop dev sizeof_topo 0 fuel s offset buf_len topo_info
      = some ⟨(topo_info_dump_finish dev s).1, topo_info,
          ⟨(dev.exchange s.st Cmd.TOPO_INFO_DUMP_FINISH).2,
            s.trace ++ [Cmd.TOPO_INFO_DUMP_FINISH], s.errno⟩⟩ := by
  cases fuel <;> simp [topo_data_loop, topo_info_dump_finish, switchtec_cmd]

theorem pax_all_get_zero_length_trace {σ : Type} (dev : Dev σ) (fuel : Nat) (s : Sess σ)
    (data : Bytes) (r : GetResult σ) (h : gfms_pax_all_get dev (fuel + 1) s 0 data = some r) :
    r.sess.trace = s.trace ++ [Cmd.GFMS_DB_DUMP_PAX_ALL_GET 0] := by
  unfold gfms_pax_all_get at h
  rw [gfms_pax_all_get_loop] at h
  simp only [Option.bind_eq_some] at h
  obtain ⟨b, hb, h⟩ := h
  unfold gfms_pax_all_get_body at hb
  dsimp only at hb
  split at hb
  · simp only [Option.some.injEq] at hb
    subst hb
    simp only [Bool.false_eq_true, if_false, Option.some.injEq] at h
    subst h
    rfl
  · simp only [Option.bind_eq_bind, Option.pure_def, Option.bind_eq_some] at hb
    obtain ⟨_, _, _, _, hb⟩ := hb
    simp only [Option.some.injEq] at hb
    subst hb
    simp only [gt_iff_lt, Nat.not_lt_zero, decide_False, Bool.false_eq_true, if_false,
      Option.some.injEq] at h
    subst h
    rfl

theorem ep_port_get_zero_length_trace {σ : Type} (dev : Dev σ) (fuel pid : Nat) (s : Sess σ)
    (data : Bytes) (r : GetResult σ)
    (h : gfms_ep_port_get dev (fuel + 1) s pid 0 data = some r) :
    r.sess.trace = s.trace ++ [Cmd.GFMS_DB_DUMP_EP_PORT_GET pid 0] := by
  unfold gfms_ep_port_get at h
  rw [gfms_ep_port_get_loop] at h
  simp only [Option.bind_eq_some] at h
  obtain ⟨b, hb, h⟩ := h
  unfold gfms_ep_port_get_body at hb
  dsimp only at hb
  split at hb
  · simp only [Option.some.injEq] at hb
    subst hb
    simp only [Bool.false_eq_true, if_false, Option.some.injEq] at h
    subst h
    rfl
  · simp only [Option.bind_eq_bind, Option.pure_def, Option.bind_eq_some] at hb
    obtain ⟨_, _, _, _, hb⟩ := hb
    simp only [Option.some.injEq] at hb
    subst hb
    simp only [gt_iff_lt, Nat.not_lt_zero, decide_False, Bool.false_eq_true, if_false,
      Option.some.injEq] at h
    subst h
    rfl

/-- C10, evaluated: called with `total_len_dw = 0` and an empty buffer, `gfms_pax_all_get`
and `gfms_ep_port_get` each issue one get (the body of the `do ... while` runs before the
length is looked at); the device answers with an empty payload, `size_dw = 3`. -/
theorem zero_length_still_issues_get :
    gfms_pax_all_get (script_dev true true [] (ok_rsp 0 0 0 0 3 [])) 1 (fresh 0) 0 []
      = some ⟨0, 0, [], ⟨1, [Cmd.GFMS_DB_DUMP_PAX_ALL_GET 0], 0⟩⟩ ∧
    gfms_ep_port_get (script_dev true true [] (ok_rsp 0 0 0 0 3 [])) 1 (fresh 0) 5 0 []
      = some ⟨0, 0, [], ⟨1, [Cmd.GFMS_DB_DUMP_EP_PORT_GET 5 0], 0⟩⟩ := by
  constructor <;> decide

/-! ## Decoding the encoding of a valid record -/

theorem rd_of_drop (data : Bytes) (p : Nat) (x rest : Bytes) (hp : p ≤ data.length)
    (h : data.drop p = x ++ rest) : rd data p x.length = some x := by
  have hl : data.length - p = x.length + rest.length := by
    rw [← List.length_drop, h, List.length_append]
  unfold rd
  rw [if_pos (by omega), h, List.take_left']
  rfl

theorem drop_advance (data : Bytes) (p : Nat) (x rest : Bytes)
    (h : data.drop p = x ++ rest) : data.drop (p + x.length) = rest := by
  rw [← List.drop_drop, h, List.drop_left']
  rfl

theorem le_length_advance (data : Bytes) (p : Nat) (x rest : Bytes) (hp : p ≤ data.length)
    (h : data.drop p = x ++ rest) : p + x.length ≤ data.length := by
  have hl : data.length - p = x.length + rest.length := by
    rw [← List.length_drop, h, List.length_append]
  omega

theorem wr_zero (dst bytes : Bytes) (h : bytes.length ≤ dst.length) :
    wr dst 0 bytes = some (bytes ++ dst.drop bytes.length) := by
  simp [wr, h]

theorem attached_ep_ok (L : Layout) (data : Bytes) (p : Nat) (e : AttachedEpRec)
    (rest : Bytes) (o : EpPortEp) (hv : valid_ep L e) (hdl : data.length < U32)
    (hp : p ≤ data.length) (h : data.drop p = encode_ep e ++ rest)
    (hfit : e.functions.length ≤ o.functions.length) :
    gfms_ep_port_attached_ep_parse L data p o
      = some ((encode_ep e).length,
          ⟨e.ep_hdr, e.functions ++ o.functions.drop e.functions.length⟩) := by
  obtain ⟨hh, hs⟩ := hv
  rw [encode_ep, List.length_append] at hs
  rw [encode_ep, List.append_assoc] at h
  have h1 := rd_of_drop data p e.ep_hdr _ hp h
  have h2 := drop_advance data p e.ep_hdr _ h
  have hp2 := le_length_advance data p e.ep_hdr _ hp h
  have h3 := rd_of_drop data (p + e.ep_hdr.length) e.functions rest hp2 h2
  have hp3 := le_length_advance data (p + e.ep_hdr.length) e.functions rest hp2 h2
  have hU32 : U32 = 4294967296 := rfl
  have hU64 : U64 = 18446744073709551616 := rfl
  rw [hU32] at hdl hs
  have hlen : (L.ep_size_dw e.ep_hdr % U32 * 4 % U32 + U64 - L.ep_hdr_size % U64) % U64
      = e.functions.length := by
    rw [hU32, hU64]
    omega
  have hsum : (L.ep_hdr_size + e.functions.length) % U64
      = e.ep_hdr.length + e.functions.length := by
    rw [hU64]
    omega
  rw [hh] at h1 h3
  unfold gfms_ep_port_attached_ep_parse
  simp only [Option.bind_eq_bind, Option.pure_def, h1, Option.some_bind, hlen, h3,
    wr_zero _ _ hfit, hsum, encode_ep, List.length_append]

theorem switch_eps_loop_ok (L : Layout) (hL : L.WF) (data : Bytes) :
    ∀ (es : List AttachedEpRec) (slots : List EpPortEp) (p parsed : Nat) (rest : Bytes),
      (∀ e ∈ es, valid_ep L e) → fits_eps slots es → data.length < U32 → p ≤ data.length →
      data.drop p = encode_eps es ++ rest → parsed + (encode_eps es).length < U64 →
      gfms_ep_port_switch_eps_loop L data slots p parsed (encode_eps es).length
        = some (put_eps slots es, parsed + (encode_eps es).length) := by
  intro es
  induction es with
  | nil =>
    intro slots p parsed rest _ _ _ _ _ _
    cases slots <;> simp [gfms_ep_port_switch_eps_loop, encode_eps, put_eps]
  | cons e es ih =>
    intro slots p parsed rest hv hfit hdl hp h hlt
    cases slots with
    | nil => exact absurd hfit (by simp [fits_eps])
    | cons o os =>
      obtain ⟨hfo, hfos⟩ := hfit
      have hve := hv e (List.mem_cons_self _ _)
      rw [encode_eps, List.append_assoc] at h
      have hstep := attached_ep_ok L data p e _ o hve hdl hp h hfo
      have hpos : 0 < (encode_ep e).length := by
        rw [encode_ep, List.length_append, hve.1]
        have := hL.2.1
        omega
      have hU64 : U64 = 18446744073709551616 := rfl
      rw [encode_eps, List.length_append] at hlt ⊢
      rw [gfms_ep_port_switch_eps_loop, if_neg (by omega), hstep]
      simp only [Option.some_bind]
      have h1 : (parsed + (encode_ep e).length) % U64 = parsed + (encode_ep e).length := by
        rw [hU64] at hlt ⊢; omega
      have h2 : ((encode_ep e).length + (encode_eps es).length + U64 - (encode_ep e).length % U64)
          % U64 = (encode_eps es).length := by
        rw [hU64] at hlt ⊢; omega
      rw [h1, h2, ih os (p + (encode_ep e).length) (parsed + (encode_ep e).length) rest
        (fun e' he' => hv e' (List.mem_cons_of_mem _ he')) hfos hdl
        (le_length_advance data p _ _ hp h) (drop_advance data p _ _ h) (by omega)]
      simp only [Option.map_some', put_eps, Nat.add_assoc]

theorem switch_parse_ok (L : Layout) (data : Bytes) (p : Nat) (sw_hdr fns rest : Bytes)
    (o : EpPortSwitch) (hh : sw_hdr.length = L.sw_hdr_size)
    (hf : fns.length = (L.function_number sw_hdr % U32) * L.ds_function_size)
    (hp : p ≤ data.length) (h : data.drop p = sw_hdr ++ fns ++ rest)
    (hfit : fns.length ≤ o.internal_functions.length) (hlt : sw_hdr.length + fns.length < U64) :
    gfms_ep_port_attache_switch_parse L data p o
      = some (sw_hdr.length + fns.length,
          { o with sw_hdr := sw_hdr
                   internal_functions := fns ++ o.internal_functions.drop fns.length }) := by
  rw [List.append_assoc] at h
  have h1 := rd_of_drop data p sw_hdr _ hp h
  have h2 := drop_advance data p sw_hdr _ h
  have hp2 := le_length_advance data p sw_hdr _ hp h
  have h3 := rd_of_drop data (p + sw_hdr.length) fns rest hp2 h2
  have hU64 : U64 = 18446744073709551616 := rfl
  have hlen : (L.function_number sw_hdr % U32 * L.ds_function_size) % U64 = fns.length := by
    rw [← hf]; rw [hU64] at hlt ⊢; omega
  have hsum : (L.sw_hdr_size + fns.length) % U64 = sw_hdr.length + fns.length := by
    rw [← hh]; rw [hU64] at hlt ⊢; omega
  rw [hh] at h1 h3
  unfold gfms_ep_port_attache_switch_parse
  simp only [Option.bind_eq_bind, Option.pure_def, h1, Option.some_bind, hlen, h3,
    wr_zero _ _ hfit, hsum]

theorem sub_section_ok (L : Layout) (hL : L.WF) (data : Bytes) (p : Nat) (q : PortRec)
    (rest : Bytes) (o : EpPort) (hv : valid_port L q) (hfit : fits_port o q)
    (hdl : data.length < U32) (hp : p ≤ data.length)
    (h : data.drop p = encode_port q ++ rest) :
    gfms_ep_port_sub_section_parse L data p o = some ((encode_port q).length, put_port o q) := by
  have hU32 : U32 = 4294967296 := rfl
  have hU64 : U64 = 18446744073709551616 := rfl
  have hpq := le_length_advance data p _ _ hp h
  rw [hU32] at hdl
  obtain ⟨_, _, hd1, hd2, hd3⟩ := hL
  cases q with
  | Switch port_hdr sw_hdr fns eps =>
    obtain ⟨hh, ht, hs, hsh, hfn, hve⟩ := hv
    obtain ⟨hfo, hfe⟩ := hfit
    simp only [encode_port, List.length_append] at hs hpq
    rw [encode_port, List.append_assoc] at h
    have h1 := rd_of_drop data p port_hdr _ hp h
    have h2 := drop_advance data p port_hdr _ h
    have hp2 := le_length_advance data p port_hdr _ hp h
    rw [List.append_assoc] at h2
    have hsw := switch_parse_ok L data (p + port_hdr.length) sw_hdr fns (encode_eps eps ++ rest)
      o.ep_switch hsh hfn hp2 h2 hfo (by rw [hU64]; omega)
    have h3 : data.drop (p + port_hdr.length + (sw_hdr.length + fns.length))
        = encode_eps eps ++ rest := by
      rw [← List.length_append]
      exact drop_advance data _ (sw_hdr ++ fns) _ h2
    have hp3 : p + port_hdr.length + (sw_hdr.length + fns.length) ≤ data.length := by
      rw [← List.length_append]
      exact le_length_advance data _ (sw_hdr ++ fns) _ hp2 h2
    have hloop := switch_eps_loop_ok L ⟨‹_›, ‹_›, hd1, hd2, hd3⟩ data eps
      o.ep_switch.switch_eps (p + port_hdr.length + (sw_hdr.length + fns.length))
      (port_hdr.length + (sw_hdr.length + fns.length)) rest hve hfe (by rw [hU32]; exact hdl)
      hp3 h3 (by rw [hU64]; omega)
    have e1 : (L.port_hdr_size + (sw_hdr.length + fns.length)) % U64
        = port_hdr.length + (sw_hdr.length + fns.length) := by
      rw [hU64, ← hh]; omega
    have e2 : ((L.port_size_dw port_hdr % U32 * 4 % U32 + U64 - L.port_hdr_size % U64) % U64
        + U64 - (sw_hdr.length + fns.length) % U64) % U64 = (encode_eps eps).length := by
      rw [hU32] at hs ⊢; rw [hU64, ← hh]; omega
    rw [hh] at h1 hsw
    unfold gfms_ep_port_sub_section_parse
    rw [h1]
    simp only [Option.some_bind, ht, if_true, gfms_ep_port_switch_branch, Option.bind_eq_bind,
      hsw, e1, e2, Option.pure_def]
    rw [← hh, hloop]
    simp only [Option.some_bind, Option.map_some', encode_port, List.length_append, put_port,
      Nat.add_assoc]
  | Endpoint port_hdr ep =>
    obtain ⟨hh, ht, hs, hve⟩ := hv
    simp only [encode_port, List.length_append] at hs hpq
    rw [encode_port, List.append_assoc] at h
    have h1 := rd_of_drop data p port_hdr _ hp h
    have h2 := drop_advance data p port_hdr _ h
    have hp2 := le_length_advance data p port_hdr _ hp h
    have hep := attached_ep_ok L data (p + port_hdr.length) ep rest o.ep_ep hve
      (by rw [hU32]; exact hdl) hp2 h2 hfit
    have e1 : (L.port_hdr_size + (encode_ep ep).length) % U64
        = port_hdr.length + (encode_ep ep).length := by
      rw [hU64, ← hh]; omega
    rw [hh] at h1 hep
    unfold gfms_ep_port_sub_section_parse
    rw [h1]
    simp only [Option.some_bind, ht, if_neg (Ne.symm hd1), if_true, hep, Option.map_some', e1,
      encode_port, List.length_append, put_port]
  | Unpopulated port_hdr =>
    obtain ⟨hh, ht, hs⟩ := hv
    rw [encode_port] at h
    have h1 := rd_of_drop data p port_hdr _ hp h
    rw [hh] at h1
    unfold gfms_ep_port_sub_section_parse
    rw [h1]
    simp only [Option.some_bind, ht, if_neg (Ne.symm hd2), if_neg (Ne.symm hd3), if_true,
      encode_port, put_port, hh]

theorem port_length_pos (L : Layout) (hL : L.WF) (q : PortRec) (hv : valid_port L q) :
    0 < (encode_port q).length := by
  have := hL.1
  cases q with
  | Switch port_hdr sw_hdr fns eps =>
    have := hv.1; simp only [encode_port, List.length_append]; omega
  | Endpoint port_hdr ep =>
    have := hv.1; simp only [encode_port, List.length_append]; omega
  | Unpopulated port_hdr =>
    have := hv.1; simp only [encode_port]; omega

theorem ep_port_all_loop_ok (L : Layout) (hL : L.WF) (data : Bytes) :
    ∀ (qs : List PortRec) (slots : List EpPort) (p parsed i : Nat) (count : Int) (rest : Bytes),
      (∀ q ∈ qs, valid_port L q) → fits_ports slots qs → data.length < U32 →
      p ≤ data.length → data.drop p = encode_ports qs ++ rest →
      parsed + (encode_ports qs).length < U64 →
      gfms_ep_port_all_loop L data slots p parsed (encode_ports qs).length i count
        = some (put_ports slots qs, parsed + (encode_ports qs).length,
            if qs = [] then count else ((i + qs.length : Nat) : Int)) := by
  intro qs
  induction qs with
  | nil =>
    intro slots p parsed i count rest _ _ _ _ _ _
    cases slots <;> simp [gfms_ep_port_all_loop, encode_ports, put_ports]
  | cons q qs ih =>
    intro slots p parsed i count rest hv hfit hdl hp h hlt
    cases slots with
    | nil => exact absurd hfit (by simp [fits_ports])
    | cons o os =>
      obtain ⟨hfo, hfos⟩ := hfit
      have hvq := hv q (List.mem_cons_self _ _)
      rw [encode_ports, List.append_assoc] at h
      have hstep := sub_section_ok L hL data p q _ o hvq hfo hdl hp h
      have hpos := port_length_pos L hL q hvq
      have hU64 : U64 = 18446744073709551616 := rfl
      rw [encode_ports, List.length_append] at hlt ⊢
      rw [gfms_ep_port_all_loop, if_neg (by omega), hstep]
      simp only [Option.some_bind]
      have h1 : (parsed + (encode_port q).length) % U64 = parsed + (encode_port q).length := by
        rw [hU64] at hlt ⊢; omega
      have h2 : ((encode_port q).length + (encode_ports qs).length + U64
          - (encode_port q).length % U64) % U64 = (encode_ports qs).length := by
        rw [hU64] at hlt ⊢; omega
      rw [h1, h2, ih os (p + (encode_port q).length) (parsed + (encode_port q).length) (i + 1)
        ((i : Int) + 1) rest (fun q' hq' => hv q' (List.mem_cons_of_mem _ hq')) hfos hdl
        (le_length_advance data p _ _ hp h) (drop_advance data p _ _ h) (by omega)]
      simp only [Option.map_some', put_ports, Nat.add_assoc, Option.some.injEq, Prod.mk.injEq,
        true_and, List.cons_ne_nil, if_false, List.length_cons]
      split
      · rename_i hnil
        rw [hnil]
        simp
      · push_cast
        ring

theorem ep_port_all_section_ok (L : Layout) (hL : L.WF) (data : Bytes) (p : Nat) (hdr : Bytes)
    (qs : List PortRec) (rest : Bytes) (out : EpPortAll) (hh : hdr.length = L.hdr_size)
    (hs : (L.resp_size_dw hdr % U32) * 4 = (hdr ++ encode_ports qs).length)
    (hv : ∀ q ∈ qs, valid_port L q) (hfit : fits_ports out.ep_ports qs)
    (hdl : data.length < U32) (hp : p ≤ data.length)
    (h : data.drop p = hdr ++ encode_ports qs ++ rest) :
    gfms_ep_port_all_section_parse L data p out
      = some ((hdr ++ encode_ports qs).length,
          { hdr := hdr
            ep_port_count := if qs = [] then out.ep_port_count else qs.length
            ep_ports := put_ports out.ep_ports qs }) := by
  have hU32 : U32 = 4294967296 := rfl
  have hU64 : U64 = 18446744073709551616 := rfl
  have hlt : (hdr ++ encode_ports qs).length < U32 :=
    lt_of_le_of_lt (by have := le_length_advance data p _ _ hp h; omega) hdl
  rw [List.length_append] at hs hlt ⊢
  rw [List.append_assoc] at h
  have h1 := rd_of_drop data p hdr _ hp h
  have h2 := drop_advance data p hdr _ h
  have hp2 := le_length_advance data p hdr _ hp h
  have hloop := ep_port_all_loop_ok L hL data qs out.ep_ports (p + hdr.length) hdr.length 0
    out.ep_port_count rest hv hfit hdl hp2 h2 (by rw [hU32] at hlt; rw [hU64]; omega)
  have e1 : (L.resp_size_dw hdr % U32 * 4 % U32 + U64 - L.hdr_size % U64) % U64
      = (encode_ports qs).length := by
    rw [hs, ← hh]; rw [hU32] at hlt ⊢; rw [hU64]; omega
  rw [hh] at h1 hloop
  unfold gfms_ep_port_all_section_parse
  simp only [Option.bind_eq_bind, Option.pure_def, h1, Option.some_bind, e1, hloop, hh,
    Nat.zero_add]

theorem hvd_body_ok (L : Layout) (data : Bytes) (p parsed : Nat) (b : HvdBodyRec)
    (tail rest : Bytes) (o : HvdBody) (hv : valid_body L b) (hdl : data.length < U32)
    (hp : p ≤ data.length) (h : data.drop p = encode_body b ++ rest)
    (hfit : b.bound.length ≤ o.bound.length)
    (hlt : parsed + (encode_body b).length + tail.length < U64) :
    gfms_hvd_body_parse L data p parsed ((encode_body b).length + tail.length) o
      = some ⟨p + (encode_body b).length, parsed + (encode_body b).length, tail.length,
          ⟨b.hdr, b.bound ++ o.bound.drop b.bound.length⟩⟩ := by
  have hU32 : U32 = 4294967296 := rfl
  have hU64 : U64 = 18446744073709551616 := rfl
  obtain ⟨hh, hb⟩ := hv
  have hpb := le_length_advance data p _ _ hp h
  rw [encode_body, List.length_append] at hlt hpb ⊢
  rw [encode_body, List.append_assoc] at h
  have h1 := rd_of_drop data p b.hdr _ hp h
  have h2 := drop_advance data p b.hdr _ h
  have hp2 := le_length_advance data p b.hdr _ hp h
  have h3 := rd_of_drop data (p + b.hdr.length) b.bound rest hp2 h2
  rw [hh] at h1 h3 hlt hpb ⊢
  have e0 : L.logical_port_count b.hdr % U32 * 4 % U32 = b.bound.length := by
    rw [hU32] at hdl hb ⊢; omega
  rw [← e0] at h3
  have e1 : (parsed + 8) % U64 = parsed + 8 := by rw [hU64] at hlt ⊢; omega
  have e2 : (parsed + 8 + L.logical_port_count b.hdr % U32 * 4 % U32) % U64
      = parsed + (8 + b.bound.length) := by rw [e0]; rw [hU64] at hlt ⊢; omega
  have e3 : ((8 + b.bound.length + tail.length + U64 - 8) % U64 + U64
      - L.logical_port_count b.hdr % U32 * 4 % U32) % U64 = tail.length := by
    rw [e0]; rw [hU64] at hlt ⊢; omega
  unfold gfms_hvd_body_parse
  simp only [Option.bind_eq_bind, Option.pure_def, h1, Option.some_bind, h3,
    wr_zero _ _ hfit, e1, e2, e3]
  rw [e0, Nat.add_assoc]

theorem hvd_all_loop_ok (L : Layout) (data : Bytes) :
    ∀ (bs : List HvdBodyRec) (slots : List HvdBody) (p parsed i : Nat) (count : Int)
      (rest : Bytes),
      (∀ b ∈ bs, valid_body L b) → fits_bodies slots bs → data.length < U32 →
      p ≤ data.length → data.drop p = encode_bodies bs ++ rest →
      parsed + (encode_bodies bs).length < U64 →
      gfms_hvd_all_loop L data slots p parsed (encode_bodies bs).length i count
        = some (put_bodies slots bs, parsed + (encode_bodies bs).length,
            if bs = [] then count else ((i + bs.length : Nat) : Int)) := by
  intro bs
  induction bs with
  | nil =>
    intro slots p parsed i count rest _ _ _ _ _ _
    cases slots <;> simp [gfms_hvd_all_loop, encode_bodies, put_bodies]
  | cons b bs ih =>
    intro slots p parsed i count rest hv hfit hdl hp h hlt
    cases slots with
    | nil => exact absurd hfit (by simp [fits_bodies])
    | cons o os =>
      obtain ⟨hfo, hfos⟩ := hfit
      have hvb := hv b (List.mem_cons_self _ _)
      rw [encode_bodies, List.append_assoc] at h
      rw [encode_bodies, List.length_append] at hlt ⊢
      have hstep := hvd_body_ok L data p parsed b (encode_bodies bs) _ o hvb hdl hp h hfo
        (by omega)
      have hpos : 0 < (encode_body b).length := by
        rw [encode_body, List.length_append, hvb.1]; omega
      rw [gfms_hvd_all_loop, if_neg (by omega), hstep]
      simp only [Option.some_bind]
      rw [ih os (p + (encode_body b).length) (parsed + (encode_body b).length) (i + 1)
        ((i : Int) + 1) rest (fun b' hb' => hv b' (List.mem_cons_of_mem _ hb')) hfos hdl
        (le_length_advance data p _ _ hp h) (drop_advance data p _ _ h) (by omega)]
      simp only [Option.map_some', put_bodies, Nat.add_assoc, Option.some.injEq, Prod.mk.injEq,
        true_and, List.cons_ne_nil, if_false, List.length_cons]
      split
      · rename_i hnil
        rw [hnil]
        simp
      · push_cast
        ring

theorem hvd_all_section_ok (L : Layout) (data : Bytes) (p : Nat) (hdr : Bytes)
    (bs : List HvdBodyRec) (rest : Bytes) (out : HvdAll) (hh : hdr.length = L.hdr_size)
    (hs : (L.resp_size_dw hdr % U32) * 4 = (hdr ++ encode_bodies bs).length)
    (hv : ∀ b ∈ bs, valid_body L b) (hfit : fits_bodies out.bodies bs)
    (hdl : data.length < U32) (hp : p ≤ data.length)
    (h : data.drop p = hdr ++ encode_bodies bs ++ rest) :
    gfms_hvd_all_section_parse L data p out
      = some ((hdr ++ encode_bodies bs).length,
          { hdr := hdr
            hvd_count := if bs = [] then out.hvd_count else bs.length
            bodies := put_bodies out.bodies bs }) := by
  have hU32 : U32 = 4294967296 := rfl
  have hU64 : U64 = 18446744073709551616 := rfl
  have hlt : (hdr ++ encode_bodies bs).length < U32 :=
    lt_of_le_of_lt (by have := le_length_advance data p _ _ hp h; omega) hdl
  rw [List.length_append] at hs hlt ⊢
  rw [List.append_assoc] at h
  have h1 := rd_of_drop data p hdr _ hp h
  have h2 := drop_advance data p hdr _ h
  have hp2 := le_length_advance data p hdr _ hp h
  have hloop := hvd_all_loop_ok L data bs out.bodies (p + hdr.length) hdr.length 0
    out.hvd_count rest hv hfit hdl hp2 h2 (by rw [hU32] at hlt; rw [hU64]; omega)
  have e1 : (L.resp_size_dw hdr % U32 * 4 % U32 + U64 - L.hdr_size % U64) % U64
      = (encode_bodies bs).length := by
    rw [hs, ← hh]; rw [hU32] at hlt ⊢; rw [hU64]; omega
  rw [hh] at h1 hloop
  unfold gfms_hvd_all_section_parse
  simp only [Option.bind_eq_bind, Option.pure_def, h1, Option.some_bind, e1, hloop, hh,
    Nat.zero_add]

/-- Decoding the encoding of a valid record that fits the output arrays consumes the
whole encoding and leaves the record in the output. -/
theorem pax_all_parse_encode (L : Layout) (hL : L.WF) (r : PaxAllRec) (out : PaxAll)
    (hv : Valid L r) (hfit : Fits out r) :
    gfms_pax_all_parse L (encode r) out = some ((encode r).length, put out r) := by
  have hU32 : U32 = 4294967296 := rfl
  have hU64 : U64 = 18446744073709551616 := rfl
  obtain ⟨hg, hhh, hhs, hhv, heh, hes, hev, hlt⟩ := hv
  obtain ⟨hfb, hfp⟩ := hfit
  have hlen : (encode r).length = r.pax_general.length + ((r.hvd_hdr ++ encode_bodies r.bodies).length
      + (r.ep_port_hdr ++ encode_ports r.ports).length) := by
    simp only [encode, List.length_append]
  have h0 : (encode r).drop 0 = r.pax_general ++
      ((r.hvd_hdr ++ encode_bodies r.bodies) ++ (r.ep_port_hdr ++ encode_ports r.ports)) := rfl
  have h1 := rd_of_drop (encode r) 0 r.pax_general _ (Nat.zero_le _) h0
  have h2 := drop_advance (encode r) 0 r.pax_general _ h0
  have hp2 := le_length_advance (encode r) 0 r.pax_general _ (Nat.zero_le _) h0
  rw [Nat.zero_add] at h2 hp2
  have hhvd := hvd_all_section_ok L (encode r) r.pax_general.length r.hvd_hdr r.bodies
    (r.ep_port_hdr ++ encode_ports r.ports) out.hvd_all hhh hhs hhv hfb hlt hp2 h2
  have h3 := drop_advance (encode r) _ (r.hvd_hdr ++ encode_bodies r.bodies) _ h2
  have hp3 := le_length_advance (encode r) _ (r.hvd_hdr ++ encode_bodies r.bodies) _ hp2 h2
  have hep := ep_port_all_section_ok L hL (encode r)
    (r.pax_general.length + (r.hvd_hdr ++ encode_bodies r.bodies).length) r.ep_port_hdr r.ports
    [] out.ep_port_all heh hes hev hfp hlt hp3 (by rw [h3]; simp)
  have e1 : (r.pax_general.length + (r.hvd_hdr ++ encode_bodies r.bodies).length
      + (r.ep_port_hdr ++ encode_ports r.ports).length) % U64 = (encode r).length := by
    rw [hlen]; rw [hU32] at hlt; rw [hU64]; omega
  rw [hg] at h1 hhvd hep e1
  unfold gfms_pax_all_parse gfms_pax_general_section_parse
  simp only [Option.bind_eq_bind, Option.pure_def, h1, Option.some_bind, hhvd, hep, e1, put]

/-! ## The PAX-all dump on a valid record -/

/-- C2 (exact consumption).  For every valid `PaxAll` record within the capacities of the
output arrays, `gfms_pax_all_parse` run on the record's encoding returns the length of the
encoding; hence in every session in which start, the gets and finish succeed, the declared
length `total_len_dw * 4` is that length and the retrieved buffer is the encoding,
`switchtec_fab_gfms_db_dump_pax_all` returns 0 (with the decoded record). -/
theorem exact_consumption (L : Layout) (hL : L.WF) (r : PaxAllRec) (out : PaxAll)
    (hv : Valid L r) (hfit : Fits out r) :
    (gfms_pax_all_parse L (encode r) out).map Prod.fst = some (encode r).length ∧
    ∀ {σ : Type} (dev : Dev σ) (fuel : Nat) (junk : Bytes) (s : Sess σ) (g : GetResult σ),
      (gfms_pax_all_start dev s).1 = 0 →
      (gfms_pax_all_start dev s).2.1 * 4 = (encode r).length →
      gfms_pax_all_get dev fuel (gfms_pax_all_start dev s).2.2 (gfms_pax_all_start dev s).2.1
        (malloc junk ((gfms_pax_all_start dev s).2.1 * 4 % U32)) = some g →
      g.ret = 0 → g.data = encode r → (gfms_pax_all_finish dev g.sess).1 = 0 →
      switchtec_fab_gfms_db_dump_pax_all L dev fuel junk s out
        = some (0, put out r, (gfms_pax_all_finish dev g.sess).2) := by
  have hparse := pax_all_parse_encode L hL r out hv hfit
  refine ⟨by rw [hparse]; rfl, ?_⟩
  intro σ dev fuel junk s g hstart hdecl hget hg0 hgdata hfin
  have hlt : (encode r).length < U32 := hv.2.2.2.2.2.2.2
  unfold switchtec_fab_gfms_db_dump_pax_all
  rw [if_neg (by rw [hstart]; simp), hget]
  simp only [Option.some_bind]
  rw [if_neg (by rw [hg0]; simp), if_neg (by rw [hfin]; simp), hgdata, hparse]
  simp only [Option.map_some', hdecl, Nat.mod_eq_of_lt hlt, ne_eq, not_true_eq_false, if_false]

set_option maxRecDepth 100000 in
/-- Witness of C2: the mixed sample record, retrieved 8 dwords at a time. -/
theorem exact_consumption_witness :
    (gfms_pax_all_parse sample_layout (encode sample_rec) sample_out).map Prod.fst
      = some 124 ∧
    switchtec_fab_gfms_db_dump_pax_all sample_layout (stream_dev (encode sample_rec) 8) 4 []
        (fresh ()) sample_out
      = some (0, put sample_out sample_rec,
          ⟨(), [Cmd.GFMS_DB_DUMP_PAX_ALL_START, Cmd.GFMS_DB_DUMP_PAX_ALL_GET 0,
            Cmd.GFMS_DB_DUMP_PAX_ALL_GET 8, Cmd.GFMS_DB_DUMP_PAX_ALL_GET 16,
            Cmd.GFMS_DB_DUMP_PAX_ALL_GET 24, Cmd.GFMS_DB_DUMP_PAX_ALL_FINISH], 0⟩) :=
  ⟨(exact_consumption sample_layout (by decide) sample_rec sample_out (by decide)
      (by decide)).1,
    (exact_consumption sample_layout (by decide) sample_rec sample_out (by decide)
      (by decide)).2 (stream_dev (encode sample_rec) 8) 4 [] (fresh ())
      ⟨0, 31, encode sample_rec,
        ⟨(), [Cmd.GFMS_DB_DUMP_PAX_ALL_START, Cmd.GFMS_DB_DUMP_PAX_ALL_GET 0,
          Cmd.GFMS_DB_DUMP_PAX_ALL_GET 8, Cmd.GFMS_DB_DUMP_PAX_ALL_GET 16,
          Cmd.GFMS_DB_DUMP_PAX_ALL_GET 24], 0⟩⟩
      rfl (by decide) (by decide) rfl rfl rfl⟩

/-- A valid record without HVD bodies or without port sub-records, decoded into any output
record it fits, leaves the corresponding count at the value the output record held. -/
theorem empty_sections_keep_counts (L : Layout) (hL : L.WF) (r : PaxAllRec) (out : PaxAll)
    (hv : Valid L r) (hfit : Fits out r) :
    (r.bodies = [] →
      (gfms_pax_all_parse L (encode r) out).map (fun x => x.2.hvd_all.hvd_count)
        = some out.hvd_all.hvd_count) ∧
    (r.ports = [] →
      (gfms_pax_all_parse L (encode r) out).map (fun x => x.2.ep_port_all.ep_port_count)
        = some out.ep_port_all.ep_port_count) := by
  rw [pax_all_parse_encode L hL r out hv hfit]
  constructor <;> intro h <;> simp [put, h]

/-- A valid record with at least one HVD body and one port sub-record, decoded into any
output record it fits, is reproduced with its counts: `hvd_count` and `ep_port_count` are
the numbers of elements, headers and populated elements are those of the record. -/
theorem round_trip_populated (L : Layout) (hL : L.WF) (r : PaxAllRec) (out : PaxAll)
    (hv : Valid L r) (hfit : Fits out r) (hb : r.bodies ≠ []) (hq : r.ports ≠ []) :
    gfms_pax_all_parse L (encode r) out
      = some ((encode r).length,
          { pax_general := r.pax_general
            hvd_all :=
              { hdr := r.hvd_hdr
                hvd_count := r.bodies.length
                bodies := put_bodies out.hvd_all.bodies r.bodies }
            ep_port_all :=
              { hdr := r.ep_port_hdr
                ep_port_count := r.ports.length
                ep_ports := put_ports out.ep_port_all.ep_ports r.ports } }) := by
  rw [pax_all_parse_encode L hL r out hv hfit]
  simp [put, hb, hq]

set_option maxRecDepth 100000 in
/-- C3, evaluated: the record with no HVD body and no port sub-record, decoded into an
output record that holds `hvd_count = 7` and `ep_port_count = 9`, is consumed entirely (40
bytes) and leaves both counts as they were, 7 and 9, not 0: the counts are assigned only
inside the loops. -/
theorem round_trip_loses_empty_counts :
    (gfms_pax_all_parse sample_layout (encode sample_empty_rec) sample_out).map
        (fun x => (x.1, x.2.hvd_all.hvd_count, x.2.ep_port_all.ep_port_count))
      = some (40, 7, 9) ∧
    Valid sample_layout sample_empty_rec ∧ Fits sample_out sample_empty_rec ∧
    sample_empty_rec.bodies.length = 0 ∧ sample_empty_rec.ports.length = 0 := by
  refine ⟨by decide, by decide, by decide, rfl, rfl⟩

/-- C4 (length accounting).  In every session in which start, the gets and finish succeed
and the decoder returns, `switchtec_fab_gfms_db_dump_pax_all` and
`switchtec_fab_gfms_db_dump_ep_port` return 0 when the number of bytes consumed equals the
declared length and -1 otherwise.  The declared length is the `uint32_t` product
`total_len_dw * 4` the source compares with. -/
theorem length_accounting {σ : Type} (L : Layout) (dev : Dev σ) (fuel : Nat) (junk : Bytes)
    (s : Sess σ) :
    (∀ (pax_all : PaxAll) (g : GetResult σ) (r : Nat × PaxAll),
      (gfms_pax_all_start dev s).1 = 0 →
      gfms_pax_all_get dev fuel (gfms_pax_all_start dev s).2.2 (gfms_pax_all_start dev s).2.1
        (malloc junk ((gfms_pax_all_start dev s).2.1 * 4 % U32)) = some g →
      g.ret = 0 → (gfms_pax_all_finish dev g.sess).1 = 0 →
      gfms_pax_all_parse L g.data pax_all = some r →
      switchtec_fab_gfms_db_dump_pax_all L dev fuel junk s pax_all
        = some (if r.1 = (gfms_pax_all_start dev s).2.1 * 4 % U32 then 0 else -1, r.2,
            (gfms_pax_all_finish dev g.sess).2)) ∧
    (∀ (phy_pid : Nat) (ep_port_section : EpPortSection) (g : GetResult σ)
      (r : Nat × EpPortSection),
      (gfms_ep_port_start dev s phy_pid).1 = 0 →
      gfms_ep_port_get dev fuel (gfms_ep_port_start dev s phy_pid).2.2 phy_pid
        (gfms_ep_port_start dev s phy_pid).2.1
        (malloc junk ((gfms_ep_port_start dev s phy_pid).2.1 * 4 % U32)) = some g →
      g.ret = 0 → (gfms_ep_port_finish dev g.sess).1 = 0 →
      gfms_ep_port_section_parse L g.data 0 ep_port_section = some r →
      switchtec_fab_gfms_db_dump_ep_port L dev fuel junk s phy_pid ep_port_section
        = some (if r.1 = (gfms_ep_port_start dev s phy_pid).2.1 * 4 % U32 then 0 else -1, r.2,
            (gfms_ep_port_finish dev g.sess).2)) := by
  constructor
  · intro pax_all g r hstart hget hg0 hfin hparse
    unfold switchtec_fab_gfms_db_dump_pax_all
    rw [if_neg (by rw [hstart]; simp), hget]
    simp only [Option.some_bind]
    rw [if_neg (by rw [hg0]; simp), if_neg (by rw [hfin]; simp), hparse]
    simp only [Option.map_some', ne_eq, ite_not]
  · intro phy_pid ep_port_section g r hstart hget hg0 hfin hparse
    unfold switchtec_fab_gfms_db_dump_ep_port
    rw [if_neg (by rw [hstart]; simp), hget]
    simp only [Option.some_bind]
    rw [if_neg (by rw [hg0]; simp), if_neg (by rw [hfin]; simp), hparse]
    simp only [Option.map_some', ne_eq, ite_not]

set_option maxRecDepth 100000 in
/-- Witness of C4: the mixed sample record is 31 dwords; the PAX-all decoder consumes all
124 bytes (return code 0), the endpoint-port decoder consumes 20 of them (return code
-1). -/
theorem length_accounting_witness :
    switchtec_fab_gfms_db_dump_pax_all sample_layout (stream_dev (encode sample_rec) 8) 4 []
        (fresh ()) sample_out
      = some (0, put sample_out sample_rec,
          ⟨(), [Cmd.GFMS_DB_DUMP_PAX_ALL_START, Cmd.GFMS_DB_DUMP_PAX_ALL_GET 0,
            Cmd.GFMS_DB_DUMP_PAX_ALL_GET 8, Cmd.GFMS_DB_DUMP_PAX_ALL_GET 16,
            Cmd.GFMS_DB_DUMP_PAX_ALL_GET 24, Cmd.GFMS_DB_DUMP_PAX_ALL_FINISH], 0⟩) ∧
    switchtec_fab_gfms_db_dump_ep_port sample_layout (stream_dev (encode sample_rec) 8) 4 []
        (fresh ()) 3 sample_section
      = some (-1,
          ⟨(encode sample_rec).take 12,
            { sample_port with port_hdr := ((encode sample_rec).drop 12).take 8 }⟩,
          ⟨(), [Cmd.GFMS_DB_DUMP_EP_PORT_START 3, Cmd.GFMS_DB_DUMP_EP_PORT_GET 3 0,
            Cmd.GFMS_DB_DUMP_EP_PORT_GET 3 8, Cmd.GFMS_DB_DUMP_EP_PORT_GET 3 16,
            Cmd.GFMS_DB_DUMP_EP_PORT_GET 3 24, Cmd.GFMS_DB_DUMP_EP_PORT_FINISH], 0⟩) :=
  ⟨(length_accounting sample_layout (stream_dev (encode sample_rec) 8) 4 [] (fresh ())).1
      sample_out
      ⟨0, 31, encode sample_rec,
        ⟨(), [Cmd.GFMS_DB_DUMP_PAX_ALL_START, Cmd.GFMS_DB_DUMP_PAX_ALL_GET 0,
          Cmd.GFMS_DB_DUMP_PAX_ALL_GET 8, Cmd.GFMS_DB_DUMP_PAX_ALL_GET 16,
          Cmd.GFMS_DB_DUMP_PAX_ALL_GET 24], 0⟩⟩
      (124, put sample_out sample_rec) rfl (by decide) rfl rfl (by decide),
    (length_accounting sample_layout (stream_dev (encode sample_rec) 8) 4 [] (fresh ())).2 3
      sample_section
      ⟨0, 31, encode sample_rec,
        ⟨(), [Cmd.GFMS_DB_DUMP_EP_PORT_START 3, Cmd.GFMS_DB_DUMP_EP_PORT_GET 3 0,
          Cmd.GFMS_DB_DUMP_EP_PORT_GET 3 8, Cmd.GFMS_DB_DUMP_EP_PORT_GET 3 16,
          Cmd.GFMS_DB_DUMP_EP_PORT_GET 3 24], 0⟩⟩
      (20, ⟨(encode sample_rec).take 12,
        { sample_port with port_hdr := ((encode sample_rec).drop 12).take 8 }⟩)
      rfl (by decide) rfl rfl (by decide)⟩

/-! ## The paging loops: accumulated length, transfer cap -/

theorem rd_length (src : Bytes) (off n : Nat) (x : Bytes) (h : rd src off n = some x) :
    x.length = n := by
  unfold rd at h
  split at h
  · simp only [Option.some.injEq] at h
    subst h
    simp only [List.length_take, List.length_drop]
    omega
  · exact absurd h (by simp)

theorem wr_bounds (dst : Bytes) (off : Nat) (bytes out : Bytes)
    (h : wr dst off bytes = some out) :
    off + bytes.length ≤ dst.length ∧ out.length = dst.length := by
  unfold wr at h
  split at h
  · simp only [Option.some.injEq] at h
    subst h
    refine ⟨by assumption, ?_⟩
    simp only [List.length_append, List.length_take, List.length_drop]
    omega
  · exact absurd h (by simp)

theorem pax_all_body_echo {σ : Type} (dev : Dev σ) (Inv : σ → Prop) (pid total : Nat)
    (hdev : EchoesOffset dev Inv pid) (s : Sess σ) (off : Nat)
    (data : Bytes) (b : GetResult σ × Bool) (hinv : Inv s.st)
    (hb : gfms_pax_all_get_body dev total s off data = some b) (hret : b.1.ret = 0) :
    Inv b.1.sess.st ∧ (dev.exchange s.st (Cmd.GFMS_DB_DUMP_PAX_ALL_GET off)).1.ret = 0 ∧
      b.1.offset_dw < U32 ∧
      b.1.offset_dw
        = (off + ((dev.exchange s.st (Cmd.GFMS_DB_DUMP_PAX_ALL_GET off)).1.size_dw - 3)) % U32 ∧
      (b.2 = true → b.1.offset_dw < total) ∧ (b.2 = false → total ≤ b.1.offset_dw) := by
  have hU : U32 = 4294967296 := rfl
  obtain ⟨hinv1, hecho⟩ := hdev s.st off hinv _ (Or.inl rfl)
  unfold gfms_pax_all_get_body at hb
  dsimp only at hb
  split at hb
  · rename_i hne
    simp only [Option.some.injEq] at hb
    subst hb
    exact absurd hret hne
  · rename_i h0
    simp only [ne_eq, not_not] at h0
    obtain ⟨he, h3, h4⟩ := hecho h0
    simp only [Option.bind_eq_bind, Option.pure_def, Option.bind_eq_some] at hb
    obtain ⟨chunk, _, data1, _, hb⟩ := hb
    simp only [Option.some.injEq] at hb
    subst hb
    have e : (switchtec_cmd dev s (Cmd.GFMS_DB_DUMP_PAX_ALL_GET off)).1
        = (dev.exchange s.st (Cmd.GFMS_DB_DUMP_PAX_ALL_GET off)).1 := rfl
    rw [hU] at h4
    have hoffset : (off + ((switchtec_cmd dev s (Cmd.GFMS_DB_DUMP_PAX_ALL_GET off)).1.size_dw
          % U32 + U32 - 3) % U32) % U32
        = (off + ((dev.exchange s.st (Cmd.GFMS_DB_DUMP_PAX_ALL_GET off)).1.size_dw - 3))
          % U32 := by
      rw [e, hU]
      omega
    refine ⟨hinv1, h0, ?_, hoffset, ?_, ?_⟩
    · show (off + ((switchtec_cmd dev s (Cmd.GFMS_DB_DUMP_PAX_ALL_GET off)).1.size_dw % U32
        + U32 - 3) % U32) % U32 < U32
      exact Nat.mod_lt _ (by rw [hU]; norm_num)
    · intro hf
      have hf' := of_decide_eq_true hf
      rw [e, he, hU] at hf'
      show (off + ((switchtec_cmd dev s (Cmd.GFMS_DB_DUMP_PAX_ALL_GET off)).1.size_dw % U32
        + U32 - 3) % U32) % U32 < total
      rw [e, hU]
      omega
    · intro hf
      have hf' := of_decide_eq_false hf
      rw [e, he, hU] at hf'
      show total ≤ (off + ((switchtec_cmd dev s (Cmd.GFMS_DB_DUMP_PAX_ALL_GET off)).1.size_dw
        % U32 + U32 - 3) % U32) % U32
      rw [e, hU]
      omega

theorem pax_all_loop_echo {σ : Type} (dev : Dev σ) (Inv : σ → Prop) (pid total : Nat)
    (htot : total < U32) (hdev : EchoesOffset dev Inv pid) :
    ∀ (fuel : Nat) (s : Sess σ) (off : Nat) (data : Bytes) (g : GetResult σ), Inv s.st →
      gfms_pax_all_get_loop dev total fuel s off data = some g → g.ret = 0 →
      total ≤ g.offset_dw ∧
        (off ≤ total → StaysWithin dev Inv pid total → g.offset_dw = total) := by
  have hU : U32 = 4294967296 := rfl
  intro fuel
  induction fuel with
  | zero =>
    intro s off data g _ h _
    exact absurd h (by simp [gfms_pax_all_get_loop])
  | succ fuel ih =>
    intro s off data g hinv h hret
    rw [gfms_pax_all_get_loop] at h
    simp only [Option.bind_eq_some] at h
    obtain ⟨b, hb, h⟩ := h
    by_cases hflag : b.2 = true
    · rw [if_pos hflag] at h
      have hb0 : b.1.ret = 0 := by
        unfold gfms_pax_all_get_body at hb
        dsimp only at hb
        split at hb
        · simp only [Option.some.injEq] at hb
          subst hb
          exact absurd hflag (by simp)
        · simp only [Option.bind_eq_bind, Option.pure_def, Option.bind_eq_some] at hb
          obtain ⟨_, _, _, _, hb⟩ := hb
          simp only [Option.some.injEq] at hb
          subst hb
          rfl
      obtain ⟨hi, _, hlt, _, ht, _⟩ :=
        pax_all_body_echo dev Inv pid total hdev s off data b hinv hb hb0
      obtain ⟨h1, h2⟩ := ih _ _ _ g hi h hret
      exact ⟨h1, fun _ hstay => h2 (le_of_lt (ht hflag)) hstay⟩
    · rw [if_neg hflag] at h
      simp only [Option.some.injEq] at h
      subst h
      obtain ⟨_, hr0, _, hk, _, hf⟩ :=
        pax_all_body_echo dev Inv pid total hdev s off data b hinv hb hret
      have hge := hf (by simpa using hflag)
      refine ⟨hge, fun hle hstay => ?_⟩
      have := hstay s.st off hinv hle _ (Or.inl rfl) hr0
      rw [hU] at htot hk
      omega

theorem ep_port_body_echo {σ : Type} (dev : Dev σ) (Inv : σ → Prop) (pid total : Nat)
    (hdev : EchoesOffset dev Inv pid) (s : Sess σ) (off : Nat)
    (data : Bytes) (b : GetResult σ × Bool) (hinv : Inv s.st)
    (hb : gfms_ep_port_get_body dev pid total s off data = some b) (hret : b.1.ret = 0) :
    Inv b.1.sess.st ∧ (dev.exchange s.st (Cmd.GFMS_DB_DUMP_EP_PORT_GET pid off)).1.ret = 0 ∧
      b.1.offset_dw < U32 ∧
      (∃ k, k ≤ (dev.exchange s.st (Cmd.GFMS_DB_DUMP_EP_PORT_GET pid off)).1.size_dw - 3 ∧
        b.1.offset_dw = (off + k) % U32) ∧
      (b.2 = true → b.1.offset_dw < total) ∧ (b.2 = false → total ≤ b.1.offset_dw) := by
  have hU : U32 = 4294967296 := rfl
  obtain ⟨hinv1, hecho⟩ := hdev s.st off hinv _ (Or.inr rfl)
  unfold gfms_ep_port_get_body at hb
  dsimp only at hb
  split at hb
  · rename_i hne
    simp only [Option.some.injEq] at hb
    subst hb
    exact absurd hret hne
  · rename_i h0
    simp only [ne_eq, not_not] at h0
    obtain ⟨he, h3, h4⟩ := hecho h0
    simp only [Option.bind_eq_bind, Option.pure_def, Option.bind_eq_some] at hb
    obtain ⟨chunk, _, data1, _, hb⟩ := hb
    simp only [Option.some.injEq] at hb
    subst hb
    have e : (switchtec_cmd dev s (Cmd.GFMS_DB_DUMP_EP_PORT_GET pid off)).1
        = (dev.exchange s.st (Cmd.GFMS_DB_DUMP_EP_PORT_GET pid off)).1 := rfl
    rw [hU] at h4
    obtain ⟨c, hc3, hcle, hc⟩ : ∃ c, 3 ≤ c ∧
        c ≤ (dev.exchange s.st (Cmd.GFMS_DB_DUMP_EP_PORT_GET pid off)).1.size_dw ∧
        (if (dev.exchange s.st (Cmd.GFMS_DB_DUMP_EP_PORT_GET pid off)).1.size_dw % U32 > 0xf0
          then 0xf0
          else (dev.exchange s.st (Cmd.GFMS_DB_DUMP_EP_PORT_GET pid off)).1.size_dw % U32)
          = c := by
      rw [hU]
      split
      · exact ⟨0xf0, by omega, by omega, rfl⟩
      · exact ⟨_, by omega, by omega, rfl⟩
    have hoffset : (off + ((if (switchtec_cmd dev s (Cmd.GFMS_DB_DUMP_EP_PORT_GET pid off)).1.size_dw
          % U32 > 0xf0 then 0xf0
        else (switchtec_cmd dev s (Cmd.GFMS_DB_DUMP_EP_PORT_GET pid off)).1.size_dw % U32)
        + U32 - 3) % U32) % U32 = (off + (c - 3)) % U32 := by
      rw [e, hc, hU]
      omega
    refine ⟨hinv1, h0, ?_, ⟨c - 3, by omega, hoffset⟩, ?_, ?_⟩
    · show (off + ((if (switchtec_cmd dev s (Cmd.GFMS_DB_DUMP_EP_PORT_GET pid off)).1.size_dw
          % U32 > 0xf0 then 0xf0
        else (switchtec_cmd dev s (Cmd.GFMS_DB_DUMP_EP_PORT_GET pid off)).1.size_dw % U32)
        + U32 - 3) % U32) % U32 < U32
      exact Nat.mod_lt _ (by rw [hU]; norm_num)
    · intro hf
      have hf' := of_decide_eq_true hf
      rw [e, hc, he, hU] at hf'
      show (off + ((if (switchtec_cmd dev s (Cmd.GFMS_DB_DUMP_EP_PORT_GET pid off)).1.size_dw
          % U32 > 0xf0 then 0xf0
        else (switchtec_cmd dev s (Cmd.GFMS_DB_DUMP_EP_PORT_GET pid off)).1.size_dw % U32)
        + U32 - 3) % U32) % U32 < total
      rw [e, hc, hU]
      omega
    · intro hf
      have hf' := of_decide_eq_false hf
      rw [e, hc, he, hU] at hf'
      show total ≤ (off + ((if (switchtec_cmd dev s
          (Cmd.GFMS_DB_DUMP_EP_PORT_GET pid off)).1.size_dw % U32 > 0xf0 then 0xf0
        else (switchtec_cmd dev s (Cmd.GFMS_DB_DUMP_EP_PORT_GET pid off)).1.size_dw % U32)
        + U32 - 3) % U32) % U32
      rw [e, hc, hU]
      omega

theorem ep_port_loop_echo {σ : Type} (dev : Dev σ) (Inv : σ → Prop) (pid total : Nat)
    (htot : total < U32) (hdev : EchoesOffset dev Inv pid) :
    ∀ (fuel : Nat) (s : Sess σ) (off : Nat) (data : Bytes) (g : GetResult σ), Inv s.st →
      gfms_ep_port_get_loop dev pid total fuel s off data = some g → g.ret = 0 →
      total ≤ g.offset_dw ∧
        (off ≤ total → StaysWithin dev Inv pid total → g.offset_dw = total) := by
  have hU : U32 = 4294967296 := rfl
  intro fuel
  induction fuel with
  | zero =>
    intro s off data g _ h _
    exact absurd h (by simp [gfms_ep_port_get_loop])
  | succ fuel ih =>
    intro s off data g hinv h hret
    rw [gfms_ep_port_get_loop] at h
    simp only [Option.bind_eq_some] at h
    obtain ⟨b, hb, h⟩ := h
    by_cases hflag : b.2 = true
    · rw [if_pos hflag] at h
      have hb0 : b.1.ret = 0 := by
        unfold gfms_ep_port_get_body at hb
        dsimp only at hb
        split at hb
        · simp only [Option.some.injEq] at hb
          subst hb
          exact absurd hflag (by simp)
        · simp only [Option.bind_eq_bind, Option.pure_def, Option.bind_eq_some] at hb
          obtain ⟨_, _, _, _, hb⟩ := hb
          simp only [Option.some.injEq] at hb
          subst hb
          rfl
      obtain ⟨hi, _, hlt, _, ht, _⟩ :=
        ep_port_body_echo dev Inv pid total hdev s off data b hinv hb hb0
      obtain ⟨h1, h2⟩ := ih _ _ _ g hi h hret
      exact ⟨h1, fun _ hstay => h2 (le_of_lt (ht hflag)) hstay⟩
    · rw [if_neg hflag] at h
      simp only [Option.some.injEq] at h
      subst h
      obtain ⟨_, hr0, _, ⟨k, hkle, hk⟩, _, hf⟩ :=
        ep_port_body_echo dev Inv pid total hdev s off data b hinv hb hret
      have hge := hf (by simpa using hflag)
      refine ⟨hge, fun hle hstay => ?_⟩
      have := hstay s.st off hinv hle _ (Or.inr rfl) hr0
      rw [hU] at htot hk
      omega

theorem stream_dev_echoes (stream : Bytes) (chunk_dw pid : Nat) (hc : chunk_dw + 3 < U32) :
    EchoesOffset (stream_dev stream chunk_dw) (fun _ => True) pid := by
  intro st off _ c hc'
  have h : (stream_dev stream chunk_dw).exchange st c =
      (⟨0, 3, 0, 0, off, min chunk_dw (stream.length / 4 - off) + 3,
        (stream.drop (off * 4)).take (min chunk_dw (stream.length / 4 - off) * 4)⟩, ()) := by
    rcases hc' with rfl | rfl <;> rfl
  rw [h]
  refine ⟨trivial, fun _ => ⟨rfl, by simp, ?_⟩⟩
  have := min_le_left chunk_dw (stream.length / 4 - off)
  have hU : U32 = 4294967296 := rfl
  rw [hU] at hc ⊢
  show min chunk_dw (stream.length / 4 - off) + 3 < 4294967296
  omega

theorem stream_dev_stays (stream : Bytes) (chunk_dw pid : Nat) :
    StaysWithin (stream_dev stream chunk_dw) (fun _ => True) pid (stream.length / 4) := by
  intro st off _ hoff c hc' _
  have h : ((stream_dev stream chunk_dw).exchange st c).1.size_dw
      = min chunk_dw (stream.length / 4 - off) + 3 := by
    rcases hc' with rfl | rfl <;> rfl
  rw [h]
  have := min_le_right chunk_dw (stream.length / 4 - off)
  omega

/-- C11, refuted as stated, by two runs with a declared length of 10 dwords.  First, the
device answers the get at offset 0 with `offset_dw = 100`, `size_dw = 4`:
`gfms_pax_all_get` copies one dword, finds `10 > 100 + 1` false and returns 0 with a
running offset of 1.  Second, the device echoes the offset and answers with
`size_dw = 23`, 20 payload dwords: into a buffer of 80 bytes the function copies them all
and returns 0 with a running offset of 20; into a buffer of the declared 40 bytes the copy
leaves the buffer, which has no defined behaviour. -/
theorem accumulated_length_not_checked :
    (gfms_pax_all_get (script_dev true true [] (ok_rsp 0 0 0 100 4 [1, 2, 3, 4])) 5 (fresh 0)
        10 (List.replicate 40 0)
      = some ⟨0, 1, [1, 2, 3, 4] ++ List.replicate 36 0,
          ⟨1, [Cmd.GFMS_DB_DUMP_PAX_ALL_GET 0], 0⟩⟩ ∧
      (1 : Nat) ≠ 10) ∧
    (gfms_pax_all_get (script_dev true true [] (ok_rsp 0 0 0 0 23 (List.replicate 80 1))) 5
        (fresh 0) 10 (List.replicate 80 0)
      = some ⟨0, 20, List.replicate 80 1, ⟨1, [Cmd.GFMS_DB_DUMP_PAX_ALL_GET 0], 0⟩⟩ ∧
      (20 : Nat) ≠ 10 ∧
      gfms_pax_all_get (script_dev true true [] (ok_rsp 0 0 0 0 23 (List.replicate 80 1))) 5
        (fresh 0) 10 (List.replicate 40 0) = none) := by
  refine ⟨⟨by decide, by decide⟩, by decide, by decide, by decide⟩

/-- C11, amended.  For a device whose successful get responses echo the requested offset
with `3 ≤ size_dw` (both `uint32_t`, as is `total_len_dw`) and a destination buffer of
any size: whenever `gfms_pax_all_get` or `gfms_ep_port_get` returns 0, the final running
offset `cmd.offset_dw` is at least `total_len_dw`, and it equals `total_len_dw` when no
response reaches past the declared length (`StaysWithin`). -/
theorem accumulated_length_of_echo {σ : Type} (dev : Dev σ) (Inv : σ → Prop)
    (fab_ep_pid total_len_dw fuel : Nat) (s : Sess σ) (data : Bytes)
    (htot : total_len_dw < U32) (hinv : Inv s.st)
    (hdev : EchoesOffset dev Inv fab_ep_pid) :
    (∀ g, gfms_pax_all_get dev fuel s total_len_dw data = some g → g.ret = 0 →
      total_len_dw ≤ g.offset_dw ∧
      (StaysWithin dev Inv fab_ep_pid total_len_dw → g.offset_dw = total_len_dw)) ∧
    (∀ g, gfms_ep_port_get dev fuel s fab_ep_pid total_len_dw data = some g → g.ret = 0 →
      total_len_dw ≤ g.offset_dw ∧
      (StaysWithin dev Inv fab_ep_pid total_len_dw → g.offset_dw = total_len_dw)) := by
  refine ⟨fun g h hr => ?_, fun g h hr => ?_⟩
  · obtain ⟨h1, h2⟩ := pax_all_loop_echo dev Inv fab_ep_pid total_len_dw htot hdev fuel s 0
      data g hinv h hr
    exact ⟨h1, h2 (Nat.zero_le _)⟩
  · obtain ⟨h1, h2⟩ := ep_port_loop_echo dev Inv fab_ep_pid total_len_dw htot hdev fuel s 0
      data g hinv h hr
    exact ⟨h1, h2 (Nat.zero_le _)⟩

/-- Witness of C11 (amended): a 3-dword stream served 2 dwords at a time into a 16-byte
buffer; both functions return 0 with a running offset of 3. -/
theorem accumulated_length_of_echo_witness :
    (gfms_pax_all_get (stream_dev [1, 2, 3, 4, 5, 6, 7, 8, 9, 10, 11, 12] 2) 3 (fresh ()) 3
        (List.replicate 16 0)
      = some ⟨0, 3, [1, 2, 3, 4, 5, 6, 7, 8, 9, 10, 11, 12, 0, 0, 0, 0],
          ⟨(), [Cmd.GFMS_DB_DUMP_PAX_ALL_GET 0, Cmd.GFMS_DB_DUMP_PAX_ALL_GET 2], 0⟩⟩ ∧
      (⟨0, 3, [1, 2, 3, 4, 5, 6, 7, 8, 9, 10, 11, 12, 0, 0, 0, 0],
          ⟨(), [Cmd.GFMS_DB_DUMP_PAX_ALL_GET 0, Cmd.GFMS_DB_DUMP_PAX_ALL_GET 2], 0⟩⟩ :
        GetResult Unit).offset_dw = 3) ∧
    (gfms_ep_port_get (stream_dev [1, 2, 3, 4, 5, 6, 7, 8, 9, 10, 11, 12] 2) 3 (fresh ()) 7 3
        (List.replicate 16 0)
      = some ⟨0, 3, [1, 2, 3, 4, 5, 6, 7, 8, 9, 10, 11, 12, 0, 0, 0, 0],
          ⟨(), [Cmd.GFMS_DB_DUMP_EP_PORT_GET 7 0, Cmd.GFMS_DB_DUMP_EP_PORT_GET 7 2], 0⟩⟩ ∧
      (⟨0, 3, [1, 2, 3, 4, 5, 6, 7, 8, 9, 10, 11, 12, 0, 0, 0, 0],
          ⟨(), [Cmd.GFMS_DB_DUMP_EP_PORT_GET 7 0, Cmd.GFMS_DB_DUMP_EP_PORT_GET 7 2], 0⟩⟩ :
        GetResult Unit).offset_dw = 3) :=
  ⟨⟨by decide,
      ((accumulated_length_of_echo (stream_dev [1, 2, 3, 4, 5, 6, 7, 8, 9, 10, 11, 12] 2)
        (fun _ => True) 7 3 3 (fresh ()) (List.replicate 16 0) (by decide) trivial
        (stream_dev_echoes [1, 2, 3, 4, 5, 6, 7, 8, 9, 10, 11, 12] 2 7 (by decide))).1 _
        (by decide) rfl).2
        (stream_dev_stays [1, 2, 3, 4, 5, 6, 7, 8, 9, 10, 11, 12] 2 7)⟩,
    ⟨by decide,
      ((accumulated_length_of_echo (stream_dev [1, 2, 3, 4, 5, 6, 7, 8, 9, 10, 11, 12] 2)
        (fun _ => True) 7 3 3 (fresh ()) (List.replicate 16 0) (by decide) trivial
        (stream_dev_echoes [1, 2, 3, 4, 5, 6, 7, 8, 9, 10, 11, 12] 2 7 (by decide))).2 _
        (by decide) rfl).2
        (stream_dev_stays [1, 2, 3, 4, 5, 6, 7, 8, 9, 10, 11, 12] 2 7)⟩⟩

/-! ### The transfer cap -/

theorem ep_port_get_body_capped {σ : Type} (dev : Dev σ) (pid total : Nat) (s : Sess σ)
    (off : Nat) (data : Bytes) (b : GetResult σ × Bool)
    (hb : gfms_ep_port_get_body dev pid total s off data = some b) (hret : b.1.ret = 0)
    (h3 : 3 ≤ (switchtec_cmd dev s (Cmd.GFMS_DB_DUMP_EP_PORT_GET pid off)).1.size_dw % U32) :
    ∃ n chunk, n ≤ 0xf0 - 3 ∧ chunk.length = n * 4 ∧
      wr data (off * 4 % U32) chunk = some b.1.data ∧ b.1.offset_dw = (off + n) % U32 := by
  have hU : U32 = 4294967296 := rfl
  unfold gfms_ep_port_get_body at hb
  dsimp only at hb
  split at hb
  · rename_i hne
    simp only [Option.some.injEq] at hb
    subst hb
    exact absurd hret hne
  · simp only [Option.bind_eq_bind, Option.pure_def, Option.bind_eq_some] at hb
    obtain ⟨chunk, hchunk, data1, hwr, hb⟩ := hb
    simp only [Option.some.injEq] at hb
    subst hb
    have hcl := rd_length _ _ _ _ hchunk
    obtain ⟨k, hk3, hk240, hk⟩ : ∃ k, 3 ≤ k ∧ k ≤ 240 ∧
        (if (switchtec_cmd dev s (Cmd.GFMS_DB_DUMP_EP_PORT_GET pid off)).1.size_dw % U32 > 0xf0
          then 0xf0
          else (switchtec_cmd dev s (Cmd.GFMS_DB_DUMP_EP_PORT_GET pid off)).1.size_dw % U32)
          = k := by
      split
      · exact ⟨240, by omega, le_refl _, rfl⟩
      · exact ⟨_, h3, by omega, rfl⟩
    rw [hk] at hcl
    refine ⟨k - 3, chunk, by omega, ?_, hwr, ?_⟩
    · rw [hcl, hU]; omega
    · show (off + ((if (switchtec_cmd dev s (Cmd.GFMS_DB_DUMP_EP_PORT_GET pid off)).1.size_dw
          % U32 > 0xf0 then 0xf0
        else (switchtec_cmd dev s (Cmd.GFMS_DB_DUMP_EP_PORT_GET pid off)).1.size_dw % U32)
        + U32 - 3) % U32) % U32 = (off + (k - 3)) % U32
      rw [hk, hU]; omega

set_option maxRecDepth 20000 in
/-- C12, evaluated: a successful response with `size_dw = 0xf4` carrying 241 dwords makes
`gfms_pax_all_get` copy 241 dwords and advance its offset by 241, above the cap of
`0xf0 - 3 = 237`; on the same response `gfms_ep_port_get` caps the size and copies and
advances by 237. -/
theorem pax_all_get_exceeds_cap :
    gfms_pax_all_get_body (script_dev true true [] (ok_rsp 0 0 0 0 0xf4 (List.replicate 964 7)))
        300 (fresh 0) 0 (List.replicate 1200 0)
      = some (⟨0, 241, List.replicate 964 7 ++ List.replicate 236 0,
          ⟨1, [Cmd.GFMS_DB_DUMP_PAX_ALL_GET 0], 0⟩⟩, true) ∧
    gfms_ep_port_get_body (script_dev true true [] (ok_rsp 0 0 0 0 0xf4 (List.replicate 964 7)))
        5 300 (fresh 0) 0 (List.replicate 1200 0)
      = some (⟨0, 237, List.replicate 948 7 ++ List.replicate 252 0,
          ⟨1, [Cmd.GFMS_DB_DUMP_EP_PORT_GET 5 0], 0⟩⟩, true) ∧
    241 > 0xf0 - 3 := by
  refine ⟨rfl, rfl, by decide⟩

/-! ## The dump sessions: command order and forwarding of transport failures -/

theorem pax_all_get_body_last {σ : Type} (dev : Dev σ) (total : Nat) (s : Sess σ) (off : Nat)
    (data : Bytes) (b : GetResult σ × Bool)
    (hb : gfms_pax_all_get_body dev total s off data = some b) :
    b.1.sess = (switchtec_cmd dev s (Cmd.GFMS_DB_DUMP_PAX_ALL_GET off)).2 ∧
    b.1.ret = (switchtec_cmd dev s (Cmd.GFMS_DB_DUMP_PAX_ALL_GET off)).1.ret ∧
    (b.1.ret ≠ 0 → b.2 = false ∧ b.1.data = data) := by
  unfold gfms_pax_all_get_body at hb
  dsimp only at hb
  split at hb
  · simp only [Option.some.injEq] at hb
    subst hb
    exact ⟨rfl, rfl, fun _ => ⟨rfl, rfl⟩⟩
  · rename_i h0
    simp only [ne_eq, not_not] at h0
    simp only [Option.bind_eq_bind, Option.pure_def, Option.bind_eq_some] at hb
    obtain ⟨_, _, _, _, hb⟩ := hb
    simp only [Option.some.injEq] at hb
    subst hb
    exact ⟨rfl, h0.symm, fun h => absurd rfl h⟩

theorem pax_all_get_loop_last {σ : Type} (dev : Dev σ) (total : Nat) :
    ∀ (fuel : Nat) (s : Sess σ) (off : Nat) (data : Bytes) (g : GetResult σ),
      gfms_pax_all_get_loop dev total fuel s off data = some g →
      ∃ (offs : List Nat) (s' : Sess σ) (off' : Nat),
        s'.trace = s.trace ++ offs.map Cmd.GFMS_DB_DUMP_PAX_ALL_GET ∧
        g.sess = (switchtec_cmd dev s' (Cmd.GFMS_DB_DUMP_PAX_ALL_GET off')).2 ∧
        g.ret = (switchtec_cmd dev s' (Cmd.GFMS_DB_DUMP_PAX_ALL_GET off')).1.ret := by
  intro fuel
  induction fuel with
  | zero =>
    intro s off data g h
    exact absurd h (by simp [gfms_pax_all_get_loop])
  | succ fuel ih =>
    intro s off data g h
    rw [gfms_pax_all_get_loop] at h
    simp only [Option.bind_eq_some] at h
    obtain ⟨b, hb, h⟩ := h
    obtain ⟨hs, hr, _⟩ := pax_all_get_body_last dev total s off data b hb
    by_cases hflag : b.2 = true
    · rw [if_pos hflag] at h
      obtain ⟨offs, s', off', ht, hg, hgr⟩ := ih _ _ _ g h
      refine ⟨off :: offs, s', off', ?_, hg, hgr⟩
      rw [ht, hs]
      simp [switchtec_cmd]
    · rw [if_neg hflag] at h
      simp only [Option.some.injEq] at h
      subst h
      exact ⟨[], s, off, by simp, hs, hr⟩

theorem ep_port_get_body_last {σ : Type} (dev : Dev σ) (pid total : Nat) (s : Sess σ)
    (off : Nat) (data : Bytes) (b : GetResult σ × Bool)
    (hb : gfms_ep_port_get_body dev pid total s off data = some b) :
    b.1.sess = (switchtec_cmd dev s (Cmd.GFMS_DB_DUMP_EP_PORT_GET pid off)).2 ∧
    b.1.ret = (switchtec_cmd dev s (Cmd.GFMS_DB_DUMP_EP_PORT_GET pid off)).1.ret ∧
    (b.1.ret ≠ 0 → b.2 = false ∧ b.1.data = data) := by
  unfold gfms_ep_port_get_body at hb
  dsimp only at hb
  split at hb
  · simp only [Option.some.injEq] at hb
    subst hb
    exact ⟨rfl, rfl, fun _ => ⟨rfl, rfl⟩⟩
  · rename_i h0
    simp only [ne_eq, not_not] at h0
    simp only [Option.bind_eq_bind, Option.pure_def, Option.bind_eq_some] at hb
    obtain ⟨_, _, _, _, hb⟩ := hb
    simp only [Option.some.injEq] at hb
    subst hb
    exact ⟨rfl, h0.symm, fun h => absurd rfl h⟩

theorem ep_port_get_loop_last {σ : Type} (dev : Dev σ) (pid total : Nat) :
    ∀ (fuel : Nat) (s : Sess σ) (off : Nat) (data : Bytes) (g : GetResult σ),
      gfms_ep_port_get_loop dev pid total fuel s off data = some g →
      ∃ (offs : List Nat) (s' : Sess σ) (off' : Nat),
        s'.trace = s.trace ++ offs.map (Cmd.GFMS_DB_DUMP_EP_PORT_GET pid) ∧
        g.sess = (switchtec_cmd dev s' (Cmd.GFMS_DB_DUMP_EP_PORT_GET pid off')).2 ∧
        g.ret = (switchtec_cmd dev s' (Cmd.GFMS_DB_DUMP_EP_PORT_GET pid off')).1.ret := by
  intro fuel
  induction fuel with
  | zero =>
    intro s off data g h
    exact absurd h (by simp [gfms_ep_port_get_loop])
  | succ fuel ih =>
    intro s off data g h
    rw [gfms_ep_port_get_loop] at h
    simp only [Option.bind_eq_some] at h
    obtain ⟨b, hb, h⟩ := h
    obtain ⟨hs, hr, _⟩ := ep_port_get_body_last dev pid total s off data b hb
    by_cases hflag : b.2 = true
    · rw [if_pos hflag] at h
      obtain ⟨offs, s', off', ht, hg, hgr⟩ := ih _ _ _ g h
      refine ⟨off :: offs, s', off', ?_, hg, hgr⟩
      rw [ht, hs]
      simp [switchtec_cmd]
    · rw [if_neg hflag] at h
      simp only [Option.some.injEq] at h
      subst h
      exact ⟨[], s, off, by simp, hs, hr⟩

theorem pax_all_get_trace {σ : Type} (dev : Dev σ) (total fuel : Nat) (s : Sess σ)
    (data : Bytes) (g : GetResult σ) (h : gfms_pax_all_get dev fuel s total data = some g) :
    ∃ offsets, offsets ≠ [] ∧
      g.sess.trace = s.trace ++ offsets.map Cmd.GFMS_DB_DUMP_PAX_ALL_GET := by
  obtain ⟨offs, s', off', ht, hg, _⟩ := pax_all_get_loop_last dev total fuel s 0 data g h
  refine ⟨offs ++ [off'], by simp, ?_⟩
  rw [hg]
  simp [switchtec_cmd, ht]

theorem ep_port_get_trace {σ : Type} (dev : Dev σ) (pid total fuel : Nat) (s : Sess σ)
    (data : Bytes) (g : GetResult σ)
    (h : gfms_ep_port_get dev fuel s pid total data = some g) :
    ∃ offsets, offsets ≠ [] ∧
      g.sess.trace = s.trace ++ offsets.map (Cmd.GFMS_DB_DUMP_EP_PORT_GET pid) := by
  obtain ⟨offs, s', off', ht, hg, _⟩ := ep_port_get_loop_last dev pid total fuel s 0 data g h
  refine ⟨offs ++ [off'], by simp, ?_⟩
  rw [hg]
  simp [switchtec_cmd, ht]

theorem pax_all_paged_trace {σ : Type} (dev : Dev σ) (total : Nat) :
    ∀ (k : Nat) (s : Sess σ) (off : Nat) (data : Bytes) (x : Sess σ × Nat × Bytes),
      pax_all_paged dev total k s off data = some x →
      ∃ offsets : List Nat, offsets.length = k ∧
        x.1.trace = s.trace ++ offsets.map Cmd.GFMS_DB_DUMP_PAX_ALL_GET := by
  intro k
  induction k with
  | zero =>
    intro s off data x h
    rw [pax_all_paged] at h
    simp only [Option.some.injEq] at h
    subst h
    exact ⟨[], rfl, by simp⟩
  | succ k ih =>
    intro s off data x h
    rw [pax_all_paged] at h
    simp only [Option.bind_eq_some] at h
    obtain ⟨b, hb, h⟩ := h
    by_cases hflag : b.2 = true
    · rw [if_pos hflag] at h
      obtain ⟨offs, hl, ht⟩ := ih _ _ _ x h
      obtain ⟨hs, _, _⟩ := pax_all_get_body_last dev total s off data b hb
      refine ⟨off :: offs, by simp [hl], ?_⟩
      rw [ht, hs]
      simp [switchtec_cmd]
    · rw [if_neg hflag] at h
      exact absurd h (by simp)

theorem pax_all_paged_loop {σ : Type} (dev : Dev σ) (total : Nat) :
    ∀ (k : Nat) (s : Sess σ) (off : Nat) (data : Bytes) (x : Sess σ × Nat × Bytes),
      pax_all_paged dev total k s off data = some x →
      ∀ n, gfms_pax_all_get_loop dev total (k + n) s off data
        = gfms_pax_all_get_loop dev total n x.1 x.2.1 x.2.2 := by
  intro k
  induction k with
  | zero =>
    intro s off data x h n
    rw [pax_all_paged] at h
    simp only [Option.some.injEq] at h
    subst h
    rw [Nat.zero_add]
  | succ k ih =>
    intro s off data x h n
    rw [pax_all_paged] at h
    simp only [Option.bind_eq_some] at h
    obtain ⟨b, hb, h⟩ := h
    by_cases hflag : b.2 = true
    · rw [if_pos hflag] at h
      have e : k + 1 + n = (k + n) + 1 := by omega
      rw [e, gfms_pax_all_get_loop, hb, Option.some_bind, if_pos hflag]
      exact ih _ _ _ x h n
    · rw [if_neg hflag] at h
      exact absurd h (by simp)

theorem pax_all_get_cases {σ : Type} (dev : Dev σ) (total : Nat) :
    ∀ (fuel : Nat) (s : Sess σ) (off : Nat) (data : Bytes),
      (∃ g, gfms_pax_all_get_loop dev total fuel s off data = some g) ∨
      (∃ x, pax_all_paged dev total fuel s off data = some x) ∨
      (∃ k x, k < fuel ∧ pax_all_paged dev total k s off data = some x ∧
        gfms_pax_all_get_body dev total x.1 x.2.1 x.2.2 = none) := by
  intro fuel
  induction fuel with
  | zero =>
    intro s off data
    exact Or.inr (Or.inl ⟨_, rfl⟩)
  | succ fuel ih =>
    intro s off data
    cases hb : gfms_pax_all_get_body dev total s off data with
    | none => exact Or.inr (Or.inr ⟨0, (s, off, data), Nat.succ_pos _, rfl, hb⟩)
    | some b =>
      by_cases hflag : b.2 = true
      · rcases ih b.1.sess b.1.offset_dw b.1.data with ⟨g, hg⟩ | ⟨x, hx⟩ | ⟨k, x, hk, hx, hn⟩
        · left
          refine ⟨g, ?_⟩
          rw [gfms_pax_all_get_loop, hb, Option.some_bind, if_pos hflag, hg]
        · right
          left
          refine ⟨x, ?_⟩
          rw [pax_all_paged, hb, Option.some_bind, if_pos hflag, hx]
        · right
          right
          refine ⟨k + 1, x, by omega, ?_, hn⟩
          rw [pax_all_paged, hb, Option.some_bind, if_pos hflag, hx]
      · left
        refine ⟨b.1, ?_⟩
        rw [gfms_pax_all_get_loop, hb, Option.some_bind, if_neg hflag]

theorem ep_port_paged_trace {σ : Type} (dev : Dev σ) (pid total : Nat) :
    ∀ (k : Nat) (s : Sess σ) (off : Nat) (data : Bytes) (x : Sess σ × Nat × Bytes),
      ep_port_paged dev pid total k s off data = some x →
      ∃ offsets : List Nat, offsets.length = k ∧
        x.1.trace = s.trace ++ offsets.map (Cmd.GFMS_DB_DUMP_EP_PORT_GET pid) := by
  intro k
  induction k with
  | zero =>
    intro s off data x h
    rw [ep_port_paged] at h
    simp only [Option.some.injEq] at h
    subst h
    exact ⟨[], rfl, by simp⟩
  | succ k ih =>
    intro s off data x h
    rw [ep_port_paged] at h
    simp only [Option.bind_eq_some] at h
    obtain ⟨b, hb, h⟩ := h
    by_cases hflag : b.2 = true
    · rw [if_pos hflag] at h
      obtain ⟨offs, hl, ht⟩ := ih _ _ _ x h
      obtain ⟨hs, _, _⟩ := ep_port_get_body_last dev pid total s off data b hb
      refine ⟨off :: offs, by simp [hl], ?_⟩
      rw [ht, hs]
      simp [switchtec_cmd]
    · rw [if_neg hflag] at h
      exact absurd h (by simp)

theorem ep_port_paged_loop {σ : Type} (dev : Dev σ) (pid total : Nat) :
    ∀ (k : Nat) (s : Sess σ) (off : Nat) (data : Bytes) (x : Sess σ × Nat × Bytes),
      ep_port_paged dev pid total k s off data = some x →
      ∀ n, gfms_ep_port_get_loop dev pid total (k + n) s off data
        = gfms_ep_port_get_loop dev pid total n x.1 x.2.1 x.2.2 := by
  intro k
  induction k with
  | zero =>
    intro s off data x h n
    rw [ep_port_paged] at h
    simp only [Option.some.injEq] at h
    subst h
    rw [Nat.zero_add]
  | succ k ih =>
    intro s off data x h n
    rw [ep_port_paged] at h
    simp only [Option.bind_eq_some] at h
    obtain ⟨b, hb, h⟩ := h
    by_cases hflag : b.2 = true
    · rw [if_pos hflag] at h
      have e : k + 1 + n = (k + n) + 1 := by omega
      rw [e, gfms_ep_port_get_loop, hb, Option.some_bind, if_pos hflag]
      exact ih _ _ _ x h n
    · rw [if_neg hflag] at h
      exact absurd h (by simp)

theorem ep_port_get_cases {σ : Type} (dev : Dev σ) (pid total : Nat) :
    ∀ (fuel : Nat) (s : Sess σ) (off : Nat) (data : Bytes),
      (∃ g, gfms_ep_port_get_loop dev pid total fuel s off data = some g) ∨
      (∃ x, ep_port_paged dev pid total fuel s off data = some x) ∨
      (∃ k x, k < fuel ∧ ep_port_paged dev pid total k s off data = some x ∧
        gfms_ep_port_get_body dev pid total x.1 x.2.1 x.2.2 = none) := by
  intro fuel
  induction fuel with
  | zero =>
    intro s off data
    exact Or.inr (Or.inl ⟨_, rfl⟩)
  | succ fuel ih =>
    intro s off data
    cases hb : gfms_ep_port_get_body dev pid total s off data with
    | none => exact Or.inr (Or.inr ⟨0, (s, off, data), Nat.succ_pos _, rfl, hb⟩)
    | some b =>
      by_cases hflag : b.2 = true
      · rcases ih b.1.sess b.1.offset_dw b.1.data with ⟨g, hg⟩ | ⟨x, hx⟩ | ⟨k, x, hk, hx, hn⟩
        · left
          refine ⟨g, ?_⟩
          rw [gfms_ep_port_get_loop, hb, Option.some_bind, if_pos hflag, hg]
        · right
          left
          refine ⟨x, ?_⟩
          rw [ep_port_paged, hb, Option.some_bind, if_pos hflag, hx]
        · right
          right
          refine ⟨k + 1, x, by omega, ?_, hn⟩
          rw [ep_port_paged, hb, Option.some_bind, if_pos hflag, hx]
      · left
        refine ⟨b.1, ?_⟩
        rw [gfms_ep_port_get_loop, hb, Option.some_bind, if_neg hflag]

/-- C13: the commands of `switchtec_fab_gfms_db_dump_pax_all` and of
`switchtec_fab_gfms_db_dump_ep_port`, for every device and every amount of fuel, with no
assumption that the dump returns.  After a failed Start the dump returns with the trace
Start.  After a successful Start the paging loop has returned, or is still paging after
`fuel` passes, or has met a pass without defined behaviour; as long as it pages the trace
is Start followed by one Get for each pass; when it returns, the trace is Start and one or
more Gets, a non-zero code ends the dump there, without Finish, and the code 0 is followed
by exactly one Finish, after which no command is issued whatever Finish returns and
whatever the decoder does. -/
theorem session_command_order {σ : Type} (L : Layout) (dev : Dev σ) (fuel : Nat)
    (junk : Bytes) (s : Sess σ) :
    (∀ pax_all,
      ((gfms_pax_all_start dev s).1 ≠ 0 →
        switchtec_fab_gfms_db_dump_pax_all L dev fuel junk s pax_all
          = some ((gfms_pax_all_start dev s).1, pax_all, (gfms_pax_all_start dev s).2.2) ∧
        (gfms_pax_all_start dev s).2.2.trace = s.trace ++ pax_all_session [] false) ∧
      ((gfms_pax_all_start dev s).1 = 0 →
        ((∃ g, gfms_pax_all_get dev fuel (gfms_pax_all_start dev s).2.2
              (gfms_pax_all_start dev s).2.1
              (malloc junk ((gfms_pax_all_start dev s).2.1 * 4 % U32)) = some g) ∨
          (∃ x, pax_all_paged dev (gfms_pax_all_start dev s).2.1 fuel
              (gfms_pax_all_start dev s).2.2 0
              (malloc junk ((gfms_pax_all_start dev s).2.1 * 4 % U32)) = some x) ∨
          (∃ k x, k < fuel ∧
            pax_all_paged dev (gfms_pax_all_start dev s).2.1 k
              (gfms_pax_all_start dev s).2.2 0
              (malloc junk ((gfms_pax_all_start dev s).2.1 * 4 % U32)) = some x ∧
            gfms_pax_all_get_body dev (gfms_pax_all_start dev s).2.1 x.1 x.2.1 x.2.2
              = none)) ∧
        (∀ k x,
          pax_all_paged dev (gfms_pax_all_start dev s).2.1 k (gfms_pax_all_start dev s).2.2 0
            (malloc junk ((gfms_pax_all_start dev s).2.1 * 4 % U32)) = some x →
          (∃ offsets : List Nat, offsets.length = k ∧
            x.1.trace = s.trace ++ pax_all_session offsets false) ∧
          ∀ n, gfms_pax_all_get_loop dev (gfms_pax_all_start dev s).2.1 (k + n)
              (gfms_pax_all_start dev s).2.2 0
              (malloc junk ((gfms_pax_all_start dev s).2.1 * 4 % U32))
            = gfms_pax_all_get_loop dev (gfms_pax_all_start dev s).2.1 n x.1 x.2.1 x.2.2) ∧
        (∀ g, gfms_pax_all_get dev fuel (gfms_pax_all_start dev s).2.2
            (gfms_pax_all_start dev s).2.1
            (malloc junk ((gfms_pax_all_start dev s).2.1 * 4 % U32)) = some g →
          ∃ offsets : List Nat, offsets ≠ [] ∧
            g.sess.trace = s.trace ++ pax_all_session offsets false ∧
            (g.ret ≠ 0 →
              switchtec_fab_gfms_db_dump_pax_all L dev fuel junk s pax_all
                = some (g.ret, pax_all, g.sess)) ∧
            (g.ret = 0 →
              (gfms_pax_all_finish dev g.sess).2.trace
                = s.trace ++ pax_all_session offsets true ∧
              ((gfms_pax_all_finish dev g.sess).1 ≠ 0 →
                switchtec_fab_gfms_db_dump_pax_all L dev fuel junk s pax_all
                  = some ((gfms_pax_all_finish dev g.sess).1, pax_all,
                      (gfms_pax_all_finish dev g.sess).2)) ∧
              ((gfms_pax_all_finish dev g.sess).1 = 0 →
                switchtec_fab_gfms_db_dump_pax_all L dev fuel junk s pax_all
                  = (gfms_pax_all_parse L g.data pax_all).map fun r =>
                      (if r.1 ≠ (gfms_pax_all_start dev s).2.1 * 4 % U32 then -1 else 0, r.2,
                        (gfms_pax_all_finish dev g.sess).2)))))) ∧
    (∀ phy_pid ep_port_section,
      ((gfms_ep_port_start dev s phy_pid).1 ≠ 0 →
        switchtec_fab_gfms_db_dump_ep_port L dev fuel junk s phy_pid ep_port_section
          = some ((gfms_ep_port_start dev s phy_pid).1, ep_port_section,
              (gfms_ep_port_start dev s phy_pid).2.2) ∧
        (gfms_ep_port_start dev s phy_pid).2.2.trace
          = s.trace ++ ep_port_session phy_pid [] false) ∧
      ((gfms_ep_port_start dev s phy_pid).1 = 0 →
        ((∃ g, gfms_ep_port_get dev fuel (gfms_ep_port_start dev s phy_pid).2.2 phy_pid
              (gfms_ep_port_start dev s phy_pid).2.1
              (malloc junk ((gfms_ep_port_start dev s phy_pid).2.1 * 4 % U32)) = some g) ∨
          (∃ x, ep_port_paged dev phy_pid (gfms_ep_port_start dev s phy_pid).2.1 fuel
              (gfms_ep_port_start dev s phy_pid).2.2 0
              (malloc junk ((gfms_ep_port_start dev s phy_pid).2.1 * 4 % U32)) = some x) ∨
          (∃ k x, k < fuel ∧
            ep_port_paged dev phy_pid (gfms_ep_port_start dev s phy_pid).2.1 k
              (gfms_ep_port_start dev s phy_pid).2.2 0
              (malloc junk ((gfms_ep_port_start dev s phy_pid).2.1 * 4 % U32)) = some x ∧
            gfms_ep_port_get_body dev phy_pid (gfms_ep_port_start dev s phy_pid).2.1 x.1
              x.2.1 x.2.2 = none)) ∧
        (∀ k x,
          ep_port_paged dev phy_pid (gfms_ep_port_start dev s phy_pid).2.1 k
            (gfms_ep_port_start dev s phy_pid).2.2 0
            (malloc junk ((gfms_ep_port_start dev s phy_pid).2.1 * 4 % U32)) = some x →
          (∃ offsets : List Nat, offsets.length = k ∧
            x.1.trace = s.trace ++ ep_port_session phy_pid offsets false) ∧
          ∀ n, gfms_ep_port_get_loop dev phy_pid (gfms_ep_port_start dev s phy_pid).2.1
              (k + n) (gfms_ep_port_start dev s phy_pid).2.2 0
              (malloc junk ((gfms_ep_port_start dev s phy_pid).2.1 * 4 % U32))
            = gfms_ep_port_get_loop dev phy_pid (gfms_ep_port_start dev s phy_pid).2.1 n x.1
                x.2.1 x.2.2) ∧
        (∀ g, gfms_ep_port_get dev fuel (gfms_ep_port_start dev s phy_pid).2.2 phy_pid
            (gfms_ep_port_start dev s phy_pid).2.1
            (malloc junk ((gfms_ep_port_start dev s phy_pid).2.1 * 4 % U32)) = some g →
          ∃ offsets : List Nat, offsets ≠ [] ∧
            g.sess.trace = s.trace ++ ep_port_session phy_pid offsets false ∧
            (g.ret ≠ 0 →
              switchtec_fab_gfms_db_dump_ep_port L dev fuel junk s phy_pid ep_port_section
                = some (g.ret, ep_port_section, g.sess)) ∧
            (g.ret = 0 →
              (gfms_ep_port_finish dev g.sess).2.trace
                = s.trace ++ ep_port_session phy_pid offsets true ∧
              ((gfms_ep_port_finish dev g.sess).1 ≠ 0 →
                switchtec_fab_gfms_db_dump_ep_port L dev fuel junk s phy_pid ep_port_section
                  = some ((gfms_ep_port_finish dev g.sess).1, ep_port_section,
                      (gfms_ep_port_finish dev g.sess).2)) ∧
              ((gfms_ep_port_finish dev g.sess).1 = 0 →
                switchtec_fab_gfms_db_dump_ep_port L dev fuel junk s phy_pid ep_port_section
                  = (gfms_ep_port_section_parse L g.data 0 ep_port_section).map fun r =>
                      (if r.1 ≠ (gfms_ep_port_start dev s phy_pid).2.1 * 4 % U32 then -1
                        else 0, r.2, (gfms_ep_port_finish dev g.sess).2)))))) := by
  constructor
  · intro pax_all
    have hst : (gfms_pax_all_start dev s).2.2.trace
        = s.trace ++ [Cmd.GFMS_DB_DUMP_PAX_ALL_START] := rfl
    refine ⟨fun hs => ⟨?_, ?_⟩, fun hs => ⟨?_, fun k x hx => ⟨?_, ?_⟩, fun g hg => ?_⟩⟩
    · unfold switchtec_fab_gfms_db_dump_pax_all
      rw [if_pos hs]
    · rw [hst]
      simp [pax_all_session]
    · exact pax_all_get_cases dev _ fuel _ 0 _
    · obtain ⟨offs, hl, ht⟩ := pax_all_paged_trace dev _ k _ 0 _ x hx
      refine ⟨offs, hl, ?_⟩
      rw [ht, hst]
      simp [pax_all_session]
    · exact pax_all_paged_loop dev _ k _ 0 _ x hx
    · obtain ⟨offs, hne, ht⟩ := pax_all_get_trace dev _ fuel _ _ g hg
      have hft : (gfms_pax_all_finish dev g.sess).2.trace
          = g.sess.trace ++ [Cmd.GFMS_DB_DUMP_PAX_ALL_FINISH] := rfl
      refine ⟨offs, hne, ?_, fun hr => ?_, fun hr => ⟨?_, fun hf => ?_, fun hf => ?_⟩⟩
      · rw [ht, hst]
        simp [pax_all_session]
      · unfold switchtec_fab_gfms_db_dump_pax_all
        rw [if_neg (not_not.mpr hs), hg, Option.some_bind, if_pos hr]
      · rw [hft, ht, hst]
        simp [pax_all_session]
      · unfold switchtec_fab_gfms_db_dump_pax_all
        rw [if_neg (not_not.mpr hs), hg, Option.some_bind, if_neg (not_not.mpr hr), if_pos hf]
      · unfold switchtec_fab_gfms_db_dump_pax_all
        rw [if_neg (not_not.mpr hs), hg, Option.some_bind, if_neg (not_not.mpr hr),
          if_neg (not_not.mpr hf)]
  · intro phy_pid ep_port_section
    have hst : (gfms_ep_port_start dev s phy_pid).2.2.trace
        = s.trace ++ [Cmd.GFMS_DB_DUMP_EP_PORT_START phy_pid] := rfl
    refine ⟨fun hs => ⟨?_, ?_⟩, fun hs => ⟨?_, fun k x hx => ⟨?_, ?_⟩, fun g hg => ?_⟩⟩
    · unfold switchtec_fab_gfms_db_dump_ep_port
      rw [if_pos hs]
    · rw [hst]
      simp [ep_port_session]
    · exact ep_port_get_cases dev phy_pid _ fuel _ 0 _
    · obtain ⟨offs, hl, ht⟩ := ep_port_paged_trace dev phy_pid _ k _ 0 _ x hx
      refine ⟨offs, hl, ?_⟩
      rw [ht, hst]
      simp [ep_port_session]
    · exact ep_port_paged_loop dev phy_pid _ k _ 0 _ x hx
    · obtain ⟨offs, hne, ht⟩ := ep_port_get_trace dev phy_pid _ fuel _ _ g hg
      have hft : (gfms_ep_port_finish dev g.sess).2.trace
          = g.sess.trace ++ [Cmd.GFMS_DB_DUMP_EP_PORT_FINISH] := rfl
      refine ⟨offs, hne, ?_, fun hr => ?_, fun hr => ⟨?_, fun hf => ?_, fun hf => ?_⟩⟩
      · rw [ht, hst]
        simp [ep_port_session]
      · unfold switchtec_fab_gfms_db_dump_ep_port
        rw [if_neg (not_not.mpr hs), hg, Option.some_bind, if_pos hr]
      · rw [hft, ht, hst]
        simp [ep_port_session]
      · unfold switchtec_fab_gfms_db_dump_ep_port
        rw [if_neg (not_not.mpr hs), hg, Option.some_bind, if_neg (not_not.mpr hr), if_pos hf]
      · unfold switchtec_fab_gfms_db_dump_ep_port
        rw [if_neg (not_not.mpr hs), hg, Option.some_bind, if_neg (not_not.mpr hr),
          if_neg (not_not.mpr hf)]

set_option maxRecDepth 100000 in
/-- Witness of C13, on three runs.  The mixed sample record served 8 dwords at a time to
the PAX-all dump: Start, four Gets, Finish.  The endpoint-port blob whose attached-endpoint
header declares less than its own size: Start, one Get and Finish succeed and the trace is
Start, Get, Finish, although the decoder has no defined result.  A device that answers
every Get of a 5-dword PAX-all dump with an empty payload: after 4 passes the loop is
still paging and the trace is Start and 4 Gets. -/
theorem session_command_order_witness :
    (∃ offsets : List Nat, offsets ≠ [] ∧
      (gfms_pax_all_finish (stream_dev (encode sample_rec) 8)
          ⟨(), [Cmd.GFMS_DB_DUMP_PAX_ALL_START, Cmd.GFMS_DB_DUMP_PAX_ALL_GET 0,
            Cmd.GFMS_DB_DUMP_PAX_ALL_GET 8, Cmd.GFMS_DB_DUMP_PAX_ALL_GET 16,
            Cmd.GFMS_DB_DUMP_PAX_ALL_GET 24], 0⟩).2.trace
        = (fresh ()).trace ++ pax_all_session offsets true) ∧
    (switchtec_fab_gfms_db_dump_ep_port sample_layout (stream_dev sample_short_ep_blob 8) 4 []
        (fresh ()) 3 sample_section = none ∧
      ∃ offsets : List Nat, offsets ≠ [] ∧
        (gfms_ep_port_finish (stream_dev sample_short_ep_blob 8)
            ⟨(), [Cmd.GFMS_DB_DUMP_EP_PORT_START 3, Cmd.GFMS_DB_DUMP_EP_PORT_GET 3 0],
              0⟩).2.trace
          = (fresh ()).trace ++ ep_port_session 3 offsets true) ∧
    (∃ offsets : List Nat, offsets.length = 4 ∧
      [Cmd.GFMS_DB_DUMP_PAX_ALL_START, Cmd.GFMS_DB_DUMP_PAX_ALL_GET 0,
          Cmd.GFMS_DB_DUMP_PAX_ALL_GET 0, Cmd.GFMS_DB_DUMP_PAX_ALL_GET 0,
          Cmd.GFMS_DB_DUMP_PAX_ALL_GET 0]
        = (fresh 0).trace ++ pax_all_session offsets false) :=
  ⟨Exists.elim
      ((((session_command_order sample_layout (stream_dev (encode sample_rec) 8) 4 []
        (fresh ())).1 sample_out).2 (by decide)).2.2
        ⟨0, 31, encode sample_rec,
          ⟨(), [Cmd.GFMS_DB_DUMP_PAX_ALL_START, Cmd.GFMS_DB_DUMP_PAX_ALL_GET 0,
            Cmd.GFMS_DB_DUMP_PAX_ALL_GET 8, Cmd.GFMS_DB_DUMP_PAX_ALL_GET 16,
            Cmd.GFMS_DB_DUMP_PAX_ALL_GET 24], 0⟩⟩ (by decide))
      (fun offsets h => ⟨offsets, h.1, (h.2.2.2 rfl).1⟩),
    ⟨by decide,
      Exists.elim
        ((((session_command_order sample_layout (stream_dev sample_short_ep_blob 8) 4 []
          (fresh ())).2 3 sample_section).2 (by decide)).2.2
          ⟨0, 7, sample_short_ep_blob,
            ⟨(), [Cmd.GFMS_DB_DUMP_EP_PORT_START 3, Cmd.GFMS_DB_DUMP_EP_PORT_GET 3 0], 0⟩⟩
          (by decide))
        (fun offsets h => ⟨offsets, h.1, (h.2.2.2 rfl).1⟩)⟩,
    ((((session_command_order sample_layout
        (script_dev true true [ok_rsp 0 0 5 0 0 []] (ok_rsp 0 0 0 0 3 [])) 4 []
        (fresh 0)).1 sample_out).2 (by decide)).2.1 4
      (⟨5, [Cmd.GFMS_DB_DUMP_PAX_ALL_START, Cmd.GFMS_DB_DUMP_PAX_ALL_GET 0,
        Cmd.GFMS_DB_DUMP_PAX_ALL_GET 0, Cmd.GFMS_DB_DUMP_PAX_ALL_GET 0,
        Cmd.GFMS_DB_DUMP_PAX_ALL_GET 0], 0⟩, 0, List.replicate 20 0) (by decide)).1⟩

/-- C14: a non-zero return code of Start, of a Get or of Finish is what
`switchtec_fab_gfms_db_dump_pax_all` and `switchtec_fab_gfms_db_dump_ep_port` return, with
the caller's record unchanged and whatever the layout and the buffer content, so without
decoding.  A Get that fails ends the paging loop at once with its code, and the code of
the paging loop is always the code of the last Get exchange. -/
theorem transport_failure_forwarded {σ : Type} (L : Layout) (dev : Dev σ) (fuel : Nat)
    (junk : Bytes) (s : Sess σ) :
    (∀ pax_all,
      ((gfms_pax_all_start dev s).1 ≠ 0 →
        switchtec_fab_gfms_db_dump_pax_all L dev fuel junk s pax_all
          = some ((gfms_pax_all_start dev s).1, pax_all, (gfms_pax_all_start dev s).2.2)) ∧
      ((gfms_pax_all_start dev s).1 = 0 →
        ∀ g, gfms_pax_all_get dev fuel (gfms_pax_all_start dev s).2.2
            (gfms_pax_all_start dev s).2.1
            (malloc junk ((gfms_pax_all_start dev s).2.1 * 4 % U32)) = some g →
          (∃ s1 off, g.ret = (switchtec_cmd dev s1 (Cmd.GFMS_DB_DUMP_PAX_ALL_GET off)).1.ret ∧
            g.sess = (switchtec_cmd dev s1 (Cmd.GFMS_DB_DUMP_PAX_ALL_GET off)).2) ∧
          (g.ret ≠ 0 →
            switchtec_fab_gfms_db_dump_pax_all L dev fuel junk s pax_all
              = some (g.ret, pax_all, g.sess)) ∧
          (g.ret = 0 → (gfms_pax_all_finish dev g.sess).1 ≠ 0 →
            switchtec_fab_gfms_db_dump_pax_all L dev fuel junk s pax_all
              = some ((gfms_pax_all_finish dev g.sess).1, pax_all,
                  (gfms_pax_all_finish dev g.sess).2)))) ∧
    (∀ phy_pid ep_port_section,
      ((gfms_ep_port_start dev s phy_pid).1 ≠ 0 →
        switchtec_fab_gfms_db_dump_ep_port L dev fuel junk s phy_pid ep_port_section
          = some ((gfms_ep_port_start dev s phy_pid).1, ep_port_section,
              (gfms_ep_port_start dev s phy_pid).2.2)) ∧
      ((gfms_ep_port_start dev s phy_pid).1 = 0 →
        ∀ g, gfms_ep_port_get dev fuel (gfms_ep_port_start dev s phy_pid).2.2 phy_pid
            (gfms_ep_port_start dev s phy_pid).2.1
            (malloc junk ((gfms_ep_port_start dev s phy_pid).2.1 * 4 % U32)) = some g →
          (∃ s1 off,
            g.ret = (switchtec_cmd dev s1 (Cmd.GFMS_DB_DUMP_EP_PORT_GET phy_pid off)).1.ret ∧
            g.sess = (switchtec_cmd dev s1 (Cmd.GFMS_DB_DUMP_EP_PORT_GET phy_pid off)).2) ∧
          (g.ret ≠ 0 →
            switchtec_fab_gfms_db_dump_ep_port L dev fuel junk s phy_pid ep_port_section
              = some (g.ret, ep_port_section, g.sess)) ∧
          (g.ret = 0 → (gfms_ep_port_finish dev g.sess).1 ≠ 0 →
            switchtec_fab_gfms_db_dump_ep_port L dev fuel junk s phy_pid ep_port_section
              = some ((gfms_ep_port_finish dev g.sess).1, ep_port_section,
                  (gfms_ep_port_finish dev g.sess).2)))) ∧
    (∀ total n s1 off data,
      ((switchtec_cmd dev s1 (Cmd.GFMS_DB_DUMP_PAX_ALL_GET off)).1.ret ≠ 0 →
        gfms_pax_all_get_loop dev total (n + 1) s1 off data
          = some ⟨(switchtec_cmd dev s1 (Cmd.GFMS_DB_DUMP_PAX_ALL_GET off)).1.ret, off, data,
              (switchtec_cmd dev s1 (Cmd.GFMS_DB_DUMP_PAX_ALL_GET off)).2⟩) ∧
      ∀ pid, (switchtec_cmd dev s1 (Cmd.GFMS_DB_DUMP_EP_PORT_GET pid off)).1.ret ≠ 0 →
        gfms_ep_port_get_loop dev pid total (n + 1) s1 off data
          = some ⟨(switchtec_cmd dev s1 (Cmd.GFMS_DB_DUMP_EP_PORT_GET pid off)).1.ret, off,
              data, (switchtec_cmd dev s1 (Cmd.GFMS_DB_DUMP_EP_PORT_GET pid off)).2⟩) := by
  refine ⟨fun pax_all => ⟨fun hs => ?_, fun hs g hg => ⟨?_, fun hr => ?_, fun hr hf => ?_⟩⟩,
    fun phy_pid ep_port_section =>
      ⟨fun hs => ?_, fun hs g hg => ⟨?_, fun hr => ?_, fun hr hf => ?_⟩⟩,
    fun total n s1 off data => ⟨fun h => ?_, fun pid h => ?_⟩⟩
  · unfold switchtec_fab_gfms_db_dump_pax_all
    rw [if_pos hs]
  · obtain ⟨_, s1, off, _, h1, h2⟩ := pax_all_get_loop_last dev _ fuel _ 0 _ g hg
    exact ⟨s1, off, h2, h1⟩
  · unfold switchtec_fab_gfms_db_dump_pax_all
    rw [if_neg (not_not.mpr hs), hg, Option.some_bind, if_pos hr]
  · unfold switchtec_fab_gfms_db_dump_pax_all
    rw [if_neg (not_not.mpr hs), hg, Option.some_bind, if_neg (not_not.mpr hr), if_pos hf]
  · unfold switchtec_fab_gfms_db_dump_ep_port
    rw [if_pos hs]
  · obtain ⟨_, s1, off, _, h1, h2⟩ := ep_port_get_loop_last dev phy_pid _ fuel _ 0 _ g hg
    exact ⟨s1, off, h2, h1⟩
  · unfold switchtec_fab_gfms_db_dump_ep_port
    rw [if_neg (not_not.mpr hs), hg, Option.some_bind, if_pos hr]
  · unfold switchtec_fab_gfms_db_dump_ep_port
    rw [if_neg (not_not.mpr hs), hg, Option.some_bind, if_neg (not_not.mpr hr), if_pos hf]
  · rw [gfms_pax_all_get_loop, gfms_pax_all_get_body]
    dsimp only
    rw [if_pos h]
    rfl
  · rw [gfms_ep_port_get_loop, gfms_ep_port_get_body]
    dsimp only
    rw [if_pos h]
    rfl

set_option maxRecDepth 100000 in
/-- Witness of C14: Start declares 10 dwords, the first Get delivers 2 of them and the
second Get fails with -5; the dump returns -5 after Start and two Gets and the record
keeps its leftovers. -/
theorem transport_failure_forwarded_witness :
    switchtec_fab_gfms_db_dump_pax_all sample_layout
        (script_dev true true
          [ok_rsp 0 0 10 0 0 [], ok_rsp 0 0 0 0 5 [1, 2, 3, 4, 5, 6, 7, 8]] (failed_rsp (-5)))
        4 [] (fresh 0) sample_out
      = some (-5, sample_out,
          ⟨3, [Cmd.GFMS_DB_DUMP_PAX_ALL_START, Cmd.GFMS_DB_DUMP_PAX_ALL_GET 0,
            Cmd.GFMS_DB_DUMP_PAX_ALL_GET 2], 0⟩) :=
  ((((transport_failure_forwarded sample_layout
      (script_dev true true
        [ok_rsp 0 0 10 0 0 [], ok_rsp 0 0 0 0 5 [1, 2, 3, 4, 5, 6, 7, 8]] (failed_rsp (-5)))
      4 [] (fresh 0)).1 sample_out).2 (by decide)
      ⟨-5, 2, [1, 2, 3, 4, 5, 6, 7, 8] ++ List.replicate 32 0,
        ⟨3, [Cmd.GFMS_DB_DUMP_PAX_ALL_START, Cmd.GFMS_DB_DUMP_PAX_ALL_GET 0,
          Cmd.GFMS_DB_DUMP_PAX_ALL_GET 2], 0⟩⟩ (by decide)).2.1 (by decide))

/-! ## Malformed endpoint-port blobs -/

theorem sub_section_unknown_type (L : Layout) (data : Bytes) (p : Nat) (ep_port : EpPort)
    (port_hdr : Bytes) (hrd : rd data p L.port_hdr_size = some port_hdr)
    (hsw : L.port_type port_hdr ≠ L.TYPE_SWITCH) (hep : L.port_type port_hdr ≠ L.TYPE_EP) :
    gfms_ep_port_sub_section_parse L data p ep_port
      = some (L.port_hdr_size, { ep_port with port_hdr := port_hdr }) := by
  unfold gfms_ep_port_sub_section_parse
  rw [hrd, Option.some_bind, if_neg hsw, if_neg hep]
  split <;> rfl

set_option maxRecDepth 100000 in
/-- C15, evaluated: a fully retrieved 5-dword endpoint-port blob whose port header has type
`0x11`, none of the three type tags of the layout, is decoded like an unpopulated port: the
decoder consumes the 8 header bytes and `switchtec_fab_gfms_db_dump_ep_port` returns 0, not
an error, with the header bytes stored in the caller's record. -/
theorem invalid_tag_accepted (fuel : Nat) :
    sample_layout.port_type [0x11, 4, 0, 0, 2, 0, 0, 0] ≠ sample_layout.TYPE_SWITCH ∧
    sample_layout.port_type [0x11, 4, 0, 0, 2, 0, 0, 0] ≠ sample_layout.TYPE_EP ∧
    sample_layout.port_type [0x11, 4, 0, 0, 2, 0, 0, 0] ≠ sample_layout.TYPE_NON ∧
    switchtec_fab_gfms_db_dump_ep_port sample_layout (stream_dev sample_bad_tag_blob 8)
        (fuel + 1) [] (fresh ()) 3 sample_section
      = some (0,
          ⟨[3, 0, 0, 0, 5, 0, 0, 0, 0, 0, 0, 0],
            { sample_port with port_hdr := [0x11, 4, 0, 0, 2, 0, 0, 0] }⟩,
          ⟨(), ep_port_session 3 [0] true, 0⟩) :=
  ⟨by decide, by decide, by decide, by rfl⟩

set_option maxRecDepth 100000 in
/-- C16, evaluated: a fully retrieved 7-dword endpoint-port blob whose port is of type
Endpoint and whose attached-endpoint header declares `size_dw = 1`, 4 bytes, less than the
8 bytes of the header.  Retrieval and Finish succeed, the function-table length is
`2^64 - 4`, the copy of that many bytes leaves the 28-byte blob, and
`switchtec_fab_gfms_db_dump_ep_port` has no defined result, whatever the fuel: it does not
return an error. -/
theorem negative_length_not_reported (fuel : Nat) :
    gfms_ep_port_get (stream_dev sample_short_ep_blob 8) (fuel + 1)
        (gfms_ep_port_start (stream_dev sample_short_ep_blob 8) (fresh ()) 3).2.2 3 7
        (malloc [] 28)
      = some ⟨0, 7, sample_short_ep_blob,
          ⟨(), [Cmd.GFMS_DB_DUMP_EP_PORT_START 3, Cmd.GFMS_DB_DUMP_EP_PORT_GET 3 0], 0⟩⟩ ∧
    sample_layout.port_type [1, 4, 1, 0, 4, 0, 0, 0] = sample_layout.TYPE_EP ∧
    dw_bytes (sample_layout.ep_size_dw [1, 0, 9, 0, 0, 0, 0, 0]) = 4 ∧
    sample_layout.ep_hdr_size = 8 ∧
    ((sample_layout.ep_size_dw [1, 0, 9, 0, 0, 0, 0, 0] % U32) * 4 % U32 + U64
        - sample_layout.ep_hdr_size % U64) % U64 = 18446744073709551612 ∧
    gfms_ep_port_attached_ep_parse sample_layout sample_short_ep_blob 20 sample_port.ep_ep
      = none ∧
    gfms_ep_port_section_parse sample_layout sample_short_ep_blob 0 sample_section = none ∧
    switchtec_fab_gfms_db_dump_ep_port sample_layout (stream_dev sample_short_ep_blob 8)
        fuel [] (fresh ()) 3 sample_section = none := by
  refine ⟨by rfl, by decide, by decide, by decide, by decide, by decide, by decide, ?_⟩
  cases fuel with
  | zero => rfl
  | succ n => rfl

/-! ## The port sub-record decoders -/

theorem rd_in_range (src : Bytes) (off n : Nat) (h : off + n ≤ src.length) :
    rd src off n = some ((src.drop off).take n) := by
  unfold rd
  rw [if_pos h]

/-- C17: when the attached-endpoint header at `p` declares `size_dw * 4` bytes, at least
the size of the header, and the source and destination ranges lie inside their objects,
`gfms_ep_port_attached_ep_parse` stores the first `sizeof(ep_hdr)` bytes as the header,
copies exactly `size_dw * 4 - sizeof(ep_hdr)` bytes that follow the header to the front of
the function table, and returns `size_dw * 4`. -/
theorem attached_ep_remainder (L : Layout) (data : Bytes) (p : Nat) (ep_port_ep : EpPortEp)
    (hsize : L.ep_hdr_size ≤ dw_bytes (L.ep_size_dw ((data.drop p).take L.ep_hdr_size)))
    (hsrc : p + dw_bytes (L.ep_size_dw ((data.drop p).take L.ep_hdr_size)) ≤ data.length)
    (hdst : dw_bytes (L.ep_size_dw ((data.drop p).take L.ep_hdr_size)) - L.ep_hdr_size
      ≤ ep_port_ep.functions.length) :
    gfms_ep_port_attached_ep_parse L data p ep_port_ep
      = some (dw_bytes (L.ep_size_dw ((data.drop p).take L.ep_hdr_size)),
          ⟨(data.drop p).take L.ep_hdr_size,
            (data.drop (p + L.ep_hdr_size)).take
                (dw_bytes (L.ep_size_dw ((data.drop p).take L.ep_hdr_size)) - L.ep_hdr_size)
              ++ ep_port_ep.functions.drop
                (dw_bytes (L.ep_size_dw ((data.drop p).take L.ep_hdr_size))
                  - L.ep_hdr_size)⟩) := by
  have hU32 : U32 = 4294967296 := rfl
  have hU64 : U64 = 18446744073709551616 := rfl
  have hd : dw_bytes (L.ep_size_dw ((data.drop p).take L.ep_hdr_size)) < 4294967296 := by
    unfold dw_bytes
    rw [hU32]
    exact Nat.mod_lt _ (by norm_num)
  generalize hD : dw_bytes (L.ep_size_dw ((data.drop p).take L.ep_hdr_size)) = d at *
  have hlen : ((L.ep_size_dw ((data.drop p).take L.ep_hdr_size) % U32) * 4 % U32 + U64
      - L.ep_hdr_size % U64) % U64 = d - L.ep_hdr_size := by
    have : (L.ep_size_dw ((data.drop p).take L.ep_hdr_size) % U32) * 4 % U32 = d := hD
    rw [this, hU64]
    omega
  have hsum : (L.ep_hdr_size + (d - L.ep_hdr_size)) % U64 = d := by
    rw [hU64]
    omega
  have hbl : ((data.drop (p + L.ep_hdr_size)).take (d - L.ep_hdr_size)).length
      = d - L.ep_hdr_size := by
    simp only [List.length_take, List.length_drop]
    omega
  unfold gfms_ep_port_attached_ep_parse
  simp only [Option.bind_eq_bind, Option.pure_def]
  rw [rd_in_range data p L.ep_hdr_size (by omega), Option.some_bind, hlen,
    rd_in_range data (p + L.ep_hdr_size) (d - L.ep_hdr_size) (by omega), Option.some_bind,
    wr_zero _ _ (by rw [hbl]; exact hdst), Option.some_bind, hbl, hsum]

/-- Witness of C17: an 8-byte header declaring 3 dwords at offset 2 of a 15-byte buffer;
4 bytes go to the function table and 12 is returned. -/
theorem attached_ep_remainder_witness :
    gfms_ep_port_attached_ep_parse sample_layout
        [0xEE, 0xEE, 3, 0, 9, 0, 1, 0, 0, 0, 0xD1, 0xD2, 0xD3, 0xD4, 0x77] 2 sample_port.ep_ep
      = some (12, ⟨[3, 0, 9, 0, 1, 0, 0, 0],
          [0xD1, 0xD2, 0xD3, 0xD4, 0xAA, 0xAA, 0xAA, 0xAA]⟩) :=
  attached_ep_remainder sample_layout
    [0xEE, 0xEE, 3, 0, 9, 0, 1, 0, 0, 0, 0xD1, 0xD2, 0xD3, 0xD4, 0x77] 2 sample_port.ep_ep
    (by decide) (by decide) (by decide)

/-- C19: when the port header at `p` has type `SWITCHTEC_GFMS_DB_TYPE_NON`, a tag other
than those of Switch and Endpoint, `gfms_ep_port_sub_section_parse` returns
`sizeof(port_hdr)` and changes the `port_hdr` member of the output record only:
`ep_switch` and `ep_ep` are as before. -/
theorem unpopulated_header_only (L : Layout) (data : Bytes) (p : Nat) (ep_port : EpPort)
    (hsrc : p + L.port_hdr_size ≤ data.length)
    (hty : L.port_type ((data.drop p).take L.port_hdr_size) = L.TYPE_NON)
    (hsw : L.TYPE_NON ≠ L.TYPE_SWITCH) (hep : L.TYPE_NON ≠ L.TYPE_EP) :
    gfms_ep_port_sub_section_parse L data p ep_port
      = some (L.port_hdr_size,
          ⟨(data.drop p).take L.port_hdr_size, ep_port.ep_switch, ep_port.ep_ep⟩) := by
  unfold gfms_ep_port_sub_section_parse
  rw [rd_in_range data p L.port_hdr_size hsrc, Option.some_bind, hty, if_neg hsw, if_neg hep,
    if_pos rfl]

/-- Witness of C19: an unpopulated port header at offset 1 of a 10-byte buffer. -/
theorem unpopulated_header_only_witness :
    gfms_ep_port_sub_section_parse sample_layout [0x77, 2, 5, 0, 0, 2, 0, 0, 0, 0x78] 1
        sample_port
      = some (8, ⟨[2, 5, 0, 0, 2, 0, 0, 0], sample_port.ep_switch, sample_port.ep_ep⟩) :=
  unpopulated_header_only sample_layout [0x77, 2, 5, 0, 0, 2, 0, 0, 0, 0x78] 1 sample_port
    (by decide) (by decide) (by decide) (by decide)

theorem accounting_step (parsed remaining len : Nat) :
    ((parsed + len) % U64 + (remaining + U64 - len % U64) % U64) % U64
      = (parsed + remaining) % U64 := by
  have hU64 : U64 = 18446744073709551616 := rfl
  rw [hU64]
  omega

theorem switch_eps_loop_accounting (L : Layout) (data : Bytes) :
    ∀ (slots : List EpPortEp) (p parsed remaining : Nat) (r : List EpPortEp × Nat),
      gfms_ep_port_switch_eps_loop L data slots p parsed remaining = some r →
      parsed < U64 → r.2 = (parsed + remaining) % U64 := by
  have hU64 : U64 = 18446744073709551616 := rfl
  intro slots
  induction slots with
  | nil =>
    intro p parsed remaining r h hp
    rw [gfms_ep_port_switch_eps_loop] at h
    split at h
    · rename_i h0
      simp only [Option.some.injEq] at h
      subst h
      subst h0
      show parsed = (parsed + 0) % U64
      rw [hU64] at hp ⊢
      omega
    · exact absurd h (by simp)
  | cons ep rest ih =>
    intro p parsed remaining r h hp
    rw [gfms_ep_port_switch_eps_loop] at h
    split at h
    · rename_i h0
      simp only [Option.some.injEq] at h
      subst h
      subst h0
      show parsed = (parsed + 0) % U64
      rw [hU64] at hp ⊢
      omega
    · simp only [Option.bind_eq_some, Option.map_eq_some'] at h
      obtain ⟨e, _, r1, hr1, hr⟩ := h
      subst hr
      show r1.2 = _
      rw [ih _ _ _ r1 hr1 (Nat.mod_lt _ (by rw [hU64]; norm_num)), accounting_step]

theorem switch_branch_returns (L : Layout) (data : Bytes) (p parsed remaining : Nat)
    (ep_switch : EpPortSwitch) (r : Nat × EpPortSwitch)
    (h : gfms_ep_port_switch_branch L data p parsed remaining ep_switch = some r) :
    r.1 = (parsed + remaining) % U64 := by
  have hU64 : U64 = 18446744073709551616 := rfl
  unfold gfms_ep_port_switch_branch at h
  simp only [Option.bind_eq_bind, Option.pure_def, Option.bind_eq_some] at h
  obtain ⟨sw, _, r1, hr1, hr⟩ := h
  simp only [Option.some.injEq] at hr
  subst hr
  show r1.2 = _
  rw [switch_eps_loop_accounting L data _ _ _ _ r1 hr1 (Nat.mod_lt _ (by rw [hU64]; norm_num)),
    accounting_step]

/-- C20: in the Switch branch of `gfms_ep_port_sub_section_parse` the sum
`parsed_len + remaining_len` is `port_hdr.size_dw * 4` modulo `2^64` after the header, and
the update made after the internal-function table and after each attached endpoint keeps
it; each attached endpoint is decoded at the cursor advanced by the length the previous
decoder returned; and whenever the function returns for a port of type Switch, it returns
`port_hdr.size_dw * 4`. -/
theorem switch_branch_accounting (L : Layout) (data : Bytes) :
    (∀ p ep_port r, p + L.port_hdr_size ≤ data.length →
      L.port_type ((data.drop p).take L.port_hdr_size) = L.TYPE_SWITCH →
      gfms_ep_port_sub_section_parse L data p ep_port = some r →
      r.1 = dw_bytes (L.port_size_dw ((data.drop p).take L.port_hdr_size))) ∧
    (∀ p ep_port, p + L.port_hdr_size ≤ data.length →
      L.port_type ((data.drop p).take L.port_hdr_size) = L.TYPE_SWITCH →
      gfms_ep_port_sub_section_parse L data p ep_port
        = (gfms_ep_port_switch_branch L data (p + L.port_hdr_size) L.port_hdr_size
            ((dw_bytes (L.port_size_dw ((data.drop p).take L.port_hdr_size)) + U64
              - L.port_hdr_size % U64) % U64) ep_port.ep_switch).map
          (fun r => (r.1,
            { ep_port with
              port_hdr := (data.drop p).take L.port_hdr_size, ep_switch := r.2 })) ∧
      (L.port_hdr_size + (dw_bytes (L.port_size_dw ((data.drop p).take L.port_hdr_size))
          + U64 - L.port_hdr_size % U64) % U64) % U64
        = dw_bytes (L.port_size_dw ((data.drop p).take L.port_hdr_size))) ∧
    (∀ p parsed_len remaining_len ep_switch sw,
      gfms_ep_port_attache_switch_parse L data p ep_switch = some sw →
      gfms_ep_port_switch_branch L data p parsed_len remaining_len ep_switch
        = (gfms_ep_port_switch_eps_loop L data sw.2.switch_eps (p + sw.1)
            ((parsed_len + sw.1) % U64) ((remaining_len + U64 - sw.1 % U64) % U64)).map
          (fun r => (r.2, { sw.2 with switch_eps := r.1 })) ∧
      ((parsed_len + sw.1) % U64 + (remaining_len + U64 - sw.1 % U64) % U64) % U64
        = (parsed_len + remaining_len) % U64) ∧
    (∀ ep rest p parsed_len remaining_len e, remaining_len ≠ 0 →
      gfms_ep_port_attached_ep_parse L data p ep = some e →
      gfms_ep_port_switch_eps_loop L data (ep :: rest) p parsed_len remaining_len
        = (gfms_ep_port_switch_eps_loop L data rest (p + e.1) ((parsed_len + e.1) % U64)
            ((remaining_len + U64 - e.1 % U64) % U64)).map (fun r => (e.2 :: r.1, r.2)) ∧
      ((parsed_len + e.1) % U64 + (remaining_len + U64 - e.1 % U64) % U64) % U64
        = (parsed_len + remaining_len) % U64) ∧
    (∀ slots p parsed_len remaining_len r,
      gfms_ep_port_switch_eps_loop L data slots p parsed_len remaining_len = some r →
      parsed_len < U64 → r.2 = (parsed_len + remaining_len) % U64) := by
  have hU32 : U32 = 4294967296 := rfl
  have hU64 : U64 = 18446744073709551616 := rfl
  have hd : ∀ x, dw_bytes x < 4294967296 := by
    intro x
    unfold dw_bytes
    rw [hU32]
    exact Nat.mod_lt _ (by norm_num)
  have hhdr : ∀ h d, d < 4294967296 → (h + (d + U64 - h % U64) % U64) % U64 = d := by
    intro h d hlt
    rw [hU64]
    omega
  have hunf : ∀ p ep_port, p + L.port_hdr_size ≤ data.length →
      L.port_type ((data.drop p).take L.port_hdr_size) = L.TYPE_SWITCH →
      gfms_ep_port_sub_section_parse L data p ep_port
        = (gfms_ep_port_switch_branch L data (p + L.port_hdr_size) L.port_hdr_size
            ((dw_bytes (L.port_size_dw ((data.drop p).take L.port_hdr_size)) + U64
              - L.port_hdr_size % U64) % U64) ep_port.ep_switch).map
          (fun r => (r.1,
            { ep_port with
              port_hdr := (data.drop p).take L.port_hdr_size, ep_switch := r.2 })) := by
    intro p ep_port hsrc hty
    unfold gfms_ep_port_sub_section_parse
    rw [rd_in_range data p L.port_hdr_size hsrc, Option.some_bind, if_pos hty]
    rfl
  refine ⟨?_, fun p ep_port hsrc hty => ⟨hunf p ep_port hsrc hty, hhdr _ _ (hd _)⟩, ?_, ?_,
    switch_eps_loop_accounting L data⟩
  · intro p ep_port r hsrc hty h
    rw [hunf p ep_port hsrc hty] at h
    simp only [Option.map_eq_some'] at h
    obtain ⟨r1, hr1, hr⟩ := h
    subst hr
    show r1.1 = _
    rw [switch_branch_returns L data _ _ _ _ r1 hr1, hhdr _ _ (hd _)]
  · intro p parsed_len remaining_len ep_switch sw hsw
    refine ⟨?_, accounting_step _ _ _⟩
    unfold gfms_ep_port_switch_branch
    simp only [Option.bind_eq_bind, Option.pure_def]
    rw [hsw, Option.some_bind]
    cases gfms_ep_port_switch_eps_loop L data sw.2.switch_eps (p + sw.1)
      ((parsed_len + sw.1) % U64) ((remaining_len + U64 - sw.1 % U64) % U64) <;> rfl
  · intro ep rest p parsed_len remaining_len e hrem he
    refine ⟨?_, accounting_step _ _ _⟩
    rw [gfms_ep_port_switch_eps_loop, if_neg hrem, he, Option.some_bind]

set_option maxRecDepth 100000 in
/-- Witness of C20: the sample Switch port of 9 dwords, with one internal function and two
attached endpoints, decoded at offset 0; 36 is returned. -/
theorem switch_branch_accounting_witness :
    gfms_ep_port_sub_section_parse sample_layout (encode_port sample_switch_rec) 0 sample_port
      = some (36, put_port sample_port sample_switch_rec) ∧
    (36 : Nat)
      = dw_bytes (sample_layout.port_size_dw
          (((encode_port sample_switch_rec).drop 0).take sample_layout.port_hdr_size)) :=
  ⟨by decide,
    (switch_branch_accounting sample_layout (encode_port sample_switch_rec)).1 0 sample_port
      (36, put_port sample_port sample_switch_rec) (by decide) (by decide) (by decide)⟩

/-! ## Field offsets of the HVD detail record -/

theorem rd_shift (data : Bytes) (p q n : Nat) (hp : p ≤ data.length) :
    rd data (p + q) n = rd (data.drop p) q n := by
  unfold rd
  rw [List.length_drop, List.drop_drop]
  by_cases h : p + q + n ≤ data.length
  · rw [if_pos h, if_pos (by omega)]
  · rw [if_neg h, if_neg (by omega)]

theorem attached_ep_shift (L : Layout) (data : Bytes) (p q : Nat) (o : EpPortEp)
    (hp : p ≤ data.length) :
    gfms_ep_port_attached_ep_parse L data (p + q) o
      = gfms_ep_port_attached_ep_parse L (data.drop p) q o := by
  simp only [gfms_ep_port_attached_ep_parse, Nat.add_assoc, rd_shift data p _ _ hp]

theorem attache_switch_shift (L : Layout) (data : Bytes) (p q : Nat) (o : EpPortSwitch)
    (hp : p ≤ data.length) :
    gfms_ep_port_attache_switch_parse L data (p + q) o
      = gfms_ep_port_attache_switch_parse L (data.drop p) q o := by
  simp only [gfms_ep_port_attache_switch_parse, Nat.add_assoc, rd_shift data p _ _ hp]

theorem switch_eps_loop_shift (L : Layout) (data : Bytes) (p : Nat) (hp : p ≤ data.length) :
    ∀ (slots : List EpPortEp) (q parsed remaining : Nat),
      gfms_ep_port_switch_eps_loop L data slots (p + q) parsed remaining
        = gfms_ep_port_switch_eps_loop L (data.drop p) slots q parsed remaining := by
  intro slots
  induction slots with
  | nil =>
    intro q parsed remaining
    rw [gfms_ep_port_switch_eps_loop, gfms_ep_port_switch_eps_loop]
  | cons ep rest ih =>
    intro q parsed remaining
    rw [gfms_ep_port_switch_eps_loop, gfms_ep_port_switch_eps_loop,
      attached_ep_shift L data p q ep hp]
    simp only [Nat.add_assoc, ih]

theorem switch_branch_shift (L : Layout) (data : Bytes) (p q parsed remaining : Nat)
    (o : EpPortSwitch) (hp : p ≤ data.length) :
    gfms_ep_port_switch_branch L data (p + q) parsed remaining o
      = gfms_ep_port_switch_branch L (data.drop p) q parsed remaining o := by
  unfold gfms_ep_port_switch_branch
  rw [attache_switch_shift L data p q o hp]
  simp only [Nat.add_assoc, switch_eps_loop_shift L data p hp]

theorem sub_section_shift (L : Layout) (data : Bytes) (p q : Nat) (o : EpPort)
    (hp : p ≤ data.length) :
    gfms_ep_port_sub_section_parse L data (p + q) o
      = gfms_ep_port_sub_section_parse L (data.drop p) q o := by
  unfold gfms_ep_port_sub_section_parse
  rw [rd_shift data p q _ hp]
  simp only [Nat.add_assoc, switch_branch_shift L data p _ _ _ _ hp,
    attached_ep_shift L data p _ _ hp]

theorem ep_port_section_unfold (L : Layout) (data : Bytes) (p : Nat)
    (ep_port_section : EpPortSection) (hsrc : p + L.hdr_size ≤ data.length) :
    gfms_ep_port_section_parse L data p ep_port_section
      = (gfms_ep_port_sub_section_parse L (data.drop (p + L.hdr_size)) 0
          ep_port_section.ep_port).map
        (fun r => ((L.hdr_size + r.1) % U64,
          { hdr := (data.drop p).take L.hdr_size, ep_port := r.2 })) := by
  have hs := sub_section_shift L data (p + L.hdr_size) 0 ep_port_section.ep_port hsrc
  rw [Nat.add_zero] at hs
  rw [← hs]
  unfold gfms_ep_port_section_parse
  simp only [Option.bind_eq_bind, Option.pure_def]
  rw [rd_in_range data p L.hdr_size hsrc, Option.some_bind]
  cases gfms_ep_port_sub_section_parse L data (p + L.hdr_size) ep_port_section.ep_port
    <;> rfl

theorem switch_eps_loop_ignores_resp_size (L : Layout) (f : Bytes → Nat) (data : Bytes) :
    ∀ (slots : List EpPortEp) (p parsed remaining : Nat),
      gfms_ep_port_switch_eps_loop { L with resp_size_dw := f } data slots p parsed remaining
        = gfms_ep_port_switch_eps_loop L data slots p parsed remaining := by
  intro slots
  induction slots with
  | nil =>
    intro p parsed remaining
    rw [gfms_ep_port_switch_eps_loop, gfms_ep_port_switch_eps_loop]
  | cons ep rest ih =>
    intro p parsed remaining
    rw [gfms_ep_port_switch_eps_loop, gfms_ep_port_switch_eps_loop]
    simp only [ih]
    rfl

theorem sub_section_ignores_resp_size (L : Layout) (f : Bytes → Nat) (data : Bytes) (p : Nat)
    (o : EpPort) :
    gfms_ep_port_sub_section_parse { L with resp_size_dw := f } data p o
      = gfms_ep_port_sub_section_parse L data p o := by
  unfold gfms_ep_port_sub_section_parse gfms_ep_port_switch_branch
  simp only [switch_eps_loop_ignores_resp_size]
  rfl

/-- C21: `gfms_ep_port_section_parse` does not use `hdr.resp_size_dw`.  Two buffers that
hold a section header at `p` and agree on every byte behind it, whatever the two headers
declare, give the same returned length and the same decoded `ep_port`; the length is
`sizeof(hdr)` plus the length `gfms_ep_port_sub_section_parse` returns on the bytes after
the header; and the result does not change when the member `resp_size_dw` is read in any
other way. -/
theorem section_size_not_used (L : Layout) (data1 data2 : Bytes) (p : Nat)
    (ep_port_section : EpPortSection)
    (h1 : p + L.hdr_size ≤ data1.length) (h2 : p + L.hdr_size ≤ data2.length)
    (hrest : data1.drop (p + L.hdr_size) = data2.drop (p + L.hdr_size)) :
    (gfms_ep_port_section_parse L data1 p ep_port_section).map (fun r => (r.1, r.2.ep_port))
      = (gfms_ep_port_section_parse L data2 p ep_port_section).map
          (fun r => (r.1, r.2.ep_port)) ∧
    (gfms_ep_port_section_parse L data1 p ep_port_section).map (fun r => (r.1, r.2.ep_port))
      = (gfms_ep_port_sub_section_parse L (data1.drop (p + L.hdr_size)) 0
          ep_port_section.ep_port).map (fun r => ((L.hdr_size + r.1) % U64, r.2)) ∧
    (gfms_ep_port_section_parse L data1 p ep_port_section).map (fun r => r.2.hdr)
      = (gfms_ep_port_sub_section_parse L (data1.drop (p + L.hdr_size)) 0
          ep_port_section.ep_port).map (fun _ => (data1.drop p).take L.hdr_size) ∧
    ∀ f : Bytes → Nat,
      gfms_ep_port_section_parse { L with resp_size_dw := f } data1 p ep_port_section
        = gfms_ep_port_section_parse L data1 p ep_port_section := by
  refine ⟨?_, ?_, ?_, fun f => ?_⟩
  · rw [ep_port_section_unfold L data1 p _ h1, ep_port_section_unfold L data2 p _ h2, hrest]
    simp only [Option.map_map]
    rfl
  · rw [ep_port_section_unfold L data1 p _ h1]
    simp only [Option.map_map]
    rfl
  · rw [ep_port_section_unfold L data1 p _ h1]
    simp only [Option.map_map]
    rfl
  · unfold gfms_ep_port_section_parse
    simp only [sub_section_ignores_resp_size]

set_option maxRecDepth 100000 in
/-- Witness of C21: the sample Switch port behind a section header that declares 12 dwords,
and behind one that declares 99; both give 48 bytes and the same port. -/
theorem section_size_not_used_witness :
    (gfms_ep_port_section_parse sample_layout
        ([3, 0, 0, 0, 12, 0, 0, 0, 0, 0, 0, 0] ++ encode_port sample_switch_rec) 0
        sample_section).map (fun r => (r.1, r.2.ep_port))
      = some (48, put_port sample_port sample_switch_rec) ∧
    (gfms_ep_port_section_parse sample_layout
        ([3, 0, 0, 0, 12, 0, 0, 0, 0, 0, 0, 0] ++ encode_port sample_switch_rec) 0
        sample_section).map (fun r => (r.1, r.2.ep_port))
      = (gfms_ep_port_section_parse sample_layout
          ([3, 0, 0, 0, 99, 0, 0, 0, 0, 0, 0, 0] ++ encode_port sample_switch_rec) 0
          sample_section).map (fun r => (r.1, r.2.ep_port)) :=
  ⟨by decide,
    (section_size_not_used sample_layout
      ([3, 0, 0, 0, 12, 0, 0, 0, 0, 0, 0, 0] ++ encode_port sample_switch_rec)
      ([3, 0, 0, 0, 99, 0, 0, 0, 0, 0, 0, 0] ++ encode_port sample_switch_rec) 0
      sample_section (by decide) (by decide) (by decide)).1⟩

/-! ## The element counts of the two section decoders -/

theorem empty_section_remaining (h d : Nat) (hd : d % U32 = h) :
    (d % U32 + U64 - h % U64) % U64 = 0 := by
  have hU32 : U32 = 4294967296 := rfl
  have hU64 : U64 = 18446744073709551616 := rfl
  rw [hU32] at hd
  rw [hU32, hU64]
  omega

theorem hvd_all_section_empty (L : Layout) (data : Bytes) (p : Nat) (out : HvdAll)
    (hsrc : p + L.hdr_size ≤ data.length)
    (hempty : dw_bytes (L.resp_size_dw ((data.drop p).take L.hdr_size)) = L.hdr_size) :
    gfms_hvd_all_section_parse L data p out
      = some (L.hdr_size,
          { hdr := (data.drop p).take L.hdr_size, hvd_count := out.hvd_count,
            bodies := out.bodies }) := by
  unfold gfms_hvd_all_section_parse
  simp only [Option.bind_eq_bind, Option.pure_def]
  rw [rd_in_range data p L.hdr_size hsrc, Option.some_bind,
    empty_section_remaining L.hdr_size _ hempty]
  cases out.bodies <;> simp [gfms_hvd_all_loop]

theorem ep_port_all_section_empty (L : Layout) (data : Bytes) (p : Nat) (out : EpPortAll)
    (hsrc : p + L.hdr_size ≤ data.length)
    (hempty : dw_bytes (L.resp_size_dw ((data.drop p).take L.hdr_size)) = L.hdr_size) :
    gfms_ep_port_all_section_parse L data p out
      = some (L.hdr_size,
          { hdr := (data.drop p).take L.hdr_size, ep_port_count := out.ep_port_count,
            ep_ports := out.ep_ports }) := by
  unfold gfms_ep_port_all_section_parse
  simp only [Option.bind_eq_bind, Option.pure_def]
  rw [rd_in_range data p L.hdr_size hsrc, Option.some_bind,
    empty_section_remaining L.hdr_size _ hempty]
  cases out.ep_ports <;> simp [gfms_ep_port_all_loop]

/-- C22: the element counts are written only inside the decode loops.  For a section that
encodes `n ≥ 1` valid HVD bodies fitting the output array, `gfms_hvd_all_section_parse`
sets `hvd_count` to `n`; for a section that declares no body
(`hdr.resp_size_dw * 4 = sizeof(hdr)`) it returns `sizeof(hdr)`, stores the header and
leaves `hvd_count` and the array as they were.  `gfms_ep_port_all_section_parse` does the
same with `ep_port_count` and the port sub-records. -/
theorem counts_written_in_loops (L : Layout) (data : Bytes) (p : Nat) :
    (∀ hdr bs rest (out : HvdAll), hdr.length = L.hdr_size →
      (L.resp_size_dw hdr % U32) * 4 = (hdr ++ encode_bodies bs).length →
      (∀ b ∈ bs, valid_body L b) → fits_bodies out.bodies bs → data.length < U32 →
      p ≤ data.length → data.drop p = hdr ++ encode_bodies bs ++ rest → bs ≠ [] →
      gfms_hvd_all_section_parse L data p out
        = some ((hdr ++ encode_bodies bs).length,
            { hdr := hdr, hvd_count := bs.length, bodies := put_bodies out.bodies bs })) ∧
    (∀ out : HvdAll, p + L.hdr_size ≤ data.length →
      dw_bytes (L.resp_size_dw ((data.drop p).take L.hdr_size)) = L.hdr_size →
      gfms_hvd_all_section_parse L data p out
        = some (L.hdr_size,
            { hdr := (data.drop p).take L.hdr_size, hvd_count := out.hvd_count,
              bodies := out.bodies })) ∧
    (∀ hdr qs rest (out : EpPortAll), L.WF → hdr.length = L.hdr_size →
      (L.resp_size_dw hdr % U32) * 4 = (hdr ++ encode_ports qs).length →
      (∀ q ∈ qs, valid_port L q) → fits_ports out.ep_ports qs → data.length < U32 →
      p ≤ data.length → data.drop p = hdr ++ encode_ports qs ++ rest → qs ≠ [] →
      gfms_ep_port_all_section_parse L data p out
        = some ((hdr ++ encode_ports qs).length,
            { hdr := hdr, ep_port_count := qs.length,
              ep_ports := put_ports out.ep_ports qs })) ∧
    (∀ out : EpPortAll, p + L.hdr_size ≤ data.length →
      dw_bytes (L.resp_size_dw ((data.drop p).take L.hdr_size)) = L.hdr_size →
      gfms_ep_port_all_section_parse L data p out
        = some (L.hdr_size,
            { hdr := (data.drop p).take L.hdr_size, ep_port_count := out.ep_port_count,
              ep_ports := out.ep_ports })) := by
  refine ⟨?_, fun out hsrc hempty => hvd_all_section_empty L data p out hsrc hempty, ?_,
    fun out hsrc hempty => ep_port_all_section_empty L data p out hsrc hempty⟩
  · intro hdr bs rest out hh hs hv hfit hdl hp h hne
    rw [hvd_all_section_ok L data p hdr bs rest out hh hs hv hfit hdl hp h, if_neg hne]
  · intro hdr qs rest out hL hh hs hv hfit hdl hp h hne
    rw [ep_port_all_section_ok L hL data p hdr qs rest out hh hs hv hfit hdl hp h, if_neg hne]

set_option maxRecDepth 100000 in
/-- Witness of C22: the HVD section of the mixed sample record (2 bodies) sets
`hvd_count = 2`; the HVD section of the empty sample record returns 12 and leaves
`hvd_count = 7`. -/
theorem counts_written_in_loops_witness :
    gfms_hvd_all_section_parse sample_layout (encode sample_rec) 16 sample_out.hvd_all
      = some ((sample_rec.hvd_hdr ++ encode_bodies sample_rec.bodies).length,
          { hdr := sample_rec.hvd_hdr, hvd_count := (2 : Nat),
            bodies := put_bodies sample_out.hvd_all.bodies sample_rec.bodies }) ∧
    gfms_hvd_all_section_parse sample_layout (encode sample_empty_rec) 16 sample_out.hvd_all
      = some (12,
          { hdr := ((encode sample_empty_rec).drop 16).take 12, hvd_count := 7,
            bodies := sample_out.hvd_all.bodies }) :=
  ⟨(counts_written_in_loops sample_layout (encode sample_rec) 16).1 sample_rec.hvd_hdr
      sample_rec.bodies ((encode sample_rec).drop 48) sample_out.hvd_all (by decide)
      (by decide) (by decide) (by decide) (by decide) (by decide) (by decide) (by decide),
    (counts_written_in_loops sample_layout (encode sample_empty_rec) 16).2.1
      sample_out.hvd_all (by decide) (by decide)⟩

end Fabric
